import Mathlib

/-!
Meeting-room booking backend: scheduling core and authorization gate.

A shallow embedding of the Go services of the repository
(`api/internal/{models,repositories,services,middleware}`) together with
theorems about room availability, meeting creation, update and deletion,
attendee reconciliation, and the role middleware.

Modelling conventions:

* `time.Time` is an instant, embedded as an `Int` offset from Go's zero time;
  `Before` and `After` are the strict order on instants.
* Go's `uint` identifiers are natural numbers (no arithmetic is done on them
  apart from the store's auto-increment).
* The relational store is a value of type `DB`: one list of rows per table and
  the join table `meeting_attendees`; a room is stored with the features it is
  associated with. Repository methods are total functions on it (driver
  failures are not part of the model). No service ever calls the repositories'
  soft-delete methods for meetings, rooms or users, so every row of the model
  is a visible row.
* `Save` of the ORM writes all columns of the row, after it has saved the
  associations loaded in the struct: the key of a loaded belongs-to association
  (`Meeting.Organizer`, `Meeting.Room`) is copied into its foreign key field, so
  the foreign key written is the one of the loaded association, and for a
  many-to-many association (`Room.Features`) the missing join rows are inserted
  and none is deleted. Associated rows that already exist are left as they are.
* `errors.New(msg)` is `Except.error msg`. `CreateMeeting` and `UpdateMeeting`
  return the new store with their result; all their fallible checks come before
  their first write. `DeleteMeeting` returns the store after the call in both
  outcomes.
-/

namespace MeetingSalt

/-! ## Data model (`models/*.go`) -/

/-- An instant, as in Go's `time.Time`. -/
abbrev Time := Int

/-- Status of a meeting, `type MeetingStatus string`. -/
abbrev MeetingStatus := String

def StatusScheduled : MeetingStatus := "scheduled"
def StatusInProgress : MeetingStatus := "in_progress"
def StatusCompleted : MeetingStatus := "completed"
def StatusCancelled : MeetingStatus := "cancelled"

/-- Role of a user, `type UserRole string`. -/
abbrev UserRole := String

def RoleAdmin : UserRole := "admin"
def RoleManager : UserRole := "manager"
def RoleEmployee : UserRole := "employee"

/-- Row of the `users` table. -/
structure User where
  ID : Nat
  Email : String
  Role : UserRole
  IsActive : Bool
  FirstName : String := ""
  LastName : String := ""
  DisplayName : String := ""
  ProfilePicture : String := ""
deriving DecidableEq, Repr

/-- Row of the `room_features` table. -/
structure RoomFeature where
  ID : Nat
  Name : String
  Description : String := ""
deriving DecidableEq, Repr

/-- A room as `GetByID` loads it and `Save` writes it: the row of the `rooms`
table together with the features associated with it. -/
structure Room where
  ID : Nat
  Name : String
  Capacity : Int
  IsActive : Bool
  Description : String := ""
  Location : String := ""
  Features : List RoomFeature := []
deriving DecidableEq, Repr

/-- Row of the `meetings` table. The bookkeeping columns `CreatedAt`, `UpdatedAt`
and `DeletedAt`, which only the ORM writes, are left out. -/
structure Meeting where
  ID : Nat
  Title : String
  Description : String
  StartTime : Time
  EndTime : Time
  Status : MeetingStatus
  IsRecurring : Bool
  RecurrencePattern : String
  OrganizerID : Nat
  RoomID : Nat
deriving DecidableEq, Repr

/-- Body of a create request, `models.CreateMeetingRequest`. -/
structure CreateMeetingRequest where
  Title : String
  Description : String
  StartTime : Time
  EndTime : Time
  RoomID : Nat
  AttendeeIDs : List Nat
  IsRecurring : Bool
  RecurrencePattern : String
deriving DecidableEq, Repr

/-- Body of an update request, `models.UpdateMeetingRequest`: every pointer
field is an `Option`, and a nil attendee slice is `none`. -/
structure UpdateMeetingRequest where
  Title : Option String
  Description : Option String
  StartTime : Option Time
  EndTime : Option Time
  RoomID : Option Nat
  AttendeeIDs : Option (List Nat)
  Status : Option MeetingStatus
  IsRecurring : Option Bool
  RecurrencePattern : Option String
deriving DecidableEq, Repr

/-- The relational store. -/
structure DB where
  users : List User
  rooms : List Room
  meetings : List Meeting
  /-- Join table `meeting_attendees`, rows `(meeting_id, user_id)`. -/
  attendees : List (Nat × Nat)
  /-- Next value of the auto-increment key of `meetings`. -/
  nextMeetingID : Nat
  /-- Table `room_features`. -/
  features : List RoomFeature := []
deriving DecidableEq, Repr

/-- `Meeting.IsOverlapping` (models/meeting.go:70). -/
def Meeting.IsOverlapping (m : Meeting) (startTime endTime : Time) : Bool :=
  decide (m.StartTime < endTime) && decide (m.EndTime > startTime)

/-- `Meeting.IsActive` (models/meeting.go:78). -/
def Meeting.IsActive (m : Meeting) : Bool :=
  m.Status == StatusScheduled || m.Status == StatusInProgress

/-- `User.IsManager` (models/user.go:62). -/
def User.IsManager (u : User) : Bool :=
  u.Role == RoleManager || u.Role == RoleAdmin

/-! ## Repositories (`repositories/*.go`) -/

/-- `roomRepository.GetByID`: first row with the given key. -/
def roomGetByID (db : DB) (id : Nat) : Option Room :=
  db.rooms.find? (fun r => r.ID == id)

/-- `userRepository.GetByID`. -/
def userGetByID (db : DB) (id : Nat) : Option User :=
  db.users.find? (fun u => u.ID == id)

/-- `meetingRepository.GetByID`. -/
def meetingGetByID (db : DB) (id : Nat) : Option Meeting :=
  db.meetings.find? (fun m => m.ID == id)

/-- The `WHERE` clause of `roomRepository.IsRoomAvailable`
(repositories/room.go:137-143):
`room_id = ? AND start_time < ? AND end_time > ? AND status IN (scheduled, in_progress)`
and, when an excluded id is given, `id != ?`. -/
def conflictRow (roomID : Nat) (startTime endTime : Time) (excludeMeetingID : Option Nat)
    (m : Meeting) : Bool :=
  (m.RoomID == roomID && decide (m.StartTime < endTime) && decide (m.EndTime > startTime)
    && (m.Status == StatusScheduled || m.Status == StatusInProgress))
  && (match excludeMeetingID with
      | none => true
      | some x => m.ID != x)

/-- `roomRepository.IsRoomAvailable` (repositories/room.go:136): counts the
conflicting rows and answers `count == 0`. -/
def IsRoomAvailable (db : DB) (roomID : Nat) (startTime endTime : Time)
    (excludeMeetingID : Option Nat) : Bool :=
  (db.meetings.filter (conflictRow roomID startTime endTime excludeMeetingID)).length == 0

/-- `meetingRepository.Create` (repositories/meeting.go:35): inserts the row
under the next auto-increment key and reads it back with `GetByID`. -/
def meetingCreate (db : DB) (meeting : Meeting) : DB × Option Meeting :=
  let row : Meeting := { meeting with ID := db.nextMeetingID }
  let db1 : DB := { db with meetings := db.meetings ++ [row],
                            nextMeetingID := db.nextMeetingID + 1 }
  (db1, meetingGetByID db1 row.ID)

/-- The belongs-to associations of a `models.Meeting` struct, the fields
`Organizer` and `Room`; `none` is Go's zero struct. -/
structure MeetingAssociations where
  Organizer : Option User
  Room : Option Room
deriving DecidableEq, Repr

/-- The associations `meetingRepository.GetByID` loads with the row
(repositories/meeting.go:45, `Preload("Organizer")` and `Preload("Room")`): the
rows the two foreign keys of the meeting refer to, left zero when there is no
such row. -/
def meetingPreload (db : DB) (meeting : Meeting) : MeetingAssociations :=
  { Organizer := userGetByID db meeting.OrganizerID
    Room := roomGetByID db meeting.RoomID }

/-- What `Save` does to the foreign keys of the struct before it writes the
row: each belongs-to association that is loaded (not the zero struct) is saved
first, without changing an existing row, and its primary key is copied into the
foreign key field it belongs to. -/
def saveReferences (loaded : MeetingAssociations) (meeting : Meeting) : Meeting :=
  { meeting with
    OrganizerID := match loaded.Organizer with
      | some organizer => organizer.ID
      | none => meeting.OrganizerID
    RoomID := match loaded.Room with
      | some room => room.ID
      | none => meeting.RoomID }

/-- The `UPDATE` of `Save`: all columns of the row with the meeting's key are
written, then the row is read back. -/
def saveMeetingRow (db : DB) (meeting : Meeting) : DB × Option Meeting :=
  let db1 : DB := { db with
    meetings := db.meetings.map (fun m => if m.ID == meeting.ID then meeting else m) }
  (db1, meetingGetByID db1 meeting.ID)

/-- `meetingRepository.Update` (repositories/meeting.go:66): `Save` of the
struct, whose `Organizer` and `Room` fields are `loaded`, then `GetByID`. The
foreign keys are taken from the loaded associations (`saveReferences`), then
all columns of the row are written. The join rows of the loaded attendees are
inserted again without effect. -/
def meetingUpdate (db : DB) (loaded : MeetingAssociations) (meeting : Meeting) :
    DB × Option Meeting :=
  saveMeetingRow db (saveReferences loaded meeting)

/-- `meetingRepository.GetMeetingAttendees` (repositories/meeting.go:209): the
users preloaded through the join table. -/
def GetMeetingAttendees (db : DB) (meetingID : Nat) : List User :=
  db.users.filter (fun u => db.attendees.contains (meetingID, u.ID))

/-- `meetingRepository.AddAttendee` (repositories/meeting.go:223):
`INSERT IGNORE` into the join table. -/
def AddAttendee (db : DB) (meetingID userID : Nat) : DB :=
  if db.attendees.contains (meetingID, userID) then db
  else { db with attendees := db.attendees ++ [(meetingID, userID)] }

/-- `meetingRepository.RemoveAttendee` (repositories/meeting.go:228). -/
def RemoveAttendee (db : DB) (meetingID userID : Nat) : DB :=
  { db with attendees := db.attendees.filter (fun p => !(p == (meetingID, userID))) }

/-! ## Request validation (`utils/validation.go`) -/

/-- `utils.ValidateStruct` on a `CreateMeetingRequest`: the struct tags are
`validate:"required"` on `Title`, `StartTime`, `EndTime` and `RoomID`; the tag
fails on the zero value of the field's type. The result lists the failing
fields. -/
def ValidateStruct (req : CreateMeetingRequest) : List String :=
  (if req.Title == "" then ["title"] else [])
  ++ (if req.StartTime == 0 then ["starttime"] else [])
  ++ (if req.EndTime == 0 then ["endtime"] else [])
  ++ (if req.RoomID == 0 then ["roomid"] else [])

/-! ## Meeting service (`services/meeting.go`) -/

/-- One turn of the attendee loop of `CreateMeeting` (services/meeting.go:82-95):
the organizer, unknown users and inactive users are skipped. -/
def createAttendeeStep (organizerID meetingID : Nat) (db : DB) (attendeeID : Nat) : DB :=
  if attendeeID == organizerID then db
  else
    match userGetByID db attendeeID with
    | none => db
    | some attendee =>
      if !attendee.IsActive then db
      else AddAttendee db meetingID attendeeID

/-- `MeetingService.CreateMeeting` (services/meeting.go:25). `now` is the value
of `time.Now()`. On success the new store and the created meeting are
returned. -/
def CreateMeeting (db : DB) (now : Time) (organizerID : Nat) (req : CreateMeetingRequest) :
    Except String (DB × Meeting) :=
  if (ValidateStruct req).length > 0 then .error "validation failed"
  else if req.EndTime < req.StartTime then .error "end time must be after start time"
  else if req.StartTime < now then .error "meeting start time cannot be in the past"
  else
    match roomGetByID db req.RoomID with
    | none => .error "room not found"
    | some room =>
      if !room.IsActive then .error "room is not active"
      else if !IsRoomAvailable db req.RoomID req.StartTime req.EndTime none then
        .error "room is not available for the selected time"
      else
        match userGetByID db organizerID with
        | none => .error "organizer not found"
        | some organizer =>
          if !organizer.IsActive then .error "organizer is not active"
          else
            let meeting : Meeting :=
              { ID := 0
                Title := req.Title
                Description := req.Description
                StartTime := req.StartTime
                EndTime := req.EndTime
                OrganizerID := organizerID
                RoomID := req.RoomID
                Status := StatusScheduled
                IsRecurring := req.IsRecurring
                RecurrencePattern := req.RecurrencePattern }
            match meetingCreate db meeting with
            | (_, none) => .error "record not found"
            | (db1, some createdMeeting) =>
              let db2 := req.AttendeeIDs.foldl
                (createAttendeeStep organizerID createdMeeting.ID) db1
              match meetingGetByID db2 createdMeeting.ID with
              | none => .error "record not found"
              | some m => .ok (db2, m)

/-- Authorization step of `UpdateMeeting` and `DeleteMeeting`
(services/meeting.go:122-127, 242-247): the organizer passes; anyone else needs
an existing user record with `IsManager`. -/
def organizerOrManager (db : DB) (meeting : Meeting) (userID : Nat) : Bool :=
  if meeting.OrganizerID != userID then
    match userGetByID db userID with
    | none => false
    | some user => user.IsManager
  else true

/-- The time block of `UpdateMeeting` (services/meeting.go:140-173): when a
start or an end is supplied, the effective interval is validated and checked
for availability in the effective room, excluding the meeting itself. -/
def updateTimes (db : DB) (now : Time) (meeting : Meeting) (req : UpdateMeetingRequest) :
    Except String Meeting :=
  if req.StartTime.isSome || req.EndTime.isSome then
    match (match req.StartTime with
           | some st =>
             if st < now then (.error "meeting start time cannot be in the past" : Except String Time)
             else .ok st
           | none => .ok meeting.StartTime) with
    | .error e => .error e
    | .ok startTime =>
      let endTime := match req.EndTime with
        | some et => et
        | none => meeting.EndTime
      if endTime < startTime then .error "end time must be after start time"
      else
        let roomID := match req.RoomID with
          | some rid => rid
          | none => meeting.RoomID
        if !IsRoomAvailable db roomID startTime endTime (some meeting.ID) then
          .error "room is not available for the selected time"
        else .ok { meeting with StartTime := startTime, EndTime := endTime }
  else .ok meeting

/-- The room block of `UpdateMeeting` (services/meeting.go:175-184). -/
def updateRoom (db : DB) (meeting : Meeting) (req : UpdateMeetingRequest) :
    Except String Meeting :=
  match req.RoomID with
  | none => .ok meeting
  | some rid =>
    match roomGetByID db rid with
    | none => .error "room not found"
    | some room =>
      if !room.IsActive then .error "room is not active"
      else .ok { meeting with RoomID := rid }

/-- Attendee reconciliation of `UpdateMeeting` (services/meeting.go:203-231):
attendees no longer listed are removed, then newly listed ones that resolve to
an active user are added; the organizer is never listed. -/
def reconcileAttendees (db : DB) (meeting : Meeting) (attendeeIDs : List Nat) : DB :=
  let currentAttendees := (GetMeetingAttendees db meeting.ID).map (fun u => u.ID)
  let newAttendees := (attendeeIDs.filter (fun a => a != meeting.OrganizerID)).eraseDups
  let db1 := currentAttendees.eraseDups.foldl
    (fun d attendeeID =>
      if !newAttendees.contains attendeeID then RemoveAttendee d meeting.ID attendeeID else d) db
  newAttendees.foldl
    (fun d attendeeID =>
      if !currentAttendees.contains attendeeID then
        match userGetByID d attendeeID with
        | some attendee => if attendee.IsActive then AddAttendee d meeting.ID attendeeID else d
        | none => d
      else d) db1

/-- The title and description patch of `UpdateMeeting`
(services/meeting.go:133-138). -/
def updateText (meeting : Meeting) (req : UpdateMeetingRequest) : Meeting :=
  let meeting1 : Meeting := match req.Title with
    | some t => { meeting with Title := t }
    | none => meeting
  match req.Description with
  | some d => { meeting1 with Description := d }
  | none => meeting1

/-- The status and recurrence patch of `UpdateMeeting`
(services/meeting.go:186-196). -/
def updateFlags (meeting : Meeting) (req : UpdateMeetingRequest) : Meeting :=
  let meeting1 : Meeting := match req.Status with
    | some s => { meeting with Status := s }
    | none => meeting
  let meeting2 : Meeting := match req.IsRecurring with
    | some b => { meeting1 with IsRecurring := b }
    | none => meeting1
  match req.RecurrencePattern with
  | some p => { meeting2 with RecurrencePattern := p }
  | none => meeting2

/-- `MeetingService.UpdateMeeting` (services/meeting.go:116). `now` is the
value of `time.Now()`. The in-memory meeting is patched step by step
(`updateText`, `updateTimes`, `updateRoom`, `updateFlags`) and is written to
the store only when every step has passed. The struct handed to `Update` still
has the `Organizer` and `Room` that `GetByID` loaded (no step assigns them),
and `Save` sets the foreign keys of the struct from them before the attendee
block reads `meeting.OrganizerID`. -/
def UpdateMeeting (db : DB) (now : Time) (id userID : Nat) (req : UpdateMeetingRequest) :
    Except String (DB × Meeting) :=
  match meetingGetByID db id with
  | none => .error "meeting not found"
  | some meeting0 =>
    if !organizerOrManager db meeting0 userID then
      .error "only organizer or manager can update meeting"
    else if meeting0.Status == StatusCompleted || meeting0.Status == StatusCancelled then
      .error "cannot update completed or cancelled meeting"
    else
      match updateTimes db now (updateText meeting0 req) req with
      | .error e => .error e
      | .ok meeting3 =>
        match updateRoom db meeting3 req with
        | .error e => .error e
        | .ok meeting4 =>
          let meeting := updateFlags meeting4 req
          match meetingUpdate db (meetingPreload db meeting0) meeting with
          | (_, none) => .error "record not found"
          | (db1, some updatedMeeting) =>
            let db2 := match req.AttendeeIDs with
              | some ids =>
                reconcileAttendees db1 (saveReferences (meetingPreload db meeting0) meeting) ids
              | none => db1
            match meetingGetByID db2 updatedMeeting.ID with
            | none => .error "record not found"
            | some m => .ok (db2, m)

/-- `meetingRepository.UpdateMeetingStatus` (repositories/meeting.go:206):
`UPDATE meetings SET status = ? WHERE id = ?`. -/
def UpdateMeetingStatus (db : DB) (id : Nat) (status : MeetingStatus) : DB :=
  { db with
    meetings := db.meetings.map (fun m => if m.ID == id then { m with Status := status } else m) }

/-- `MeetingService.DeleteMeeting` (services/meeting.go:236). The result is the
store after the call together with the returned `error` (`.ok ()` for nil): the
only write is the status update of the last line. -/
def DeleteMeeting (db : DB) (id userID : Nat) : DB × Except String Unit :=
  match meetingGetByID db id with
  | none => (db, .error "meeting not found")
  | some meeting =>
    if !organizerOrManager db meeting userID then
      (db, .error "only organizer or manager can delete meeting")
    else if meeting.Status == StatusCompleted then
      (db, .error "cannot delete completed meeting")
    else (UpdateMeetingStatus db id StatusCancelled, .ok ())

/-! ## Authorization gate (`middleware/auth.go`) -/

/-- A value stored in the request context with `c.Set`. -/
inductive CtxValue where
  | uint (n : Nat)
  | str (s : String)
  | other
deriving DecidableEq, Repr

/-- The parts of `gin.Context` the middleware reads. -/
structure Context where
  /-- Context keys set by `AuthMiddleware`. -/
  keys : List (String × CtxValue)
  /-- Path parameters of the matched route. -/
  params : List (String × String)
  /-- Query parameters of the request URL. -/
  query : List (String × String) := []
deriving DecidableEq, Repr

/-- `c.Get(key)`. -/
def Context.Get (c : Context) (key : String) : Option CtxValue :=
  c.keys.lookup key

/-- `c.Param(key)`: the empty string when the route has no such parameter. -/
def Context.Param (c : Context) (key : String) : String :=
  (c.params.lookup key).getD ""

/-- What a middleware does with the request. -/
inductive Outcome where
  /-- `c.Next()`. -/
  | next
  /-- `utils.ForbiddenResponse(c, msg); c.Abort()`. -/
  | forbidden (msg : String)
deriving DecidableEq, Repr

/-- `RequireOwnerOrRole` (middleware/auth.go:84). `validateVar v tag` stands for
`utils.GetValidator().Var(&v, tag)` of the validator library returning no
error. The local `targetUserID` is declared (zero) and never assigned from the
path parameter before it is validated and compared. -/
def RequireOwnerOrRole (validateVar : Nat → String → Bool) (role : UserRole) (c : Context) :
    Outcome :=
  match c.Get "user_id" with
  | none => .forbidden "User ID not found"
  | some userID =>
    match userID with
    | .uint currentUserID =>
      let targetUserIDStr := if c.Param "id" == "" then c.Param "user_id" else c.Param "id"
      let targetUserID : Nat := 0
      if targetUserIDStr != "" && validateVar targetUserID "required,numeric"
          && currentUserID == targetUserID then .next
      else
        match c.Get "user_role" with
        | none => .forbidden "User role not found"
        | some userRole =>
          match userRole with
          | .str roleStr =>
            if role == RoleAdmin then
              if roleStr != RoleAdmin then .forbidden "Admin role required" else .next
            else if role == RoleManager then
              if roleStr != RoleAdmin && roleStr != RoleManager then
                .forbidden "Manager role or higher required"
              else .next
            else .next
          | _ => .forbidden "Invalid user role format"
    | _ => .forbidden "Invalid user ID format"

/-- `RequireRole` (middleware/auth.go:46). -/
def RequireRole (role : UserRole) (c : Context) : Outcome :=
  match c.Get "user_role" with
  | none => .forbidden "User role not found"
  | some userRole =>
    match userRole with
    | .str roleStr =>
      if role == RoleAdmin then
        if roleStr != RoleAdmin then .forbidden "Admin role required" else .next
      else if role == RoleManager then
        if roleStr != RoleAdmin && roleStr != RoleManager then
          .forbidden "Manager role or higher required"
        else .next
      else .next
    | _ => .forbidden "Invalid user role format"

/-! ## Room catalog (`repositories/room.go`, `services/room.go`) -/

/-- Query of the availability search, `models.RoomAvailabilityQuery`. -/
structure RoomAvailabilityQuery where
  StartTime : Time
  EndTime : Time
  Capacity : Option Int
deriving DecidableEq, Repr

/-- Body of a room update, `models.UpdateRoomRequest`. -/
structure UpdateRoomRequest where
  Name : Option String
  Description : Option String
  Capacity : Option Int
  Location : Option String
  FeatureIDs : Option (List Nat)
  IsActive : Option Bool
deriving DecidableEq, Repr

/-- `utils.ValidateStruct` on a `RoomAvailabilityQuery`: the tags are
`validate:"required"` on `StartTime` and `EndTime`. -/
def RoomAvailabilityQuery.ValidateStruct (req : RoomAvailabilityQuery) : List String :=
  (if req.StartTime == 0 then ["starttime"] else [])
  ++ (if req.EndTime == 0 then ["endtime"] else [])

/-- `utils.ValidateStruct` on an `UpdateRoomRequest`: the only tag is
`validate:"omitempty,min=1"` on the pointer field `Capacity`, which passes when
the pointer is nil and otherwise requires the value to be at least 1. -/
def UpdateRoomRequest.ValidateStruct (req : UpdateRoomRequest) : List String :=
  match req.Capacity with
  | none => []
  | some c => if c < 1 then ["capacity"] else []

/-- The subquery of `roomRepository.GetAvailableRooms` (repositories/room.go:123-126):
`SELECT room_id FROM meetings WHERE start_time < ? AND end_time > ? AND status IN
(scheduled, in_progress)`. -/
def busyRoomIDs (db : DB) (startTime endTime : Time) : List Nat :=
  (db.meetings.filter (fun m =>
    decide (m.StartTime < endTime) && decide (m.EndTime > startTime)
      && (m.Status == StatusScheduled || m.Status == StatusInProgress))).map (fun m => m.RoomID)

/-- `roomRepository.GetAvailableRooms` (repositories/room.go:116):
`is_active = true`, `capacity >= ?` when a capacity is given, and
`id NOT IN (subquery)`. -/
def GetAvailableRooms (db : DB) (startTime endTime : Time) (capacity : Option Int) :
    List Room :=
  db.rooms.filter (fun r =>
    (r.IsActive == true)
    && (match capacity with
        | some c => decide (r.Capacity ≥ c)
        | none => true)
    && !(busyRoomIDs db startTime endTime).contains r.ID)

/-- `RoomService.GetAvailableRooms` (services/room.go:145). -/
def RoomService.GetAvailableRooms (db : DB) (req : RoomAvailabilityQuery) :
    Except String (List Room) :=
  if req.ValidateStruct.length > 0 then .error "validation failed"
  else if req.EndTime < req.StartTime then .error "end time must be after start time"
  else .ok (MeetingSalt.GetAvailableRooms db req.StartTime req.EndTime req.Capacity)

/-- `roomFeatureRepository.GetByID` (repositories/room.go:160). -/
def featureGetByID (db : DB) (id : Nat) : Option RoomFeature :=
  db.features.find? (fun f => f.ID == id)

/-- What `Save` does to the many-to-many association `room_room_features`: for
each feature of the struct a join row is inserted unless the room already has
one for that feature id (`ON CONFLICT DO NOTHING`); no join row is deleted.
`stored` are the features the room is associated with before the call. -/
def saveFeatures (stored features : List RoomFeature) : List RoomFeature :=
  features.foldl
    (fun rows f => if rows.any (fun g => g.ID == f.ID) then rows else rows ++ [f]) stored

/-- `roomRepository.Update` (repositories/room.go:76): `Save` writes all columns
of the row with the room's key and adds the join rows of the struct's features
to those the room has (`saveFeatures`), then the room is read back with
`GetByID`. The meetings loaded with the room are written back with the room
key they already have. -/
def roomUpdate (db : DB) (room : Room) : DB × Option Room :=
  let db1 : DB := { db with
    rooms := db.rooms.map (fun r =>
      if r.ID == room.ID then { room with Features := saveFeatures r.Features room.Features }
      else r) }
  (db1, roomGetByID db1 room.ID)

/-- The feature loop of `UpdateRoom` (services/room.go:101-108): ids that do not
resolve are skipped. -/
def resolveFeatures (db : DB) (featureIDs : List Nat) : List RoomFeature :=
  featureIDs.filterMap (fun featureID => featureGetByID db featureID)

/-- The name and description patch of `UpdateRoom` (services/room.go:81-86). -/
def updateRoomText (room : Room) (req : UpdateRoomRequest) : Room :=
  let room1 : Room := match req.Name with
    | some n => { room with Name := n }
    | none => room
  match req.Description with
  | some d => { room1 with Description := d }
  | none => room1

/-- The capacity block of `UpdateRoom` (services/room.go:87-92): the request is
validated only when it carries a capacity. -/
def updateRoomCapacity (room : Room) (req : UpdateRoomRequest) : Except String Room :=
  match req.Capacity with
  | some c =>
    if req.ValidateStruct.length > 0 then .error "validation failed"
    else .ok { room with Capacity := c }
  | none => .ok room

/-- The location, active flag and feature patch of `UpdateRoom`
(services/room.go:93-110). -/
def updateRoomRest (db : DB) (room : Room) (req : UpdateRoomRequest) : Room :=
  let room1 : Room := match req.Location with
    | some l => { room with Location := l }
    | none => room
  let room2 : Room := match req.IsActive with
    | some a => { room1 with IsActive := a }
    | none => room1
  match req.FeatureIDs with
  | some ids => { room2 with Features := resolveFeatures db ids }
  | none => room2

/-- `RoomService.UpdateRoom` (services/room.go:75). The result is the store
after the call together with the returned room or error; the only write is the
`Update` of the last line. -/
def UpdateRoom (db : DB) (id : Nat) (req : UpdateRoomRequest) : DB × Except String Room :=
  match roomGetByID db id with
  | none => (db, .error "room not found")
  | some room0 =>
    match updateRoomCapacity (updateRoomText room0 req) req with
    | .error e => (db, .error e)
    | .ok room3 =>
      match roomUpdate db (updateRoomRest db room3 req) with
      | (db1, none) => (db1, .error "record not found")
      | (db1, some updated) => (db1, .ok updated)

/-- `RoomService.DeleteRoom` (services/room.go:115). The result is the store
after the call together with the returned `error`. -/
def DeleteRoom (db : DB) (id : Nat) : DB × Except String Unit :=
  match roomGetByID db id with
  | none => (db, .error "room not found")
  | some room =>
    if !room.IsActive then (db, .error "room is already inactive")
    else
      match roomUpdate db { room with IsActive := false } with
      | (db1, none) => (db1, .error "record not found")
      | (db1, some _) => (db1, .ok ())

/-! ## Number parsing (`strconv`) and pagination (`utils/pagination.go`) -/

/-- Value of a non-empty string of decimal digits; `none` for anything else. -/
def parseDigits (cs : List Char) : Option Nat :=
  if cs.isEmpty || !cs.all Char.isDigit then none
  else some (cs.foldl (fun n ch => n * 10 + (ch.toNat - '0'.toNat)) 0)

/-- `strconv.ParseUint(s, 10, 32)`: `none` stands for a returned error (a
syntax error or a value above `2^32 - 1`). -/
def ParseUint32 (s : String) : Option Nat :=
  match parseDigits s.data with
  | some n => if n < 2 ^ 32 then some n else none
  | none => none

/-- The value returned by `strconv.Atoi(s)`, its error being discarded: zero
on a syntax error, and the nearest 64-bit bound on a range error. -/
def Atoi (s : String) : Int :=
  let signed : Bool × List Char := match s.data with
    | '-' :: t => (true, t)
    | '+' :: t => (false, t)
    | cs => (false, cs)
  match parseDigits signed.2 with
  | none => 0
  | some n =>
    if signed.1 then max (-(n : Int)) (-(2 ^ 63)) else min (n : Int) (2 ^ 63 - 1)

/-- `c.DefaultQuery(key, defaultValue)`. -/
def Context.DefaultQuery (c : Context) (key defaultValue : String) : String :=
  (c.query.lookup key).getD defaultValue

/-- `utils.PaginationParams`. -/
structure PaginationParams where
  Page : Int
  Limit : Int
deriving DecidableEq, Repr

/-- `utils.GetPaginationParams` (utils/pagination.go:15). -/
def GetPaginationParams (c : Context) : PaginationParams :=
  let page := Atoi (c.DefaultQuery "page" "1")
  let limit := Atoi (c.DefaultQuery "limit" "10")
  let page := if page < 1 then 1 else page
  let limit := if limit < 1 || limit > 100 then 10 else limit
  { Page := page, Limit := limit }

/-! ## User directory (`repositories/user.go`, `services/user.go`, `handlers/users.go`) -/

/-- Body of a user update, `models.UpdateUserRequest`. -/
structure UpdateUserRequest where
  FirstName : Option String
  LastName : Option String
  DisplayName : Option String
  ProfilePicture : Option String
  Role : Option UserRole
  IsActive : Option Bool
deriving DecidableEq, Repr

/-- `userRepository.Update` (repositories/user.go:75): `Save` writes the row with
the user's key. The meetings loaded with the user are written back with the
keys they already have. -/
def userUpdate (db : DB) (user : User) : DB :=
  { db with users := db.users.map (fun u => if u.ID == user.ID then user else u) }

/-- `UserService.UpdateUser` (services/user.go:72). The result is the store
after the call together with the returned user or error. -/
def UpdateUser (db : DB) (id : Nat) (req : UpdateUserRequest) : DB × Except String User :=
  match userGetByID db id with
  | none => (db, .error "user not found")
  | some user0 =>
    let user1 : User := match req.FirstName with
      | some v => { user0 with FirstName := v }
      | none => user0
    let user2 : User := match req.LastName with
      | some v => { user1 with LastName := v }
      | none => user1
    let user3 : User := match req.DisplayName with
      | some v => { user2 with DisplayName := v }
      | none => user2
    let user4 : User := match req.ProfilePicture with
      | some v => { user3 with ProfilePicture := v }
      | none => user3
    let user5 : User := match req.Role with
      | some v => { user4 with Role := v }
      | none => user4
    let user : User := match req.IsActive with
      | some v => { user5 with IsActive := v }
      | none => user5
    (userUpdate db user, .ok user)

/-- What a handler writes to the response. -/
inductive HandlerResponse where
  /-- `utils.SuccessResponse(c, message, user)`. -/
  | success (message : String) (user : User)
  /-- `utils.BadRequestResponse(c, message)`. -/
  | badRequest (message : String)
  /-- `utils.ForbiddenResponse(c, message)`. -/
  | forbidden (message : String)
deriving DecidableEq, Repr

/-- `UserHandler.UpdateUser` (handlers/users.go:95). `currentUserID` and
`currentUserRole` are the values of `middleware.GetUserIDFromContext(c)` and
`middleware.GetUserRoleFromContext(c)`, two helpers whose bodies are not among
the sources; `body` is the request bound by `c.ShouldBindJSON`, `none` when
binding fails. The result is the store after the call and the response. -/
def UserHandler.UpdateUser (db : DB) (c : Context) (currentUserID : Nat)
    (currentUserRole : String) (body : Option UpdateUserRequest) : DB × HandlerResponse :=
  match ParseUint32 (c.Param "id") with
  | none => (db, .badRequest "Invalid user ID")
  | some id =>
    if id != currentUserID && currentUserRole != "admin" && currentUserRole != "manager" then
      (db, .forbidden "You can only update your own profile")
    else
      match body with
      | none => (db, .badRequest "Invalid request body")
      | some request =>
        if request.Role.isSome && currentUserRole != "admin" then
          (db, .forbidden "Only administrators can update user roles")
        else
          match MeetingSalt.UpdateUser db id request with
          | (db1, .error e) => (db1, .badRequest e)
          | (db1, .ok user) => (db1, .success "User updated successfully" user)

/-! ## UpdateMeeting with the store made explicit in both outcomes -/

/-- `MeetingService.UpdateMeeting` (services/meeting.go:116) once more, this time
returning the store after the call together with the result in both outcomes:
every `return nil, err` yields the store as it is at that line, that is, the
input store before `meetingRepo.Update` (line 198) and the written store after
it. -/
def UpdateMeetingTraced (db : DB) (now : Time) (id userID : Nat) (req : UpdateMeetingRequest) :
    DB × Except String Meeting :=
  match meetingGetByID db id with
  | none => (db, .error "meeting not found")
  | some meeting0 =>
    if !organizerOrManager db meeting0 userID then
      (db, .error "only organizer or manager can update meeting")
    else if meeting0.Status == StatusCompleted || meeting0.Status == StatusCancelled then
      (db, .error "cannot update completed or cancelled meeting")
    else
      match updateTimes db now (updateText meeting0 req) req with
      | .error e => (db, .error e)
      | .ok meeting3 =>
        match updateRoom db meeting3 req with
        | .error e => (db, .error e)
        | .ok meeting4 =>
          let meeting := updateFlags meeting4 req
          match meetingUpdate db (meetingPreload db meeting0) meeting with
          | (db1, none) => (db1, .error "record not found")
          | (db1, some updatedMeeting) =>
            let db2 := match req.AttendeeIDs with
              | some ids =>
                reconcileAttendees db1 (saveReferences (meetingPreload db meeting0) meeting) ids
              | none => db1
            match meetingGetByID db2 updatedMeeting.ID with
            | none => (db2, .error "record not found")
            | some m => (db2, .ok m)

/-! ## Reporting aggregator (`repositories/dashboard.go`) -/

/-- `models.DashboardFilter`. -/
structure DashboardFilter where
  StartDate : Option Time
  EndDate : Option Time
  RoomID : Option Nat
  UserID : Option Nat
deriving DecidableEq, Repr

/-- `models.RoomUtilizationData`. The two fractional columns are exact
rationals: the rounding of the SQL division and of the conversion to `float64`
is not part of the model. -/
structure RoomUtilizationData where
  RoomID : Nat
  RoomName : String
  TotalBookings : Int
  TotalHours : ℚ
  UtilizationRate : ℚ
deriving DecidableEq, Repr

/-- `models.MeetingStatusCount`. -/
structure MeetingStatusCount where
  Status : MeetingStatus
  Count : Int
deriving DecidableEq, Repr

/-- `models.UserActivityData`. -/
structure UserActivityData where
  UserID : Nat
  UserName : String
  UserEmail : String
  OrganizedMeetings : Int
  AttendedMeetings : Int
  TotalMeetings : Int
deriving DecidableEq, Repr

/-- The `Where` chain that `GetDashboardStats`, `GetMeetingsByStatus` and
`GetMeetingsByMonth` build from the filter (repositories/dashboard.go:48-60,
165-177, 191-203). -/
def dashboardWhere (db : DB) (filter : DashboardFilter) (m : Meeting) : Bool :=
  (match filter.StartDate with
   | some sd => decide (m.StartTime ≥ sd)
   | none => true)
  && (match filter.EndDate with
      | some ed => decide (m.EndTime ≤ ed)
      | none => true)
  && (match filter.RoomID with
      | some rid => m.RoomID == rid
      | none => true)
  && (match filter.UserID with
      | some uid => m.OrganizerID == uid || db.attendees.contains (m.ID, uid)
      | none => true)

/-- `dashboardRepository.GetMeetingsByStatus` (repositories/dashboard.go:162):
one row per status among the selected meetings, in order of first occurrence. -/
def GetMeetingsByStatus (db : DB) (filter : DashboardFilter) : List MeetingStatusCount :=
  let selected := db.meetings.filter (dashboardWhere db filter)
  (selected.map (fun m => m.Status)).eraseDups.map (fun s =>
    { Status := s, Count := ((selected.filter (fun m => m.Status == s)).length : Int) })

/-- `TIMESTAMPDIFF(MINUTE, start, end)`, instants being counted in minutes. -/
def minutesBetween (startTime endTime : Time) : Int :=
  endTime - startTime

/-- The rows that `rooms r LEFT JOIN meetings m ON r.id = m.room_id AND m.status IN
('scheduled', 'completed')` produces for one room (repositories/dashboard.go:125-126);
`none` is the row whose meeting columns are NULL. -/
def utilizationJoin (db : DB) (r : Room) : List (Option Meeting) :=
  let matched := db.meetings.filter (fun m =>
    m.RoomID == r.ID && (m.Status == StatusScheduled || m.Status == StatusCompleted))
  if matched.isEmpty then [none] else matched.map some

/-- The `WHERE` clause of `GetRoomUtilization` (repositories/dashboard.go:132-150);
a comparison on a NULL meeting column does not hold. The filter's `UserID` is not
read. -/
def utilizationWhere (filter : DashboardFilter) (r : Room) (m : Option Meeting) : Bool :=
  (match filter.StartDate with
   | some sd =>
     (match m with
      | some m => decide (m.StartTime ≥ sd)
      | none => false)
   | none => true)
  && (match filter.EndDate with
      | some ed =>
        (match m with
         | some m => decide (m.EndTime ≤ ed)
         | none => false)
      | none => true)
  && (match filter.RoomID with
      | some rid => r.ID == rid
      | none => true)

/-- The select list of `GetRoomUtilization` on one group
(repositories/dashboard.go:120-124): `COUNT(m.id)`, `SUM(minutes) / 60.0` and
`SUM(minutes) / 60.0 / (24 * 30) * 100`, NULL sums giving 0. -/
def utilizationRow (r : Room) (rows : List (Option Meeting)) : RoomUtilizationData :=
  let ms := rows.filterMap (fun m => m)
  let minutes : Int := (ms.map (fun m => minutesBetween m.StartTime m.EndTime)).sum
  { RoomID := r.ID
    RoomName := r.Name
    TotalBookings := (ms.length : Int)
    TotalHours := (minutes : ℚ) / 60
    UtilizationRate := (minutes : ℚ) / 60 / (24 * 30) * 100 }

/-- `dashboardRepository.GetRoomUtilization` (repositories/dashboard.go:117): one
row per room that keeps at least one joined row, ordered by `total_bookings`
descending. -/
def GetRoomUtilization (db : DB) (filter : DashboardFilter) : List RoomUtilizationData :=
  (db.rooms.filterMap (fun r =>
    let rows := (utilizationJoin db r).filter (utilizationWhere filter r)
    if rows.isEmpty then none else some (utilizationRow r rows))).insertionSort
      (fun a b => a.TotalBookings ≥ b.TotalBookings)

/-- The rows that the three `LEFT JOIN`s of `GetTopActiveUsers` produce for one
user (repositories/dashboard.go:222-225): an organized meeting `m1`, an
attendance row `ma` and the attended meeting `m2`, each NULL when absent. -/
def activityJoin (db : DB) (u : User) :
    List (Option Meeting × Option (Nat × Nat) × Option Meeting) :=
  let organized := db.meetings.filter (fun m => m.OrganizerID == u.ID)
  let m1s : List (Option Meeting) := if organized.isEmpty then [none] else organized.map some
  let attended := db.attendees.filter (fun p => p.2 == u.ID)
  let mas : List (Option (Nat × Nat) × Option Meeting) :=
    if attended.isEmpty then [(none, none)]
    else attended.flatMap (fun p =>
      let joined := db.meetings.filter (fun m => m.ID == p.1)
      if joined.isEmpty then [(some p, none)] else joined.map (fun m => (some p, some m)))
  m1s.flatMap (fun m1 => mas.map (fun q => (m1, q.1, q.2)))

/-- The `WHERE` clause of `GetTopActiveUsers` (repositories/dashboard.go:231-249):
each condition holds when it holds of `m1` or of `m2`. The filter's `UserID` is
not read. -/
def activityWhere (filter : DashboardFilter)
    (row : Option Meeting × Option (Nat × Nat) × Option Meeting) : Bool :=
  let holds (p : Meeting → Bool) : Bool :=
    (match row.1 with
     | some m => p m
     | none => false)
    || (match row.2.2 with
        | some m => p m
        | none => false)
  (match filter.StartDate with
   | some sd => holds (fun m => decide (m.StartTime ≥ sd))
   | none => true)
  && (match filter.EndDate with
      | some ed => holds (fun m => decide (m.EndTime ≤ ed))
      | none => true)
  && (match filter.RoomID with
      | some rid => holds (fun m => m.RoomID == rid)
      | none => true)

/-- `dashboardRepository.GetTopActiveUsers` (repositories/dashboard.go:213). -/
def GetTopActiveUsers (db : DB) (filter : DashboardFilter) (limit : Int) :
    List UserActivityData :=
  ((db.users.filterMap (fun u =>
    let rows := (activityJoin db u).filter (activityWhere filter)
    if rows.isEmpty then none
    else
      let organized : Int :=
        (((rows.filterMap (fun row => row.1)).map (fun m => m.ID)).eraseDups.length : Int)
      let attended : Int :=
        (((rows.filterMap (fun row => row.2.1)).map (fun p => p.1)).eraseDups.length : Int)
      some { UserID := u.ID
             UserName := u.FirstName ++ " " ++ u.LastName
             UserEmail := u.Email
             OrganizedMeetings := organized
             AttendedMeetings := attended
             TotalMeetings := organized + attended })).insertionSort
      (fun a b => a.TotalMeetings ≥ b.TotalMeetings)).take limit.toNat

/-! ## Specification predicates and concrete stores -/

/-- The room non-overlap invariant: no two distinct stored meetings of the same
room, both scheduled or in progress, have `m1.start < m2.end` and
`m1.end > m2.start`. -/
def NoOverlap (db : DB) : Prop :=
  ∀ m1 ∈ db.meetings, ∀ m2 ∈ db.meetings, m1 ≠ m2 → m1.RoomID = m2.RoomID →
    m1.IsActive = true → m2.IsActive = true →
    ¬ (m1.StartTime < m2.EndTime ∧ m1.EndTime > m2.StartTime)

instance (db : DB) : Decidable (NoOverlap db) := by
  unfold NoOverlap; infer_instance

/-- Some stored scheduled or in-progress meeting of room `r` overlaps `[s,e)`. -/
def HasConflict (db : DB) (r : Nat) (s e : Time) : Prop :=
  ∃ m ∈ db.meetings, m.RoomID = r ∧
    (m.Status = StatusScheduled ∨ m.Status = StatusInProgress) ∧
    m.StartTime < e ∧ m.EndTime > s

/-- The booking scenario: room R (id 1, capacity 10, active) with meeting A
booked from 10:00 to 11:00 (times in minutes of the day) by user 1. -/
def scenarioDB : DB :=
  { users := [{ ID := 1, Email := "ann@example.com", Role := RoleEmployee, IsActive := true },
              { ID := 2, Email := "bob@example.com", Role := RoleEmployee, IsActive := true }]
    rooms := [{ ID := 1, Name := "R", Capacity := 10, IsActive := true }]
    meetings := [{ ID := 1, Title := "A", Description := "", StartTime := 600, EndTime := 660,
                   Status := StatusScheduled, IsRecurring := false, RecurrencePattern := "",
                   OrganizerID := 1, RoomID := 1 }]
    attendees := []
    nextMeetingID := 2 }

/-- A request for meeting B in room R over `[s,e)`. -/
def scenarioRequest (s e : Time) : CreateMeetingRequest :=
  { Title := "B", Description := "", StartTime := s, EndTime := e, RoomID := 1,
    AttendeeIDs := [], IsRecurring := false, RecurrencePattern := "" }

/-- The row stored for meeting B over `[s,e)`. -/
def scenarioRow (s e : Time) : Meeting :=
  { ID := 2, Title := "B", Description := "", StartTime := s, EndTime := e,
    Status := StatusScheduled, IsRecurring := false, RecurrencePattern := "",
    OrganizerID := 2, RoomID := 1 }

/-- The scenario store after meeting B over `[s,e)` has been created. -/
def scenarioDBWith (s e : Time) : DB :=
  { scenarioDB with meetings := scenarioDB.meetings ++ [scenarioRow s e], nextMeetingID := 3 }

instance (db : DB) (r : Nat) (s e : Time) : Decidable (HasConflict db r s e) := by
  unfold HasConflict; infer_instance

/-- A store with two rooms: meeting A (id 1) in room 1 and meeting B (id 2) in
room 2, both scheduled from 10:00 to 11:00, and a completed meeting C (id 3) in
room 1. User 3 is a manager, the other users are employees. -/
def exampleDB : DB :=
  { users := [{ ID := 1, Email := "ann@example.com", Role := RoleEmployee, IsActive := true },
              { ID := 2, Email := "bob@example.com", Role := RoleEmployee, IsActive := true },
              { ID := 3, Email := "eve@example.com", Role := RoleManager, IsActive := true }]
    rooms := [{ ID := 1, Name := "R", Capacity := 10, IsActive := true },
              { ID := 2, Name := "S", Capacity := 4, IsActive := true }]
    meetings := [{ ID := 1, Title := "A", Description := "", StartTime := 600, EndTime := 660,
                   Status := StatusScheduled, IsRecurring := false, RecurrencePattern := "",
                   OrganizerID := 1, RoomID := 1 },
                 { ID := 2, Title := "B", Description := "", StartTime := 600, EndTime := 660,
                   Status := StatusScheduled, IsRecurring := false, RecurrencePattern := "",
                   OrganizerID := 2, RoomID := 2 },
                 { ID := 3, Title := "C", Description := "", StartTime := 300, EndTime := 360,
                   Status := StatusCompleted, IsRecurring := false, RecurrencePattern := "",
                   OrganizerID := 1, RoomID := 1 }]
    attendees := []
    nextMeetingID := 4 }

/-- An update request that supplies no field. -/
def emptyUpdate : UpdateMeetingRequest :=
  { Title := none, Description := none, StartTime := none, EndTime := none, RoomID := none,
    AttendeeIDs := none, Status := none, IsRecurring := none, RecurrencePattern := none }

/-- An update request that supplies only the room. -/
def roomOnlyUpdate (roomID : Nat) : UpdateMeetingRequest :=
  { emptyUpdate with RoomID := some roomID }

/-- An update request that supplies start, end and room. -/
def rebookUpdate (s e : Time) (roomID : Nat) : UpdateMeetingRequest :=
  { emptyUpdate with StartTime := some s, EndTime := some e, RoomID := some roomID }

/-- An update request that supplies only the status. -/
def statusOnlyUpdate (status : MeetingStatus) : UpdateMeetingRequest :=
  { emptyUpdate with Status := some status }

/-- A store with two rooms: room 1 has meeting A (id 1) scheduled 10:00-11:00
and meeting B (id 2) scheduled 12:00-13:00; room 2 has no meeting. -/
def rebookDB : DB :=
  { users := [{ ID := 1, Email := "ann@example.com", Role := RoleEmployee, IsActive := true },
              { ID := 2, Email := "bob@example.com", Role := RoleEmployee, IsActive := true }]
    rooms := [{ ID := 1, Name := "R", Capacity := 10, IsActive := true },
              { ID := 2, Name := "S", Capacity := 4, IsActive := true }]
    meetings := [{ ID := 1, Title := "A", Description := "", StartTime := 600, EndTime := 660,
                   Status := StatusScheduled, IsRecurring := false, RecurrencePattern := "",
                   OrganizerID := 1, RoomID := 1 },
                 { ID := 2, Title := "B", Description := "", StartTime := 720, EndTime := 780,
                   Status := StatusScheduled, IsRecurring := false, RecurrencePattern := "",
                   OrganizerID := 2, RoomID := 1 }]
    attendees := []
    nextMeetingID := 3 }

/-- Meeting A of `rebookDB` with the times 12:00-13:00, still in room 1. -/
def rebookedRow : Meeting :=
  { ID := 1, Title := "A", Description := "", StartTime := 720, EndTime := 780,
    Status := StatusScheduled, IsRecurring := false, RecurrencePattern := "",
    OrganizerID := 1, RoomID := 1 }

/-- The store `rebookDB` with meeting A replaced by `rebookedRow`. -/
def rebookedDB : DB :=
  { rebookDB with
    meetings := rebookDB.meetings.map (fun m => if m.ID == 1 then rebookedRow else m) }

/-- The store `rebookDB` with meeting B moved to 10:00-11:00 under the status
"postponed", which no availability query counts. -/
def postponedDB : DB :=
  { rebookDB with
    meetings := rebookDB.meetings.map (fun m =>
      if m.ID == 2 then { m with StartTime := 600, EndTime := 660, Status := "postponed" }
      else m) }

/-- The caller is allowed to change the meeting: the organizer, or a caller
whose user record exists with role manager or admin. -/
def MayUpdate (db : DB) (meeting : Meeting) (userID : Nat) : Prop :=
  meeting.OrganizerID = userID ∨
    ∃ u, userGetByID db userID = some u ∧ (u.Role = RoleManager ∨ u.Role = RoleAdmin)

/-- A request on the route `/users/:id` by caller `callerID` with role `role`. -/
def userRouteContext (callerID : Nat) (role : String) (pathID : String) : Context :=
  { keys := [("user_id", .uint callerID), ("user_role", .str role)]
    params := [("id", pathID)] }

/-- Rank of a role string in the order admin > manager > employee of the
specification; every other authenticated caller counts at the employee level. -/
def roleRank (role : String) : Nat :=
  if role = RoleAdmin then 3 else if role = RoleManager then 2 else 1

/-- The attendee set of a meeting as `GetByID` preloads it: the ids of the users
joined to it through `meeting_attendees`. -/
def attendeeIDs (db : DB) (meetingID : Nat) : List Nat :=
  (GetMeetingAttendees db meetingID).map (fun u => u.ID)

/-- The id resolves to an existing active user. -/
def ResolvesActive (db : DB) (userID : Nat) : Prop :=
  ∃ u, userGetByID db userID = some u ∧ u.IsActive = true

/-- Key discipline of the store: the auto-increment counter of `meetings` is
above every stored meeting id, and every row of `meeting_attendees` references
a meeting id below it (the foreign key of the join table). -/
def FreshKeys (db : DB) : Prop :=
  (∀ m ∈ db.meetings, m.ID < db.nextMeetingID) ∧
    (∀ p ∈ db.attendees, p.1 < db.nextMeetingID)

instance (db : DB) : Decidable (FreshKeys db) := by
  unfold FreshKeys; infer_instance

/-- An update request that supplies only the end time. -/
def endOnlyUpdate (e : Time) : UpdateMeetingRequest :=
  { emptyUpdate with EndTime := some e }

/-- An update request that supplies start and end. -/
def timesUpdate (s e : Time) : UpdateMeetingRequest :=
  { emptyUpdate with StartTime := some s, EndTime := some e }

/-- An update request that supplies the attendee list, with optional title,
description and recurrence fields, and nothing else. -/
def attendeesUpdate (title description : Option String) (isRecurring : Option Bool)
    (pattern : Option String) (ids : List Nat) : UpdateMeetingRequest :=
  { Title := title, Description := description, StartTime := none, EndTime := none,
    RoomID := none, AttendeeIDs := some ids, Status := none, IsRecurring := isRecurring,
    RecurrencePattern := pattern }

/-- A store at 10:30 of the day: meeting P (id 1) of room 1 started at 10:00, is
in progress until 11:00 and has user 2 as attendee; user 4 is inactive. -/
def inProgressDB : DB :=
  { users := [{ ID := 1, Email := "ann@example.com", Role := RoleEmployee, IsActive := true },
              { ID := 2, Email := "bob@example.com", Role := RoleEmployee, IsActive := true },
              { ID := 3, Email := "eve@example.com", Role := RoleManager, IsActive := true },
              { ID := 4, Email := "dan@example.com", Role := RoleEmployee, IsActive := false }]
    rooms := [{ ID := 1, Name := "R", Capacity := 10, IsActive := true }]
    meetings := [{ ID := 1, Title := "P", Description := "", StartTime := 600, EndTime := 660,
                   Status := StatusInProgress, IsRecurring := false, RecurrencePattern := "",
                   OrganizerID := 1, RoomID := 1 }]
    attendees := [(1, 2)]
    nextMeetingID := 2 }

/-- A request on a route without path parameters by a caller with role `role`. -/
def roleContext (callerID : Nat) (role : String) : Context :=
  { keys := [("user_id", .uint callerID), ("user_role", .str role)], params := [] }

/-- A room catalog at 14:00-15:00 of the day (minutes 840 to 900): room 1 is
free, room 2 is too small for four people, room 3 has a scheduled meeting in
the window, room 4 is inactive, and room 5 only has a cancelled meeting in the
window. Features 1 and 2 exist; room 1 has feature 1. -/
def catalogDB : DB :=
  { users := [{ ID := 1, Email := "ann@example.com", Role := RoleEmployee, IsActive := true }]
    rooms := [{ ID := 1, Name := "R", Capacity := 10, IsActive := true,
                Features := [{ ID := 1, Name := "projector" }] },
              { ID := 2, Name := "S", Capacity := 2, IsActive := true },
              { ID := 3, Name := "T", Capacity := 8, IsActive := true },
              { ID := 4, Name := "U", Capacity := 12, IsActive := false },
              { ID := 5, Name := "V", Capacity := 6, IsActive := true }]
    meetings := [{ ID := 1, Title := "standup", Description := "", StartTime := 870,
                   EndTime := 930, Status := StatusScheduled, IsRecurring := false,
                   RecurrencePattern := "", OrganizerID := 1, RoomID := 3 },
                 { ID := 2, Title := "review", Description := "", StartTime := 840,
                   EndTime := 900, Status := StatusCancelled, IsRecurring := false,
                   RecurrencePattern := "", OrganizerID := 1, RoomID := 5 }]
    attendees := []
    nextMeetingID := 3
    features := [{ ID := 1, Name := "projector" }, { ID := 2, Name := "whiteboard" }] }

/-- A room update that supplies no field. -/
def emptyRoomUpdate : UpdateRoomRequest :=
  { Name := none, Description := none, Capacity := none, Location := none,
    FeatureIDs := none, IsActive := none }

/-- A request whose URL carries the given query parameters. -/
def queryContext (query : List (String × String)) : Context :=
  { keys := [], params := [], query := query }

/-- An update of a user that supplies only the role. -/
def roleOnlyUpdate (role : UserRole) : UpdateUserRequest :=
  { FirstName := none, LastName := none, DisplayName := none, ProfilePicture := none,
    Role := some role, IsActive := none }

/-- The meetings of room `roomID` with status scheduled or completed that match
the filter, date range, room and user, as the filtered aggregations select
them (`dashboardWhere`). -/
def filteredBookings (db : DB) (filter : DashboardFilter) (roomID : Nat) : List Meeting :=
  db.meetings.filter (fun m =>
    m.RoomID == roomID && (m.Status == StatusScheduled || m.Status == StatusCompleted)
    && dashboardWhere db filter m)

/-- The filter that constrains nothing. -/
def noFilter : DashboardFilter :=
  { StartDate := none, EndDate := none, RoomID := none, UserID := none }

/-- The filter that only names a user. -/
def userFilter (userID : Nat) : DashboardFilter :=
  { noFilter with UserID := some userID }

/-- A store for the reports: room 1 has two completed two-hour bookings
(minutes 600-720 by user 1, 780-900 by user 2), one meeting in progress and one
cancelled meeting; room 2 has no meeting. -/
def reportDB : DB :=
  { users := [{ ID := 1, Email := "ann@example.com", Role := RoleEmployee, IsActive := true,
                FirstName := "Ann", LastName := "Lee" },
              { ID := 2, Email := "bob@example.com", Role := RoleEmployee, IsActive := true,
                FirstName := "Bob", LastName := "Ray" }]
    rooms := [{ ID := 1, Name := "R", Capacity := 10, IsActive := true },
              { ID := 2, Name := "S", Capacity := 4, IsActive := true }]
    meetings := [{ ID := 1, Title := "a", Description := "", StartTime := 600, EndTime := 720,
                   Status := StatusCompleted, IsRecurring := false, RecurrencePattern := "",
                   OrganizerID := 1, RoomID := 1 },
                 { ID := 2, Title := "b", Description := "", StartTime := 780, EndTime := 900,
                   Status := StatusCompleted, IsRecurring := false, RecurrencePattern := "",
                   OrganizerID := 2, RoomID := 1 },
                 { ID := 3, Title := "c", Description := "", StartTime := 960, EndTime := 1020,
                   Status := StatusInProgress, IsRecurring := false, RecurrencePattern := "",
                   OrganizerID := 1, RoomID := 1 },
                 { ID := 4, Title := "d", Description := "", StartTime := 1080, EndTime := 1200,
                   Status := StatusCancelled, IsRecurring := false, RecurrencePattern := "",
                   OrganizerID := 1, RoomID := 1 }]
    attendees := []
    nextMeetingID := 5 }

/-! ## Theorems -/

theorem roomGetByID_ID {db : DB} {id : Nat} {room : Room}
    (h : roomGetByID db id = some room) : room.ID = id := by
  simpa using List.find?_some h

theorem userGetByID_ID {db : DB} {id : Nat} {user : User}
    (h : userGetByID db id = some user) : user.ID = id := by
  simpa using List.find?_some h

/-- The struct `Save` writes for a meeting loaded with `GetByID` whose organizer
has not been changed: the organizer key stays, and the room key is the one of
the loaded room whenever that room exists. -/
theorem saveReferences_preload (db : DB) (meeting0 meeting : Meeting)
    (horg : meeting.OrganizerID = meeting0.OrganizerID) :
    saveReferences (meetingPreload db meeting0) meeting =
      { meeting with
        RoomID := match roomGetByID db meeting0.RoomID with
          | some _ => meeting0.RoomID
          | none => meeting.RoomID } := by
  unfold saveReferences meetingPreload
  simp only
  have ho : (match userGetByID db meeting0.OrganizerID with
      | some organizer => organizer.ID
      | none => meeting.OrganizerID) = meeting.OrganizerID := by
    cases hu : userGetByID db meeting0.OrganizerID with
    | none => rfl
    | some u => simp only; rw [horg]; exact userGetByID_ID hu
  have hr : (match roomGetByID db meeting0.RoomID with
      | some room => room.ID
      | none => meeting.RoomID) = (match roomGetByID db meeting0.RoomID with
      | some _ => meeting0.RoomID
      | none => meeting.RoomID) := by
    cases hu : roomGetByID db meeting0.RoomID with
    | none => rfl
    | some r => simp only; exact roomGetByID_ID hu
  rw [ho, hr]

/-- When neither foreign key has been changed since the meeting was loaded,
`Save` writes the struct as it is. -/
theorem saveReferences_same (db : DB) (meeting0 meeting : Meeting)
    (horg : meeting.OrganizerID = meeting0.OrganizerID)
    (hroom : meeting.RoomID = meeting0.RoomID) :
    saveReferences (meetingPreload db meeting0) meeting = meeting := by
  rw [saveReferences_preload db meeting0 meeting horg]
  cases roomGetByID db meeting0.RoomID with
  | none => rfl
  | some r => simp only; rw [← hroom]

theorem saveReferences_frame (loaded : MeetingAssociations) (meeting : Meeting) :
    (saveReferences loaded meeting).ID = meeting.ID ∧
    (saveReferences loaded meeting).Title = meeting.Title ∧
    (saveReferences loaded meeting).Description = meeting.Description ∧
    (saveReferences loaded meeting).StartTime = meeting.StartTime ∧
    (saveReferences loaded meeting).EndTime = meeting.EndTime ∧
    (saveReferences loaded meeting).Status = meeting.Status ∧
    (saveReferences loaded meeting).IsRecurring = meeting.IsRecurring ∧
    (saveReferences loaded meeting).RecurrencePattern = meeting.RecurrencePattern :=
  ⟨rfl, rfl, rfl, rfl, rfl, rfl, rfl, rfl⟩

/-! ### Availability query -/

theorem conflictRow_iff (r : Nat) (s e : Time) (x : Option Nat) (m : Meeting) :
    conflictRow r s e x m = true ↔
      m.RoomID = r ∧ (m.Status = StatusScheduled ∨ m.Status = StatusInProgress) ∧
        x ≠ some m.ID ∧ m.StartTime < e ∧ m.EndTime > s := by
  cases x with
  | none =>
    simp only [conflictRow, Bool.and_eq_true, Bool.or_eq_true, beq_iff_eq, decide_eq_true_eq]
    constructor
    · rintro ⟨⟨⟨⟨h1, h2⟩, h3⟩, h4⟩, -⟩
      exact ⟨h1, h4, by simp, h2, h3⟩
    · rintro ⟨h1, h4, -, h2, h3⟩
      exact ⟨⟨⟨⟨h1, h2⟩, h3⟩, h4⟩, trivial⟩
  | some i =>
    simp only [conflictRow, Bool.and_eq_true, Bool.or_eq_true, beq_iff_eq, decide_eq_true_eq,
      bne_iff_ne, ne_eq, Option.some.injEq]
    constructor
    · rintro ⟨⟨⟨⟨h1, h2⟩, h3⟩, h4⟩, h5⟩
      exact ⟨h1, h4, fun h => h5 h.symm, h2, h3⟩
    · rintro ⟨h1, h4, h5, h2, h3⟩
      exact ⟨⟨⟨⟨h1, h2⟩, h3⟩, h4⟩, fun h => h5 h.symm⟩

theorem IsRoomAvailable_eq_true (db : DB) (r : Nat) (s e : Time) (x : Option Nat) :
    IsRoomAvailable db r s e x = true ↔
      ∀ m ∈ db.meetings, conflictRow r s e x m = false := by
  simp [IsRoomAvailable, List.filter_eq_nil_iff]

/-- C3: `IsRoomAvailable(r, s, e, x)` answers true exactly when no stored
meeting of room `r` with status scheduled or in_progress, other than the
excluded meeting `x` when one is given, has `StartTime < e` and `EndTime > s`. -/
theorem IsRoomAvailable_iff (db : DB) (r : Nat) (s e : Time) (x : Option Nat) :
    IsRoomAvailable db r s e x = true ↔
      ¬ ∃ m ∈ db.meetings, m.RoomID = r ∧
          (m.Status = StatusScheduled ∨ m.Status = StatusInProgress) ∧
          x ≠ some m.ID ∧ m.StartTime < e ∧ m.EndTime > s := by
  rw [IsRoomAvailable_eq_true]
  constructor
  · rintro h ⟨m, hm, hc⟩
    have := h m hm
    rw [(conflictRow_iff r s e x m).mpr hc] at this
    exact Bool.noConfusion this
  · intro h m hm
    cases hc : conflictRow r s e x m with
    | false => rfl
    | true => exact absurd ⟨m, hm, (conflictRow_iff r s e x m).mp hc⟩ h

/-! ### Interval overlap -/

/-- C4: `Meeting.IsOverlapping(s, e)` is true exactly when `StartTime < e` and
`EndTime > s`; it is false when `s` is the meeting's end and when `e` is the
meeting's start (touching boundaries do not conflict). -/
theorem IsOverlapping_iff (m : Meeting) (s e : Time) :
    (m.IsOverlapping s e = true ↔ m.StartTime < e ∧ m.EndTime > s) ∧
      m.IsOverlapping m.EndTime e = false ∧ m.IsOverlapping s m.StartTime = false := by
  refine ⟨?_, ?_, ?_⟩ <;> simp [Meeting.IsOverlapping]

/-! ### CreateMeeting -/

theorem createAttendeeStep_frame (org mid : Nat) (db : DB) (a : Nat) :
    (createAttendeeStep org mid db a).meetings = db.meetings ∧
    (createAttendeeStep org mid db a).users = db.users ∧
    (createAttendeeStep org mid db a).rooms = db.rooms ∧
    (createAttendeeStep org mid db a).nextMeetingID = db.nextMeetingID := by
  unfold createAttendeeStep AddAttendee
  repeat' split
  all_goals simp

theorem foldl_createAttendeeStep_frame (org mid : Nat) (ids : List Nat) (db : DB) :
    (ids.foldl (createAttendeeStep org mid) db).meetings = db.meetings ∧
    (ids.foldl (createAttendeeStep org mid) db).users = db.users ∧
    (ids.foldl (createAttendeeStep org mid) db).rooms = db.rooms ∧
    (ids.foldl (createAttendeeStep org mid) db).nextMeetingID = db.nextMeetingID := by
  induction ids generalizing db with
  | nil => simp
  | cons a t ih =>
    have h1 := createAttendeeStep_frame org mid db a
    have h2 := ih (createAttendeeStep org mid db a)
    simp only [List.foldl_cons]
    exact ⟨h2.1.trans h1.1, h2.2.1.trans h1.2.1, h2.2.2.1.trans h1.2.2.1, h2.2.2.2.trans h1.2.2.2⟩

theorem CreateMeeting_ok_inv {db : DB} {now : Time} {org : Nat} {req : CreateMeetingRequest}
    {db' : DB} {m : Meeting} (h : CreateMeeting db now org req = .ok (db', m)) :
    ValidateStruct req = [] ∧ ¬ req.EndTime < req.StartTime ∧ ¬ req.StartTime < now ∧
    (∃ room, roomGetByID db req.RoomID = some room ∧ room.IsActive = true) ∧
    IsRoomAvailable db req.RoomID req.StartTime req.EndTime none = true ∧
    (∃ u, userGetByID db org = some u ∧ u.IsActive = true) ∧
    db'.meetings = db.meetings ++
      [{ ID := db.nextMeetingID, Title := req.Title, Description := req.Description,
         StartTime := req.StartTime, EndTime := req.EndTime, Status := StatusScheduled,
         IsRecurring := req.IsRecurring, RecurrencePattern := req.RecurrencePattern,
         OrganizerID := org, RoomID := req.RoomID }] := by
  unfold CreateMeeting at h
  by_cases hv : (ValidateStruct req).length > 0
  · rw [if_pos hv] at h; cases h
  rw [if_neg hv] at h
  by_cases he : req.EndTime < req.StartTime
  · rw [if_pos he] at h; cases h
  rw [if_neg he] at h
  by_cases hn : req.StartTime < now
  · rw [if_pos hn] at h; cases h
  rw [if_neg hn] at h
  cases hroom : roomGetByID db req.RoomID with
  | none => rw [hroom] at h; cases h
  | some room =>
    rw [hroom] at h
    simp only at h
    cases hact : room.IsActive with
    | false => simp [hact] at h
    | true =>
      cases hav : IsRoomAvailable db req.RoomID req.StartTime req.EndTime none with
      | false => simp [hact, hav] at h
      | true =>
        cases hu : userGetByID db org with
        | none => simp [hact, hav, hu] at h
        | some u =>
          cases hua : u.IsActive with
          | false => simp [hact, hav, hu, hua] at h
          | true =>
            simp only [hact, hav, hu, hua, Bool.not_true, Bool.false_eq_true, if_false,
              meetingCreate] at h
            split at h
            · cases h
            rename_i db1 created hc
            split at h
            · cases h
            simp only [Except.ok.injEq, Prod.mk.injEq] at h
            obtain ⟨hdb, -⟩ := h
            simp only [Prod.mk.injEq] at hc
            obtain ⟨hdb1, -⟩ := hc
            refine ⟨?_, he, hn, ⟨room, rfl, hact⟩, rfl, ⟨u, rfl, hua⟩, ?_⟩
            · simpa using hv
            · rw [← hdb, (foldl_createAttendeeStep_frame _ _ _ _).1, ← hdb1]

theorem meetingCreate_readback (db : DB) (meeting : Meeting) :
    ∃ created, (meetingCreate db meeting).2 = some created ∧ created.ID = db.nextMeetingID := by
  simp only [meetingCreate, meetingGetByID]
  cases hf : List.find? (fun m => m.ID == db.nextMeetingID)
      (db.meetings ++ [{ meeting with ID := db.nextMeetingID }]) with
  | none =>
    rw [List.find?_eq_none] at hf
    have := hf { meeting with ID := db.nextMeetingID } (by simp)
    simp at this
  | some c =>
    exact ⟨c, rfl, by simpa using List.find?_some hf⟩

theorem CreateMeeting_ok_of (db : DB) (now : Time) (org : Nat) (req : CreateMeetingRequest)
    (hv : ValidateStruct req = []) (he : ¬ req.EndTime < req.StartTime)
    (hn : ¬ req.StartTime < now)
    (hroom : ∃ room, roomGetByID db req.RoomID = some room ∧ room.IsActive = true)
    (hav : IsRoomAvailable db req.RoomID req.StartTime req.EndTime none = true)
    (hu : ∃ u, userGetByID db org = some u ∧ u.IsActive = true) :
    ∃ db' m, CreateMeeting db now org req = .ok (db', m) := by
  obtain ⟨room, hroom, hact⟩ := hroom
  obtain ⟨u, hu, hua⟩ := hu
  unfold CreateMeeting
  simp only [hv, List.length_nil, gt_iff_lt, lt_self_iff_false, if_false, he, hn, hroom, hact,
    hav, hu, hua, Bool.not_true, Bool.false_eq_true]
  obtain ⟨created, hc, hid⟩ := meetingCreate_readback db
    { ID := 0, Title := req.Title, Description := req.Description, StartTime := req.StartTime,
      EndTime := req.EndTime, Status := StatusScheduled, IsRecurring := req.IsRecurring,
      RecurrencePattern := req.RecurrencePattern, OrganizerID := org, RoomID := req.RoomID }
  generalize hmc : meetingCreate db _ = r at hc ⊢
  obtain ⟨db1, oc⟩ := r
  simp only at hc
  subst hc
  simp only
  have hfound : meetingGetByID db1 created.ID = some created := by
    have := hmc
    simp only [meetingCreate, Prod.mk.injEq] at this
    rw [hid, ← this.1]
    exact this.2
  have hfold : meetingGetByID (List.foldl (createAttendeeStep org created.ID) db1 req.AttendeeIDs)
      created.ID = some created := by
    unfold meetingGetByID
    rw [(foldl_createAttendeeStep_frame _ _ _ _).1]
    exact hfound
  rw [hfold]
  exact ⟨_, _, rfl⟩

theorem IsRoomAvailable_none_iff (db : DB) (r : Nat) (s e : Time) :
    IsRoomAvailable db r s e none = true ↔ ¬ HasConflict db r s e := by
  rw [IsRoomAvailable_eq_true]
  unfold HasConflict
  constructor
  · rintro h ⟨m, hm, hr, hs, h1, h2⟩
    have hf := h m hm
    rw [(conflictRow_iff r s e none m).mpr ⟨hr, hs, by simp, h1, h2⟩] at hf
    cases hf
  · intro h m hm
    cases hc : conflictRow r s e none m with
    | false => rfl
    | true =>
      obtain ⟨hr, hs, -, h1, h2⟩ := (conflictRow_iff r s e none m).mp hc
      exact absurd ⟨m, hm, hr, hs, h1, h2⟩ h

/-- C1: `CreateMeeting` preserves the room non-overlap invariant: if it holds of
the stored meetings, it holds again after every successful call, whatever the
organizer, the request and the current time. -/
theorem CreateMeeting_preserves_NoOverlap (db : DB) (now : Time) (organizerID : Nat)
    (req : CreateMeetingRequest) (db' : DB) (m : Meeting) (hinv : NoOverlap db)
    (h : CreateMeeting db now organizerID req = .ok (db', m)) : NoOverlap db' := by
  obtain ⟨-, -, -, -, hav, -, hmeet⟩ := CreateMeeting_ok_inv h
  rw [IsRoomAvailable_none_iff] at hav
  have key : ∀ o ∈ db.meetings, o.RoomID = req.RoomID → o.IsActive = true →
      ¬ (o.StartTime < req.EndTime ∧ o.EndTime > req.StartTime) := by
    intro o ho hr ha hov
    apply hav
    refine ⟨o, ho, hr, ?_, hov.1, hov.2⟩
    simpa [Meeting.IsActive] using ha
  intro m1 h1 m2 h2 hne hroom ha1 ha2
  rw [hmeet, List.mem_append, List.mem_singleton] at h1 h2
  rcases h1 with h1 | h1 <;> rcases h2 with h2 | h2
  · exact hinv m1 h1 m2 h2 hne hroom ha1 ha2
  · subst h2
    exact key m1 h1 hroom ha1
  · subst h1
    intro hov
    exact key m2 h2 hroom.symm ha2 ⟨hov.2, hov.1⟩
  · exact absurd (h1.trans h2.symm) hne

theorem CreateMeeting_preserves_NoOverlap_witness :
    NoOverlap scenarioDB ∧
      CreateMeeting scenarioDB 480 2 (scenarioRequest 660 720)
        = .ok (scenarioDBWith 660 720, scenarioRow 660 720) ∧
      NoOverlap (scenarioDBWith 660 720) :=
  ⟨by decide, rfl,
    CreateMeeting_preserves_NoOverlap scenarioDB 480 2 (scenarioRequest 660 720)
      (scenarioDBWith 660 720) (scenarioRow 660 720) (by decide) rfl⟩

/-- C5: a `CreateMeeting` request that passes validation, with end after start
and start not in the past, on an existing active room and with an existing
active organizer, fails with "room is not available for the selected time"
exactly when some scheduled or in-progress meeting of the room overlaps
`[start,end)`, and succeeds exactly when none does. -/
theorem CreateMeeting_conflict_iff (db : DB) (now : Time) (organizerID : Nat)
    (req : CreateMeetingRequest) (hv : ValidateStruct req = [])
    (ht : req.StartTime < req.EndTime) (hn : now ≤ req.StartTime)
    (hroom : ∃ room, roomGetByID db req.RoomID = some room ∧ room.IsActive = true)
    (hu : ∃ u, userGetByID db organizerID = some u ∧ u.IsActive = true) :
    (CreateMeeting db now organizerID req
        = .error "room is not available for the selected time"
      ↔ HasConflict db req.RoomID req.StartTime req.EndTime) ∧
    ((∃ db' m, CreateMeeting db now organizerID req = .ok (db', m))
      ↔ ¬ HasConflict db req.RoomID req.StartTime req.EndTime) := by
  have he : ¬ req.EndTime < req.StartTime := not_lt.mpr (le_of_lt ht)
  have hn' : ¬ req.StartTime < now := not_lt.mpr hn
  by_cases hc : HasConflict db req.RoomID req.StartTime req.EndTime
  · have hav : IsRoomAvailable db req.RoomID req.StartTime req.EndTime none = false := by
      cases hx : IsRoomAvailable db req.RoomID req.StartTime req.EndTime none with
      | false => rfl
      | true => exact absurd hc ((IsRoomAvailable_none_iff _ _ _ _).mp hx)
    have herr : CreateMeeting db now organizerID req
        = .error "room is not available for the selected time" := by
      obtain ⟨room, hroom, hact⟩ := hroom
      unfold CreateMeeting
      simp only [hv, List.length_nil, gt_iff_lt, lt_self_iff_false, if_false, he, hn', hroom,
        hact, hav, Bool.not_true, Bool.false_eq_true, Bool.not_false, if_true]
    refine ⟨⟨fun _ => hc, fun _ => herr⟩, ⟨?_, fun h => absurd hc h⟩⟩
    rintro ⟨db', m, hok⟩
    rw [herr] at hok
    cases hok
  · have hav := (IsRoomAvailable_none_iff db req.RoomID req.StartTime req.EndTime).mpr hc
    obtain ⟨db', m, hok⟩ := CreateMeeting_ok_of db now organizerID req hv he hn' hroom hav hu
    refine ⟨⟨?_, fun h => absurd h hc⟩, ⟨fun _ => hc, fun _ => ⟨db', m, hok⟩⟩⟩
    intro herr
    rw [hok] at herr
    cases herr

theorem CreateMeeting_conflict_iff_witness :
    (HasConflict scenarioDB 1 630 690 ∧
      CreateMeeting scenarioDB 480 2 (scenarioRequest 630 690)
        = .error "room is not available for the selected time") ∧
    (¬ HasConflict scenarioDB 1 660 720 ∧
      ∃ db' m, CreateMeeting scenarioDB 480 2 (scenarioRequest 660 720) = .ok (db', m)) ∧
    (¬ HasConflict scenarioDB 1 540 600 ∧
      ∃ db' m, CreateMeeting scenarioDB 480 2 (scenarioRequest 540 600) = .ok (db', m)) :=
  ⟨⟨by decide,
      (CreateMeeting_conflict_iff scenarioDB 480 2 (scenarioRequest 630 690) rfl (by decide)
        (by decide) ⟨_, rfl, rfl⟩ ⟨_, rfl, rfl⟩).1.mpr (by decide)⟩,
    ⟨by decide,
      (CreateMeeting_conflict_iff scenarioDB 480 2 (scenarioRequest 660 720) rfl (by decide)
        (by decide) ⟨_, rfl, rfl⟩ ⟨_, rfl, rfl⟩).2.mpr (by decide)⟩,
    ⟨by decide,
      (CreateMeeting_conflict_iff scenarioDB 480 2 (scenarioRequest 540 600) rfl (by decide)
        (by decide) ⟨_, rfl, rfl⟩ ⟨_, rfl, rfl⟩).2.mpr (by decide)⟩⟩

/-- After a successful `CreateMeeting` over a non-empty interval `[s,e)` the room
is no longer available for `[s,e)`. -/
theorem IsRoomAvailable_after_CreateMeeting (db : DB) (now : Time) (organizerID : Nat)
    (req : CreateMeetingRequest) (db' : DB) (m : Meeting)
    (ht : req.StartTime < req.EndTime)
    (h : CreateMeeting db now organizerID req = .ok (db', m)) :
    IsRoomAvailable db' req.RoomID req.StartTime req.EndTime none = false := by
  obtain ⟨-, -, -, -, -, -, hmeet⟩ := CreateMeeting_ok_inv h
  cases hx : IsRoomAvailable db' req.RoomID req.StartTime req.EndTime none with
  | false => rfl
  | true =>
    exfalso
    rw [IsRoomAvailable_none_iff] at hx
    apply hx
    rw [HasConflict, hmeet]
    exact ⟨_, List.mem_append_right _ (List.mem_singleton_self _), rfl, Or.inl rfl, ht, ht⟩

/-- C6 (failing input): a request whose end equals its start is accepted, and
right after this successful `CreateMeeting` for room 1 over `[700,700)` the
query `IsRoomAvailable(1, 700, 700)` still answers true. -/
theorem IsRoomAvailable_after_empty_booking :
    CreateMeeting scenarioDB 480 2 (scenarioRequest 700 700)
        = .ok (scenarioDBWith 700 700, scenarioRow 700 700) ∧
      IsRoomAvailable (scenarioDBWith 700 700) 1 700 700 none = true :=
  ⟨rfl, by decide⟩

/-- C7 (failing input): `CreateMeeting` accepts a request whose end time equals
its start time and stores the meeting. -/
theorem CreateMeeting_accepts_end_eq_start :
    (scenarioRequest 700 700).EndTime ≤ (scenarioRequest 700 700).StartTime ∧
      CreateMeeting scenarioDB 480 2 (scenarioRequest 700 700)
        = .ok (scenarioDBWith 700 700, scenarioRow 700 700) ∧
      scenarioRow 700 700 ∈ (scenarioDBWith 700 700).meetings ∧
      scenarioRow 700 700 ∉ scenarioDB.meetings :=
  ⟨by decide, rfl, by decide, by decide⟩

/-- `CreateMeeting` rejects every request whose end time is before its start
time; an error result carries no new store. -/
theorem CreateMeeting_rejects_end_before_start (db : DB) (now : Time) (organizerID : Nat)
    (req : CreateMeetingRequest) (ht : req.EndTime < req.StartTime) :
    CreateMeeting db now organizerID req = .error "validation failed" ∨
      CreateMeeting db now organizerID req = .error "end time must be after start time" := by
  unfold CreateMeeting
  by_cases hv : (ValidateStruct req).length > 0
  · left; rw [if_pos hv]
  · right; rw [if_neg hv, if_pos ht]

/-! ### UpdateMeeting -/

theorem organizerOrManager_iff (db : DB) (meeting : Meeting) (userID : Nat) :
    organizerOrManager db meeting userID = true ↔ MayUpdate db meeting userID := by
  unfold organizerOrManager MayUpdate
  by_cases ho : meeting.OrganizerID = userID
  · simp [ho]
  · cases hu : userGetByID db userID with
    | none => simp [ho]
    | some u => simp [ho, User.IsManager]

theorem updateTimes_error {db : DB} {now : Time} {meeting : Meeting} {req : UpdateMeetingRequest}
    {e : String} (h : updateTimes db now meeting req = .error e) :
    e = "meeting start time cannot be in the past" ∨ e = "end time must be after start time" ∨
      e = "room is not available for the selected time" := by
  unfold updateTimes at h
  cases hs : req.StartTime with
  | none =>
    simp only [hs] at h
    repeat' split at h
    all_goals simp_all
  | some st =>
    simp only [hs] at h
    by_cases hp : st < now
    · simp_all
    · simp only [hp] at h
      repeat' split at h
      all_goals simp_all

theorem updateRoom_error {db : DB} {meeting : Meeting} {req : UpdateMeetingRequest}
    {e : String} (h : updateRoom db meeting req = .error e) :
    e = "room not found" ∨ e = "room is not active" := by
  unfold updateRoom at h
  repeat' split at h
  all_goals simp_all

theorem UpdateMeeting_error_of_authorized {db : DB} {now : Time} {id userID : Nat}
    {req : UpdateMeetingRequest} {meeting : Meeting} {e : String}
    (hget : meetingGetByID db id = some meeting)
    (hauth : organizerOrManager db meeting userID = true)
    (h : UpdateMeeting db now id userID req = .error e) :
    e ∈ ["cannot update completed or cancelled meeting",
         "meeting start time cannot be in the past", "end time must be after start time",
         "room is not available for the selected time", "room not found",
         "room is not active", "record not found"] := by
  unfold UpdateMeeting at h
  simp only [hget, hauth, Bool.not_true, Bool.false_eq_true, if_false] at h
  split at h
  · simp only [Except.error.injEq] at h; simp [← h]
  split at h
  · rename_i e' he'
    simp only [Except.error.injEq] at h
    subst h
    rcases updateTimes_error he' with h | h | h <;> simp [h]
  split at h
  · rename_i e' he'
    simp only [Except.error.injEq] at h
    subst h
    rcases updateRoom_error he' with h | h <;> simp [h]
  split at h
  · simp only [Except.error.injEq] at h; simp [← h]
  split at h
  · simp only [Except.error.injEq] at h; simp [← h]
  · cases h

theorem updateTimes_ok {db : DB} {now : Time} {meeting : Meeting} {req : UpdateMeetingRequest}
    {m' : Meeting} (h : updateTimes db now meeting req = .ok m') :
    m' = { meeting with StartTime := m'.StartTime, EndTime := m'.EndTime } ∧
    ((req.StartTime.isSome || req.EndTime.isSome) = true →
      IsRoomAvailable db (req.RoomID.getD meeting.RoomID) m'.StartTime m'.EndTime
        (some meeting.ID) = true) := by
  unfold updateTimes at h
  by_cases hsup : (req.StartTime.isSome || req.EndTime.isSome) = true
  · rw [if_pos hsup] at h
    split at h
    · cases h
    rename_i startTime hst
    simp only at h
    split at h
    · cases h
    split at h
    · cases h
    rename_i hav
    simp only [Except.ok.injEq] at h
    subst h
    refine ⟨rfl, fun _ => ?_⟩
    simp only [Bool.not_eq_true, Bool.not_eq_eq_eq_not, Bool.not_true, Bool.not_eq_false] at hav
    cases hr : req.RoomID <;> simpa [hr] using hav
  · rw [if_neg hsup] at h
    simp only [Except.ok.injEq] at h
    subst h
    exact ⟨rfl, fun h => absurd h hsup⟩

theorem updateRoom_ok {db : DB} {meeting : Meeting} {req : UpdateMeetingRequest}
    {m' : Meeting} (h : updateRoom db meeting req = .ok m') :
    m' = { meeting with RoomID := req.RoomID.getD meeting.RoomID } := by
  unfold updateRoom at h
  repeat' split at h
  all_goals simp_all

theorem foldl_meetings_frame {α : Type} (f : DB → α → DB)
    (hf : ∀ d a, (f d a).meetings = d.meetings) (l : List α) (db : DB) :
    (l.foldl f db).meetings = db.meetings := by
  induction l generalizing db with
  | nil => rfl
  | cons a t ih => rw [List.foldl_cons, ih, hf]

theorem reconcileAttendees_meetings (db : DB) (meeting : Meeting) (ids : List Nat) :
    (reconcileAttendees db meeting ids).meetings = db.meetings := by
  unfold reconcileAttendees
  simp only
  rw [foldl_meetings_frame, foldl_meetings_frame]
  · intro d a
    split
    · rfl
    · rfl
  · intro d a
    split
    · split
      · split
        · unfold AddAttendee; split <;> rfl
        · rfl
      · rfl
    · rfl

theorem updateText_frame (meeting : Meeting) (req : UpdateMeetingRequest) :
    (updateText meeting req).ID = meeting.ID ∧
    (updateText meeting req).RoomID = meeting.RoomID ∧
    (updateText meeting req).StartTime = meeting.StartTime ∧
    (updateText meeting req).EndTime = meeting.EndTime ∧
    (updateText meeting req).Status = meeting.Status ∧
    (updateText meeting req).OrganizerID = meeting.OrganizerID := by
  unfold updateText
  cases req.Title <;> cases req.Description <;> simp

theorem updateFlags_frame (meeting : Meeting) (req : UpdateMeetingRequest) :
    (updateFlags meeting req).ID = meeting.ID ∧
    (updateFlags meeting req).RoomID = meeting.RoomID ∧
    (updateFlags meeting req).StartTime = meeting.StartTime ∧
    (updateFlags meeting req).EndTime = meeting.EndTime ∧
    (updateFlags meeting req).OrganizerID = meeting.OrganizerID := by
  unfold updateFlags
  cases req.Status <;> cases req.IsRecurring <;> cases req.RecurrencePattern <;> simp

theorem UpdateMeeting_ok_inv {db : DB} {now : Time} {id userID : Nat}
    {req : UpdateMeetingRequest} {db' : DB} {m : Meeting}
    (h : UpdateMeeting db now id userID req = .ok (db', m)) :
    ∃ meeting0 final, meetingGetByID db id = some meeting0 ∧
      final.ID = meeting0.ID ∧
      final.RoomID = (match roomGetByID db meeting0.RoomID with
        | some _ => meeting0.RoomID
        | none => req.RoomID.getD meeting0.RoomID) ∧
      db'.meetings = db.meetings.map (fun x => if x.ID == final.ID then final else x) ∧
      ((req.StartTime.isSome || req.EndTime.isSome) = true →
        IsRoomAvailable db (req.RoomID.getD meeting0.RoomID) final.StartTime final.EndTime
          (some final.ID) = true) := by
  unfold UpdateMeeting at h
  split at h
  · cases h
  rename_i meeting0 hget
  split at h
  · cases h
  split at h
  · cases h
  split at h
  · cases h
  rename_i meeting3 h3
  split at h
  · cases h
  rename_i meeting4 h4
  obtain ⟨e3, hav⟩ := updateTimes_ok h3
  have e4 := updateRoom_ok h4
  obtain ⟨t1, t2, -, -, -, t6⟩ := updateText_frame meeting0 req
  obtain ⟨f1, f2, f3, f4, f5⟩ := updateFlags_frame meeting4 req
  have hid : (updateFlags meeting4 req).ID = meeting0.ID := by rw [f1, e4, e3]; exact t1
  have hroom : (updateFlags meeting4 req).RoomID = req.RoomID.getD meeting0.RoomID := by
    rw [f2, e4, e3]; simp only; rw [t2]
  have horg : (updateFlags meeting4 req).OrganizerID = meeting0.OrganizerID := by
    rw [f5, e4, e3]; exact t6
  have hsave := saveReferences_preload db meeting0 (updateFlags meeting4 req) horg
  obtain ⟨s1, -, -, s4, s5, -⟩ :=
    saveReferences_frame (meetingPreload db meeting0) (updateFlags meeting4 req)
  have hfroom : (saveReferences (meetingPreload db meeting0) (updateFlags meeting4 req)).RoomID
      = (match roomGetByID db meeting0.RoomID with
        | some _ => meeting0.RoomID
        | none => req.RoomID.getD meeting0.RoomID) := by
    rw [hsave]
    simp only
    rw [hroom]
  simp only [meetingUpdate] at h
  generalize saveReferences (meetingPreload db meeting0) (updateFlags meeting4 req) = final
    at h s1 s4 s5 hfroom
  simp only [saveMeetingRow] at h
  split at h
  · cases h
  rename_i db1 updated hup
  split at h
  · cases h
  simp only [Except.ok.injEq, Prod.mk.injEq] at h
  obtain ⟨hdb, -⟩ := h
  simp only [Prod.mk.injEq] at hup
  obtain ⟨hdb1, -⟩ := hup
  refine ⟨meeting0, final, hget, by rw [s1, hid], hfroom, ?_, ?_⟩
  · rw [← hdb]
    cases hatt : req.AttendeeIDs with
    | none => simp only; rw [← hdb1]
    | some ids => simp only; rw [reconcileAttendees_meetings, ← hdb1]
  · intro hsup
    have h5 := hav hsup
    rw [s1, s4, s5, f3, f4, hid]
    rw [t2, t1] at h5
    rw [e4]
    exact h5

/-- When the request supplies a start or an end and no room, a successful
`UpdateMeeting` preserves the room non-overlap invariant. -/
theorem UpdateMeeting_preserves_NoOverlap_of_times (db : DB) (now : Time) (id userID : Nat)
    (req : UpdateMeetingRequest) (db' : DB) (m : Meeting) (hinv : NoOverlap db)
    (hsup : (req.StartTime.isSome || req.EndTime.isSome) = true)
    (hnoroom : req.RoomID = none)
    (h : UpdateMeeting db now id userID req = .ok (db', m)) : NoOverlap db' := by
  obtain ⟨meeting0, final, -, -, hfroom, hmeet, hav⟩ := UpdateMeeting_ok_inv h
  have hav := hav hsup
  have hfr : req.RoomID.getD meeting0.RoomID = final.RoomID := by
    rw [hfroom, hnoroom]
    cases roomGetByID db meeting0.RoomID <;> rfl
  rw [hfr, IsRoomAvailable_eq_true] at hav
  have key : ∀ o ∈ db.meetings, o.ID ≠ final.ID → o.RoomID = final.RoomID → o.IsActive = true →
      ¬ (o.StartTime < final.EndTime ∧ o.EndTime > final.StartTime) := by
    intro o ho hid hr ha hov
    have hf := hav o ho
    rw [(conflictRow_iff _ _ _ _ o).mpr
      ⟨hr, by simpa [Meeting.IsActive] using ha, by simpa using fun h => hid h.symm,
        hov.1, hov.2⟩] at hf
    cases hf
  intro m1 h1 m2 h2 hne hroom ha1 ha2
  rw [hmeet, List.mem_map] at h1 h2
  obtain ⟨o1, ho1, rfl⟩ := h1
  obtain ⟨o2, ho2, rfl⟩ := h2
  by_cases c1 : o1.ID = final.ID <;> by_cases c2 : o2.ID = final.ID
  · simp [c1, c2] at hne
  · simp only [c1, c2, beq_self_eq_true, if_true, beq_iff_eq, if_false] at hroom ha2 ⊢
    intro hov
    exact key o2 ho2 c2 hroom.symm ha2 ⟨hov.2, hov.1⟩
  · simp only [c1, c2, beq_self_eq_true, if_true, beq_iff_eq, if_false] at hroom ha1 ⊢
    exact key o1 ho1 c1 hroom ha1
  · simp only [c1, c2, beq_iff_eq, if_false] at hne hroom ha1 ha2 ⊢
    exact hinv o1 ho1 o2 ho2 hne hroom ha1 ha2

/-- C2 (failing input): in `rebookDB` the invariant holds: room 1 has meeting A
10:00-11:00 and meeting B 12:00-13:00, room 2 is free. The organizer of A sends
an update that supplies 12:00-13:00 and room 2. Availability is checked in room
2, the requested room, and the call succeeds; the row is written with the new
times and the key of the room it was loaded with, room 1, where B is booked
12:00-13:00: the stored meetings no longer satisfy the invariant. -/
theorem UpdateMeeting_times_and_room_breaks_NoOverlap :
    NoOverlap rebookDB ∧
      IsRoomAvailable rebookDB 2 720 780 (some 1) = true ∧
      UpdateMeeting rebookDB 480 1 1 (rebookUpdate 720 780 2) = .ok (rebookedDB, rebookedRow) ∧
      rebookedRow.RoomID = 1 ∧
      ¬ NoOverlap rebookedDB :=
  ⟨by decide, rfl, rfl, rfl, by decide⟩

/-- A second way past the check: a request that supplies only the status is
written without any availability check. In `postponedDB` meeting B of room 1
has the status "postponed" and meeting A is scheduled in its slot; setting B
back to "scheduled" succeeds and leaves two scheduled meetings of room 1 over
10:00-11:00. -/
theorem UpdateMeeting_status_only_breaks_NoOverlap :
    NoOverlap postponedDB ∧
      (∃ db' m, UpdateMeeting postponedDB 480 2 2 (statusOnlyUpdate StatusScheduled)
          = .ok (db', m) ∧ ¬ NoOverlap db') :=
  ⟨by decide, _, _, rfl, by decide⟩

/-- C8 (as stated, refuted): on the completed meeting C of `exampleDB`, a caller
who is neither its organizer nor a manager (user 2, an employee, and user 99,
who has no record) gets the Forbidden error, not the InvalidState error. -/
theorem UpdateMeeting_completed_not_always_invalid_state :
    (meetingGetByID exampleDB 3).map (fun m => m.Status) = some StatusCompleted ∧
      UpdateMeeting exampleDB 480 3 2 emptyUpdate
        = .error "only organizer or manager can update meeting" ∧
      UpdateMeeting exampleDB 480 3 99 emptyUpdate
        = .error "only organizer or manager can update meeting" ∧
      UpdateMeeting exampleDB 480 3 2 emptyUpdate
        ≠ .error "cannot update completed or cancelled meeting" :=
  ⟨rfl, rfl, rfl, by rw [show UpdateMeeting exampleDB 480 3 2 emptyUpdate
      = .error "only organizer or manager can update meeting" from rfl]; simp⟩

/-- C8 (amended): `UpdateMeeting` on a meeting whose status is completed always
fails, for every request: with the InvalidState error when the caller is the
organizer or has a user record with role manager or admin, and with the
Forbidden error for every other caller. -/
theorem UpdateMeeting_completed (db : DB) (now : Time) (id userID : Nat)
    (req : UpdateMeetingRequest) (meeting : Meeting)
    (hget : meetingGetByID db id = some meeting)
    (hst : meeting.Status = StatusCompleted) :
    (MayUpdate db meeting userID →
      UpdateMeeting db now id userID req
        = .error "cannot update completed or cancelled meeting") ∧
    (¬ MayUpdate db meeting userID →
      UpdateMeeting db now id userID req
        = .error "only organizer or manager can update meeting") := by
  constructor
  · intro hm
    have hauth := (organizerOrManager_iff db meeting userID).mpr hm
    unfold UpdateMeeting
    simp [hget, hauth, hst]
  · intro hm
    have hauth : organizerOrManager db meeting userID = false := by
      cases hx : organizerOrManager db meeting userID with
      | false => rfl
      | true => exact absurd ((organizerOrManager_iff db meeting userID).mp hx) hm
    unfold UpdateMeeting
    simp [hget, hauth]

theorem UpdateMeeting_completed_witness :
    UpdateMeeting exampleDB 480 3 1 emptyUpdate
        = .error "cannot update completed or cancelled meeting" ∧
      UpdateMeeting exampleDB 480 3 3 (roomOnlyUpdate 2)
        = .error "cannot update completed or cancelled meeting" ∧
      UpdateMeeting exampleDB 480 3 2 emptyUpdate
        = .error "only organizer or manager can update meeting" :=
  ⟨(UpdateMeeting_completed exampleDB 480 3 1 emptyUpdate _ rfl rfl).1 (Or.inl rfl),
    (UpdateMeeting_completed exampleDB 480 3 3 (roomOnlyUpdate 2) _ rfl rfl).1
      (Or.inr ⟨_, rfl, Or.inl rfl⟩),
    (UpdateMeeting_completed exampleDB 480 3 2 emptyUpdate _ rfl rfl).2
      (fun h => absurd ((organizerOrManager_iff _ _ _).mpr h) (by decide))⟩

/-- C9: `UpdateMeeting` fails with "meeting not found" when the id is absent;
for an existing meeting it fails with "only organizer or manager can update
meeting" exactly when the caller is not the organizer and the caller's user
record is missing or has a role other than manager and admin. -/
theorem UpdateMeeting_forbidden_iff (db : DB) (now : Time) (id userID : Nat)
    (req : UpdateMeetingRequest) :
    match meetingGetByID db id with
    | none => UpdateMeeting db now id userID req = .error "meeting not found"
    | some meeting =>
      (UpdateMeeting db now id userID req
          = .error "only organizer or manager can update meeting"
        ↔ meeting.OrganizerID ≠ userID ∧
          (userGetByID db userID = none ∨
            ∃ u, userGetByID db userID = some u ∧ u.Role ≠ RoleManager ∧ u.Role ≠ RoleAdmin)) := by
  cases hget : meetingGetByID db id with
  | none =>
    simp only
    unfold UpdateMeeting
    rw [hget]
  | some meeting =>
    simp only
    have hspec : organizerOrManager db meeting userID = false ↔
        meeting.OrganizerID ≠ userID ∧
          (userGetByID db userID = none ∨
            ∃ u, userGetByID db userID = some u ∧ u.Role ≠ RoleManager ∧ u.Role ≠ RoleAdmin) := by
      unfold organizerOrManager
      by_cases ho : meeting.OrganizerID = userID
      · simp [ho]
      · cases hu : userGetByID db userID with
        | none => simp [ho]
        | some u => simp [ho, User.IsManager]
    rw [← hspec]
    constructor
    · intro h
      cases hx : organizerOrManager db meeting userID with
      | false => rfl
      | true =>
        have := UpdateMeeting_error_of_authorized hget hx h
        simp at this
    · intro hx
      unfold UpdateMeeting
      simp [hget, hx]

/-! ### Authorization gate -/

/-- C10 (failing input): user 5, a plain employee, calls a route whose path id
is "5" (their own id). Whatever the validator answers, `RequireOwnerOrRole(manager)`
answers Forbidden: the path id is never parsed into `targetUserID`, so the caller
id is compared with zero. -/
theorem RequireOwnerOrRole_owner_denied (validateVar : Nat → String → Bool) :
    RequireOwnerOrRole validateVar RoleManager (userRouteContext 5 RoleEmployee "5")
      = .forbidden "Manager role or higher required" := by
  simp [RequireOwnerOrRole, userRouteContext, Context.Get, Context.Param, List.lookup,
    RoleManager, RoleAdmin, RoleEmployee]

/-- A caller whose role is manager or admin passes `RequireOwnerOrRole(manager)`
whatever the path id is. -/
theorem RequireOwnerOrRole_manager_passes (validateVar : Nat → String → Bool)
    (callerID : Nat) (role pathID : String) (hr : role = RoleManager ∨ role = RoleAdmin) :
    RequireOwnerOrRole validateVar RoleManager (userRouteContext callerID role pathID)
      = .next := by
  rcases hr with rfl | rfl <;>
    simp [RequireOwnerOrRole, userRouteContext, Context.Get, List.lookup,
      RoleManager, RoleAdmin]

/-! ### RequireRole -/

theorem RequireRole_str (role : UserRole) (c : Context) (roleStr : String)
    (h : c.Get "user_role" = some (.str roleStr)) :
    RequireRole role c =
      if role == RoleAdmin then
        if roleStr != RoleAdmin then .forbidden "Admin role required" else .next
      else if role == RoleManager then
        if roleStr != RoleAdmin && roleStr != RoleManager then
          .forbidden "Manager role or higher required"
        else .next
      else .next := by
  unfold RequireRole
  rw [h]

/-- C11: for a caller whose context carries the role string `c`, and a required
role `R` among admin, manager and employee, `RequireRole(R)` lets the request
proceed exactly when `c` is at least `R` in the order admin > manager > employee
(every caller being at least at the employee level) and answers Forbidden
otherwise: `RequireRole(admin)` passes only admin, `RequireRole(manager)` only
manager and admin, `RequireRole(employee)` every caller. -/
theorem RequireRole_iff (R : UserRole) (ctx : Context) (c : String)
    (hR : R = RoleAdmin ∨ R = RoleManager ∨ R = RoleEmployee)
    (hc : ctx.Get "user_role" = some (.str c)) :
    (RequireRole R ctx = .next ↔ roleRank R ≤ roleRank c) ∧
    (¬ roleRank R ≤ roleRank c → ∃ msg, RequireRole R ctx = .forbidden msg) ∧
    (RequireRole RoleAdmin ctx = .next ↔ c = RoleAdmin) ∧
    (RequireRole RoleManager ctx = .next ↔ c = RoleManager ∨ c = RoleAdmin) ∧
    RequireRole RoleEmployee ctx = .next := by
  have hA : RequireRole RoleAdmin ctx = .next ↔ c = RoleAdmin := by
    rw [RequireRole_str _ _ _ hc]
    by_cases h : c = RoleAdmin <;> simp [h]
  have hM : RequireRole RoleManager ctx = .next ↔ c = RoleManager ∨ c = RoleAdmin := by
    rw [RequireRole_str _ _ _ hc]
    have hne : (RoleManager == RoleAdmin) = false := by decide
    by_cases h1 : c = RoleAdmin <;> by_cases h2 : c = RoleManager <;> simp [h1, h2, hne]
  have hE : RequireRole RoleEmployee ctx = .next := by
    rw [RequireRole_str _ _ _ hc]
    have h1 : (RoleEmployee == RoleAdmin) = false := by decide
    have h2 : (RoleEmployee == RoleManager) = false := by decide
    simp [h1, h2]
  have hMA : RoleManager ≠ RoleAdmin := by decide
  have hrank : roleRank c = 3 ∧ c = RoleAdmin ∨ roleRank c = 2 ∧ c ≠ RoleAdmin ∧ c = RoleManager ∨
      roleRank c = 1 ∧ c ≠ RoleAdmin ∧ c ≠ RoleManager := by
    unfold roleRank
    by_cases h1 : c = RoleAdmin
    · left; simp [h1]
    · by_cases h2 : c = RoleManager
      · right; left; rw [if_neg h1, if_pos h2]; exact ⟨rfl, h1, h2⟩
      · right; right; rw [if_neg h1, if_neg h2]; exact ⟨rfl, h1, h2⟩
  have key : RequireRole R ctx = .next ↔ roleRank R ≤ roleRank c := by
    rcases hR with rfl | rfl | rfl
    · rw [hA, show roleRank RoleAdmin = 3 from by decide]
      rcases hrank with ⟨hr, h1⟩ | ⟨hr, h1, -⟩ | ⟨hr, h1, -⟩ <;> rw [hr] <;> simp [h1]
    · rw [hM, show roleRank RoleManager = 2 from by decide]
      rcases hrank with ⟨hr, h1⟩ | ⟨hr, h1, h2⟩ | ⟨hr, h1, h2⟩
      · rw [hr]; simp [h1]
      · rw [hr]; simp [h2]
      · rw [hr]; simp [h1, h2]
    · rw [show roleRank RoleEmployee = 1 from by decide]
      refine ⟨fun _ => ?_, fun _ => hE⟩
      rcases hrank with ⟨hr, -⟩ | ⟨hr, -, -⟩ | ⟨hr, -, -⟩ <;> rw [hr] <;> decide
  refine ⟨key, ?_, hA, hM, hE⟩
  intro hn
  cases hr : RequireRole R ctx with
  | next => exact absurd (key.mp hr) hn
  | forbidden msg => exact ⟨msg, rfl⟩

theorem RequireRole_iff_witness :
    (RequireRole RoleManager (roleContext 7 RoleAdmin) = .next ↔
      roleRank RoleManager ≤ roleRank RoleAdmin) ∧
    RequireRole RoleManager (roleContext 7 RoleEmployee)
      = .forbidden "Manager role or higher required" ∧
    RequireRole RoleEmployee (roleContext 7 "guest") = .next :=
  ⟨(RequireRole_iff RoleManager (roleContext 7 RoleAdmin) RoleAdmin (Or.inr (Or.inl rfl)) rfl).1,
    rfl,
    (RequireRole_iff RoleEmployee (roleContext 7 "guest") "guest" (Or.inr (Or.inr rfl))
      rfl).2.2.2.2⟩

/-! ### DeleteMeeting -/

theorem find?_map_replace (l : List Meeting) (id : Nat) (f : Meeting → Meeting)
    (hf : ∀ x, x.ID = id → (f x).ID = id) :
    (l.map (fun x => if x.ID == id then f x else x)).find? (fun x => x.ID == id)
      = (l.find? (fun x => x.ID == id)).map f := by
  induction l with
  | nil => rfl
  | cons a t ih =>
    rw [List.map_cons, List.find?_cons, List.find?_cons, ih]
    by_cases h : a.ID = id
    · have h4 : (a.ID == id) = true := by simpa using h
      have h3 : ((f a).ID == id) = true := by simpa using hf a h
      simp only [h4, if_true, h3, Option.map_some']
    · have h1 : (a.ID == id) = false := by simpa using h
      simp only [h1, Bool.false_eq_true, if_false]

theorem find?_map_other (l : List Meeting) (id j : Nat) (f : Meeting → Meeting)
    (hf : ∀ x, x.ID = id → (f x).ID = id) (hj : j ≠ id) :
    (l.map (fun x => if x.ID == id then f x else x)).find? (fun x => x.ID == j)
      = l.find? (fun x => x.ID == j) := by
  induction l with
  | nil => rfl
  | cons a t ih =>
    rw [List.map_cons, List.find?_cons, List.find?_cons, ih]
    by_cases h : a.ID = id
    · have h2 : (a.ID == j) = false := by simpa [h] using fun e => hj e.symm
      have h3 : ((f a).ID == j) = false := by
        rw [hf a h]; simpa using fun e => hj e.symm
      have h4 : (a.ID == id) = true := by simpa using h
      simp only [h4, if_true, h2, h3]
    · have h1 : (a.ID == id) = false := by simpa using h
      simp only [h1, Bool.false_eq_true, if_false]

theorem meetingGetByID_ID {db : DB} {id : Nat} {meeting : Meeting}
    (h : meetingGetByID db id = some meeting) : meeting.ID = id := by
  simpa using List.find?_some h

theorem organizerOrManager_false_iff (db : DB) (meeting : Meeting) (userID : Nat) :
    organizerOrManager db meeting userID = false ↔ ¬ MayUpdate db meeting userID := by
  rw [← organizerOrManager_iff]
  cases organizerOrManager db meeting userID <;> simp

/-- C18: `DeleteMeeting` never removes the row: after a successful call the
meeting is still returned by `GetMeetingByID`, with status cancelled and every
other field as before; its attendee set is as before, and every other meeting
and its attendee set are unchanged. -/
theorem DeleteMeeting_keeps_row (db : DB) (id userID : Nat) (db' : DB) (old : Meeting)
    (hget : meetingGetByID db id = some old)
    (h : DeleteMeeting db id userID = (db', .ok ())) :
    meetingGetByID db' id = some { old with Status := StatusCancelled } ∧
    attendeeIDs db' id = attendeeIDs db id ∧
    db'.meetings = db.meetings.map
      (fun x => if x.ID == id then { x with Status := StatusCancelled } else x) ∧
    (∀ j, j ≠ id → meetingGetByID db' j = meetingGetByID db j ∧
      attendeeIDs db' j = attendeeIDs db j) := by
  unfold DeleteMeeting at h
  rw [hget] at h
  simp only at h
  split at h
  · simp at h
  split at h
  · simp at h
  simp only [Prod.mk.injEq, and_true] at h
  subst h
  refine ⟨?_, rfl, rfl, fun j hj => ⟨?_, rfl⟩⟩
  · unfold meetingGetByID at hget ⊢
    simp only [UpdateMeetingStatus]
    have hr := find?_map_replace db.meetings id
      (fun m => { m with Status := StatusCancelled }) (fun x hx => hx)
    exact hr.trans (by rw [hget]; rfl)
  · unfold meetingGetByID
    simp only [UpdateMeetingStatus]
    exact find?_map_other db.meetings id j
      (fun m => { m with Status := StatusCancelled }) (fun x hx => hx) hj

theorem DeleteMeeting_keeps_row_witness :
    DeleteMeeting exampleDB 1 3 = (UpdateMeetingStatus exampleDB 1 StatusCancelled, .ok ()) ∧
    meetingGetByID (UpdateMeetingStatus exampleDB 1 StatusCancelled) 1 =
      some { ID := 1, Title := "A", Description := "", StartTime := 600, EndTime := 660,
             Status := StatusCancelled, IsRecurring := false, RecurrencePattern := "",
             OrganizerID := 1, RoomID := 1 } :=
  ⟨rfl, (DeleteMeeting_keeps_row exampleDB 1 3 (UpdateMeetingStatus exampleDB 1 StatusCancelled)
    _ rfl rfl).1⟩

/-- C19: for an existing meeting, `DeleteMeeting` fails with "only organizer or
manager can delete meeting" when the caller is neither the organizer nor a
manager or admin, fails with "cannot delete completed meeting" when such a
caller is allowed and the status is completed, and succeeds in every other
case (so also for a cancelled meeting); on every failure the store is the one
it was before the call. -/
theorem DeleteMeeting_outcome (db : DB) (id userID : Nat) (meeting : Meeting)
    (hget : meetingGetByID db id = some meeting) :
    (¬ MayUpdate db meeting userID →
      DeleteMeeting db id userID
        = (db, .error "only organizer or manager can delete meeting")) ∧
    (MayUpdate db meeting userID → meeting.Status = StatusCompleted →
      DeleteMeeting db id userID = (db, .error "cannot delete completed meeting")) ∧
    (MayUpdate db meeting userID → meeting.Status ≠ StatusCompleted →
      (DeleteMeeting db id userID).2 = .ok ()) ∧
    (∀ e, (DeleteMeeting db id userID).2 = .error e → (DeleteMeeting db id userID).1 = db) := by
  refine ⟨?_, ?_, ?_, ?_⟩
  · intro hm
    have := (organizerOrManager_false_iff db meeting userID).mpr hm
    simp [DeleteMeeting, hget, this]
  · intro hm hs
    have := (organizerOrManager_iff db meeting userID).mpr hm
    simp [DeleteMeeting, hget, this, hs]
  · intro hm hs
    have := (organizerOrManager_iff db meeting userID).mpr hm
    simp [DeleteMeeting, hget, this, hs]
  · intro e he
    unfold DeleteMeeting at he ⊢
    rw [hget] at he ⊢
    simp only at he ⊢
    split
    · rfl
    · split
      · rfl
      · rename_i h1 h2
        rw [if_neg h1, if_neg h2] at he
        cases he

theorem DeleteMeeting_outcome_witness :
    DeleteMeeting exampleDB 1 2
      = (exampleDB, .error "only organizer or manager can delete meeting") ∧
    DeleteMeeting exampleDB 3 1 = (exampleDB, .error "cannot delete completed meeting") ∧
    (DeleteMeeting (UpdateMeetingStatus exampleDB 1 StatusCancelled) 1 1).2 = .ok () :=
  ⟨(DeleteMeeting_outcome exampleDB 1 2 _ rfl).1
      (fun h => absurd ((organizerOrManager_iff _ _ _).mpr h) (by decide)),
    (DeleteMeeting_outcome exampleDB 3 1 _ rfl).2.1 (Or.inl rfl) rfl,
    (DeleteMeeting_outcome (UpdateMeetingStatus exampleDB 1 StatusCancelled) 1 1 _ rfl).2.2.1
      (Or.inl rfl) (by decide)⟩

/-! ### UpdateMeeting: result of a call that reaches the write -/

theorem updateTimes_ok_times {db : DB} {now : Time} {meeting : Meeting}
    {req : UpdateMeetingRequest} {m' : Meeting}
    (h : updateTimes db now meeting req = .ok m') :
    m'.StartTime = req.StartTime.getD meeting.StartTime ∧
      m'.EndTime = req.EndTime.getD meeting.EndTime := by
  unfold updateTimes at h
  cases hs : req.StartTime with
  | none =>
    cases he : req.EndTime with
    | none =>
      simp only [hs, he, Option.isSome_none, Bool.or_self, Bool.false_eq_true, if_false,
        Except.ok.injEq] at h
      subst h
      exact ⟨rfl, rfl⟩
    | some et =>
      simp only [hs, he, Option.isSome_none, Option.isSome_some, Bool.or_true, if_true] at h
      split at h
      · cases h
      split at h
      · cases h
      simp only [Except.ok.injEq] at h
      subst h
      exact ⟨rfl, rfl⟩
  | some st =>
    simp only [hs, Option.isSome_some, Bool.true_or, if_true] at h
    by_cases hp : st < now
    · simp [hp] at h
    · simp only [hp, if_false] at h
      split at h
      · cases h
      split at h
      · cases h
      simp only [Except.ok.injEq] at h
      subst h
      cases he : req.EndTime <;> exact ⟨rfl, rfl⟩

theorem saveMeetingRow_readback {db : DB} {id : Nat} {meeting0 meeting : Meeting}
    (hget : meetingGetByID db id = some meeting0) (hid : meeting.ID = id) :
    meetingGetByID (saveMeetingRow db meeting).1 id = some meeting := by
  unfold meetingGetByID at hget ⊢
  simp only [saveMeetingRow, hid]
  have hr := find?_map_replace db.meetings id (fun _ => meeting) (fun _ _ => hid)
  exact hr.trans (by rw [hget]; rfl)

theorem reconcileAttendees_users (db : DB) (meeting : Meeting) (ids : List Nat) :
    (reconcileAttendees db meeting ids).users = db.users := by
  unfold reconcileAttendees
  simp only
  have frame : ∀ {α : Type} (f : DB → α → DB), (∀ d a, (f d a).users = d.users) →
      ∀ (l : List α) (d : DB), (l.foldl f d).users = d.users := by
    intro α f hf l
    induction l with
    | nil => intro d; rfl
    | cons a t ih => intro d; rw [List.foldl_cons, ih, hf]
  rw [frame, frame]
  · intro d a
    split <;> rfl
  · intro d a
    split
    · split
      · split
        · unfold AddAttendee; split <;> rfl
        · rfl
      · rfl
    · rfl

/-- The value of `UpdateMeeting` for an existing meeting once the authorization
and the state check have passed. -/
theorem UpdateMeeting_eq {db : DB} {id userID : Nat} {meeting0 : Meeting} (now : Time)
    (req : UpdateMeetingRequest)
    (hget : meetingGetByID db id = some meeting0)
    (hauth : organizerOrManager db meeting0 userID = true)
    (hst : (meeting0.Status == StatusCompleted || meeting0.Status == StatusCancelled) = false) :
    UpdateMeeting db now id userID req =
      match updateTimes db now (updateText meeting0 req) req with
      | .error e => .error e
      | .ok meeting3 =>
        match updateRoom db meeting3 req with
        | .error e => .error e
        | .ok meeting4 =>
          .ok (match req.AttendeeIDs with
               | some ids =>
                 reconcileAttendees
                   (saveMeetingRow db
                     (saveReferences (meetingPreload db meeting0) (updateFlags meeting4 req))).1
                   (saveReferences (meetingPreload db meeting0) (updateFlags meeting4 req)) ids
               | none =>
                 (saveMeetingRow db
                   (saveReferences (meetingPreload db meeting0) (updateFlags meeting4 req))).1,
               saveReferences (meetingPreload db meeting0) (updateFlags meeting4 req)) := by
  unfold UpdateMeeting
  simp only [hget, hauth, hst, Bool.not_true, Bool.false_eq_true, if_false]
  cases h3 : updateTimes db now (updateText meeting0 req) req with
  | error e => rfl
  | ok meeting3 =>
    simp only
    cases h4 : updateRoom db meeting3 req with
    | error e => rfl
    | ok meeting4 =>
      simp only [meetingUpdate]
      have hid : (saveReferences (meetingPreload db meeting0) (updateFlags meeting4 req)).ID
          = id := by
        rw [(saveReferences_frame _ _).1, (updateFlags_frame meeting4 req).1, updateRoom_ok h4,
          (updateTimes_ok h3).1]
        simp only
        rw [(updateText_frame meeting0 req).1]
        exact meetingGetByID_ID hget
      generalize saveReferences (meetingPreload db meeting0) (updateFlags meeting4 req)
        = final at hid ⊢
      have hrb := saveMeetingRow_readback hget hid
      have h2 : (saveMeetingRow db final).2 = some final := by
        have : (saveMeetingRow db final).2
            = meetingGetByID (saveMeetingRow db final).1 final.ID := rfl
        rw [this, hid]
        exact hrb
      generalize hmu : saveMeetingRow db final = r at h2 hrb ⊢
      obtain ⟨db1, o⟩ := r
      simp only at h2 hrb
      subst h2
      simp only
      have hfin : meetingGetByID (match req.AttendeeIDs with
          | some ids => reconcileAttendees db1 final ids
          | none => db1) final.ID = some final := by
        rw [hid]
        cases req.AttendeeIDs with
        | none => exact hrb
        | some ids =>
          simp only
          unfold meetingGetByID at hrb ⊢
          rw [reconcileAttendees_meetings]
          exact hrb
      rw [hfin]

theorem IsRoomAvailable_eq_false_iff (db : DB) (r : Nat) (s e : Time) (x : Nat) :
    IsRoomAvailable db r s e (some x) = false ↔
      ∃ m ∈ db.meetings, m.ID ≠ x ∧ m.RoomID = r ∧
        (m.Status = StatusScheduled ∨ m.Status = StatusInProgress) ∧
        m.StartTime < e ∧ m.EndTime > s := by
  constructor
  · intro h
    by_contra hne
    have ht : IsRoomAvailable db r s e (some x) = true := by
      rw [IsRoomAvailable_eq_true]
      intro m hm
      cases hc : conflictRow r s e (some x) m with
      | false => rfl
      | true =>
        obtain ⟨hr, hs, hx, h1, h2⟩ := (conflictRow_iff r s e (some x) m).mp hc
        exact absurd ⟨m, hm, fun hid => hx (by rw [hid]), hr, hs, h1, h2⟩ hne
    rw [ht] at h
    cases h
  · rintro ⟨m, hm, hx, hr, hs, h1, h2⟩
    cases ha : IsRoomAvailable db r s e (some x) with
    | false => rfl
    | true =>
      have hf := (IsRoomAvailable_eq_true db r s e (some x)).mp ha m hm
      rw [(conflictRow_iff r s e (some x) m).mpr
        ⟨hr, hs, fun hid => hx (Option.some.inj hid).symm, h1, h2⟩] at hf
      cases hf

theorem updateTimes_eq_of_checks (db : DB) (now : Time) (meeting : Meeting)
    (req : UpdateMeetingRequest)
    (hsup : req.StartTime ≠ none ∨ req.EndTime ≠ none)
    (hpast : ∀ st, req.StartTime = some st → ¬ st < now)
    (hint : ¬ req.EndTime.getD meeting.EndTime < req.StartTime.getD meeting.StartTime) :
    updateTimes db now meeting req =
      if !IsRoomAvailable db (req.RoomID.getD meeting.RoomID)
          (req.StartTime.getD meeting.StartTime) (req.EndTime.getD meeting.EndTime)
          (some meeting.ID) then
        .error "room is not available for the selected time"
      else .ok { meeting with StartTime := req.StartTime.getD meeting.StartTime,
                              EndTime := req.EndTime.getD meeting.EndTime } := by
  unfold updateTimes
  have hs : (req.StartTime.isSome || req.EndTime.isSome) = true := by
    rcases hsup with h | h
    · cases hst : req.StartTime with
      | none => exact absurd hst h
      | some _ => rfl
    · cases het : req.EndTime with
      | none => exact absurd het h
      | some _ => simp
  rw [if_pos hs]
  cases hst : req.StartTime with
  | none =>
    rw [hst] at hint
    simp only [Option.getD_none] at hint ⊢
    cases het : req.EndTime <;> cases hr : req.RoomID <;>
      simp only [het, hr, Option.getD_none, Option.getD_some] at hint ⊢ <;> rw [if_neg hint]
  | some st =>
    have hp := hpast st hst
    rw [hst] at hint
    simp only [Option.getD_some] at hint ⊢
    rw [if_neg hp]
    cases het : req.EndTime <;> cases hr : req.RoomID <;>
      simp only [het, hr, Option.getD_none, Option.getD_some] at hint ⊢ <;> rw [if_neg hint]

theorem not_terminal_of {meeting : Meeting}
    (h : meeting.Status ≠ StatusCompleted ∧ meeting.Status ≠ StatusCancelled) :
    (meeting.Status == StatusCompleted || meeting.Status == StatusCancelled) = false := by
  simp [h.1, h.2]

/-- C12: when an `UpdateMeeting` request supplies a start or an end and passes
the authorization, state, past-start and interval checks, the call fails with
"room is not available for the selected time" exactly when some meeting other
than the updated one, scheduled or in progress, in the effective room (requested
room, else current room) overlaps the effective interval (unsupplied bound kept
from the stored meeting). The updated meeting's own row is never the cause. -/
theorem UpdateMeeting_conflict_iff (db : DB) (now : Time) (id userID : Nat)
    (req : UpdateMeetingRequest) (meeting : Meeting)
    (hget : meetingGetByID db id = some meeting)
    (hauth : MayUpdate db meeting userID)
    (hstate : meeting.Status ≠ StatusCompleted ∧ meeting.Status ≠ StatusCancelled)
    (hsup : req.StartTime ≠ none ∨ req.EndTime ≠ none)
    (hpast : ∀ st, req.StartTime = some st → ¬ st < now)
    (hint : ¬ req.EndTime.getD meeting.EndTime < req.StartTime.getD meeting.StartTime) :
    UpdateMeeting db now id userID req
        = .error "room is not available for the selected time" ↔
      ∃ m ∈ db.meetings, m.ID ≠ meeting.ID ∧ m.RoomID = req.RoomID.getD meeting.RoomID ∧
        (m.Status = StatusScheduled ∨ m.Status = StatusInProgress) ∧
        m.StartTime < req.EndTime.getD meeting.EndTime ∧
        m.EndTime > req.StartTime.getD meeting.StartTime := by
  rw [UpdateMeeting_eq now req hget ((organizerOrManager_iff db meeting userID).mpr hauth)
    (not_terminal_of hstate)]
  obtain ⟨t1, t2, t3, t4, -, -⟩ := updateText_frame meeting req
  have hint' : ¬ req.EndTime.getD (updateText meeting req).EndTime
      < req.StartTime.getD (updateText meeting req).StartTime := by rw [t3, t4]; exact hint
  rw [updateTimes_eq_of_checks db now (updateText meeting req) req hsup hpast hint']
  rw [t1, t2, t3, t4, ← IsRoomAvailable_eq_false_iff]
  cases hav : IsRoomAvailable db (req.RoomID.getD meeting.RoomID)
      (req.StartTime.getD meeting.StartTime) (req.EndTime.getD meeting.EndTime)
      (some meeting.ID) with
  | false => simp
  | true =>
    simp only [Bool.not_true, Bool.false_eq_true, if_false, iff_false]
    cases h4 : updateRoom db _ req with
    | error e =>
      simp only [Except.error.injEq]
      rcases updateRoom_error h4 with h | h <;> rw [h] <;> decide
    | ok meeting4 => simp

theorem UpdateMeeting_conflict_iff_witness :
    UpdateMeeting exampleDB 480 2 2 { timesUpdate 600 660 with RoomID := some 1 }
        = .error "room is not available for the selected time" ∧
      UpdateMeeting exampleDB 480 1 1 (timesUpdate 600 690)
        ≠ .error "room is not available for the selected time" :=
  ⟨(UpdateMeeting_conflict_iff exampleDB 480 2 2 { timesUpdate 600 660 with RoomID := some 1 } _
      rfl (Or.inl rfl) ⟨by decide, by decide⟩ (Or.inl (by decide)) (by decide)
      (by decide)).mpr (by decide),
    fun h => absurd ((UpdateMeeting_conflict_iff exampleDB 480 1 1 (timesUpdate 600 690) _
      rfl (Or.inl rfl) ⟨by decide, by decide⟩ (Or.inl (by decide)) (by decide)
      (by decide)).mp h) (by decide)⟩

/-- C13 (failing input): meeting A of `exampleDB` is stored over 10:00-11:00; its
organizer sends an update that supplies only the end time 10:00. The effective
end equals the effective start, yet the call succeeds and the stored meeting
now has the empty interval. -/
theorem UpdateMeeting_accepts_end_eq_start :
    ∃ db' m, UpdateMeeting exampleDB 480 1 1 (endOnlyUpdate 600) = .ok (db', m) ∧
      m.EndTime ≤ m.StartTime ∧ meetingGetByID db' 1 = some m ∧
      meetingGetByID exampleDB 1 ≠ some m :=
  ⟨_, _, rfl, by decide, rfl, by decide⟩

/-- When the request supplies a start or an end and the effective end is before
the effective start, `UpdateMeeting` returns an error. -/
theorem UpdateMeeting_rejects_end_before_start (db : DB) (now : Time) (id userID : Nat)
    (req : UpdateMeetingRequest) (meeting : Meeting)
    (hget : meetingGetByID db id = some meeting)
    (hsup : req.StartTime ≠ none ∨ req.EndTime ≠ none)
    (hlt : req.EndTime.getD meeting.EndTime < req.StartTime.getD meeting.StartTime) :
    ∃ e, UpdateMeeting db now id userID req = .error e := by
  cases hauth : organizerOrManager db meeting userID with
  | false =>
    exact ⟨"only organizer or manager can update meeting",
      by unfold UpdateMeeting; simp [hget, hauth]⟩
  | true =>
    cases hst : (meeting.Status == StatusCompleted || meeting.Status == StatusCancelled) with
    | true =>
      exact ⟨"cannot update completed or cancelled meeting",
        by unfold UpdateMeeting; simp only [hget, hauth, hst]; rfl⟩
    | false =>
      rw [UpdateMeeting_eq now req hget hauth hst]
      cases h3 : updateTimes db now (updateText meeting req) req with
      | error e => exact ⟨e, rfl⟩
      | ok meeting3 =>
        exfalso
        obtain ⟨-, -, t3, t4, -, -⟩ := updateText_frame meeting req
        have hs : (req.StartTime.isSome || req.EndTime.isSome) = true := by
          rcases hsup with h | h
          · cases hx : req.StartTime with
            | none => exact absurd hx h
            | some _ => rfl
          · cases hx : req.EndTime with
            | none => exact absurd hx h
            | some _ => simp
        unfold updateTimes at h3
        rw [if_pos hs, t3, t4] at h3
        cases hx : req.StartTime with
        | none =>
          rw [hx] at hlt
          simp only [hx, Option.getD_none] at h3 hlt
          cases hy : req.EndTime <;> simp only [hy, Option.getD_none, Option.getD_some] at h3 hlt
            <;> rw [if_pos hlt] at h3 <;> cases h3
        | some st =>
          rw [hx] at hlt
          simp only [hx, Option.getD_some] at h3 hlt
          by_cases hp : st < now
          · rw [if_pos hp] at h3; cases h3
          · rw [if_neg hp] at h3
            cases hy : req.EndTime <;>
              simp only [hy, Option.getD_none, Option.getD_some] at h3 hlt
              <;> rw [if_pos hlt] at h3 <;> cases h3

theorem updateTimes_past_iff (db : DB) (now : Time) (meeting : Meeting)
    (req : UpdateMeetingRequest) :
    updateTimes db now meeting req = .error "meeting start time cannot be in the past" ↔
      ∃ st, req.StartTime = some st ∧ st < now := by
  constructor
  · intro h
    cases hx : req.StartTime with
    | none =>
      exfalso
      unfold updateTimes at h
      simp only [hx] at h
      repeat' split at h
      all_goals simp at h
    | some st =>
      by_cases hp : st < now
      · exact ⟨st, rfl, hp⟩
      · exfalso
        unfold updateTimes at h
        simp only [hx, hp, if_false] at h
        repeat' split at h
        all_goals simp at h
  · rintro ⟨st, hst, hp⟩
    unfold updateTimes
    simp [hst, hp]

/-- C14 (as stated, refuted): meeting P of `inProgressDB` started at 10:00 and
is in progress at 10:30. Its organizer extends the end to 11:30 and resends the
stored start 10:00 unchanged: the call is rejected with "meeting start time
cannot be in the past". -/
theorem UpdateMeeting_unchanged_start_rejected :
    (meetingGetByID inProgressDB 1).map (fun m => m.StartTime) = some 600 ∧
      (timesUpdate 600 690).StartTime = some 600 ∧
      UpdateMeeting inProgressDB 630 1 1 (timesUpdate 600 690)
        = .error "meeting start time cannot be in the past" :=
  ⟨rfl, rfl, rfl⟩

/-- C14 (amended): for an existing meeting in a non-terminal state and an
authorised caller, `UpdateMeeting` fails with "meeting start time cannot be in
the past" exactly when the request supplies a start time that lies before the
current time, be it equal to the stored start or not; a request that omits the
start is never rejected with that error. -/
theorem UpdateMeeting_past_iff (db : DB) (now : Time) (id userID : Nat)
    (req : UpdateMeetingRequest) (meeting : Meeting)
    (hget : meetingGetByID db id = some meeting)
    (hauth : MayUpdate db meeting userID)
    (hstate : meeting.Status ≠ StatusCompleted ∧ meeting.Status ≠ StatusCancelled) :
    UpdateMeeting db now id userID req = .error "meeting start time cannot be in the past" ↔
      ∃ st, req.StartTime = some st ∧ st < now := by
  rw [UpdateMeeting_eq now req hget ((organizerOrManager_iff db meeting userID).mpr hauth)
    (not_terminal_of hstate), ← updateTimes_past_iff db now (updateText meeting req) req]
  cases h3 : updateTimes db now (updateText meeting req) req with
  | error e => simp
  | ok meeting3 =>
    simp only
    cases h4 : updateRoom db meeting3 req with
    | error e =>
      simp only [Except.error.injEq]
      constructor
      · intro hh
        rcases updateRoom_error h4 with h | h <;> rw [h] at hh <;> exact absurd hh (by decide)
      · intro hh
        cases hh
    | ok meeting4 => simp

theorem UpdateMeeting_past_iff_witness :
    UpdateMeeting inProgressDB 630 1 1 (timesUpdate 600 690)
        = .error "meeting start time cannot be in the past" ∧
      UpdateMeeting inProgressDB 630 1 1 (endOnlyUpdate 690)
        ≠ .error "meeting start time cannot be in the past" :=
  ⟨(UpdateMeeting_past_iff inProgressDB 630 1 1 (timesUpdate 600 690) _ rfl (Or.inl rfl)
      ⟨by decide, by decide⟩).mpr ⟨600, rfl, by decide⟩,
    fun h => by
      obtain ⟨st, hst, -⟩ := (UpdateMeeting_past_iff inProgressDB 630 1 1 (endOnlyUpdate 690) _
        rfl (Or.inl rfl) ⟨by decide, by decide⟩).mp h
      cases hst⟩

theorem UpdateMeeting_ok_checks {db : DB} {now : Time} {id userID : Nat}
    {req : UpdateMeetingRequest} {db' : DB} {m meeting0 : Meeting}
    (hget : meetingGetByID db id = some meeting0)
    (h : UpdateMeeting db now id userID req = .ok (db', m)) :
    organizerOrManager db meeting0 userID = true ∧
      (meeting0.Status == StatusCompleted || meeting0.Status == StatusCancelled) = false := by
  unfold UpdateMeeting at h
  rw [hget] at h
  simp only at h
  cases hauth : organizerOrManager db meeting0 userID with
  | false => simp [hauth] at h
  | true =>
    cases hst : (meeting0.Status == StatusCompleted || meeting0.Status == StatusCancelled) with
    | true => simp only [hauth, hst, Bool.not_true, Bool.false_eq_true, if_false, if_true] at h
              cases h
    | false => exact ⟨rfl, rfl⟩

theorem updateFlags_RoomID (meeting : Meeting) (req : UpdateMeetingRequest) (roomID : Nat) :
    { updateFlags meeting req with RoomID := roomID }
      = updateFlags { meeting with RoomID := roomID } req := by
  unfold updateFlags
  cases req.Status <;> cases req.IsRecurring <;> cases req.RecurrencePattern <;> rfl

/-- Inversion of a successful `UpdateMeeting`: the returned meeting is the
patched in-memory meeting with the room key `Save` has written, and the new
store is the store after the write and the attendee reconciliation. -/
theorem UpdateMeeting_ok_eq {db : DB} {now : Time} {id userID : Nat}
    {req : UpdateMeetingRequest} {db' : DB} {m meeting0 : Meeting}
    (hget : meetingGetByID db id = some meeting0)
    (h : UpdateMeeting db now id userID req = .ok (db', m)) :
    m = updateFlags
        { updateText meeting0 req with
          StartTime := req.StartTime.getD meeting0.StartTime
          EndTime := req.EndTime.getD meeting0.EndTime
          RoomID := match roomGetByID db meeting0.RoomID with
            | some _ => meeting0.RoomID
            | none => req.RoomID.getD meeting0.RoomID } req ∧
    db' = (match req.AttendeeIDs with
           | some ids => reconcileAttendees (saveMeetingRow db m).1 m ids
           | none => (saveMeetingRow db m).1) := by
  obtain ⟨hauth, hst⟩ := UpdateMeeting_ok_checks hget h
  rw [UpdateMeeting_eq now req hget hauth hst] at h
  cases h3 : updateTimes db now (updateText meeting0 req) req with
  | error e => rw [h3] at h; cases h
  | ok meeting3 =>
    rw [h3] at h
    simp only at h
    cases h4 : updateRoom db meeting3 req with
    | error e => rw [h4] at h; cases h
    | ok meeting4 =>
      rw [h4] at h
      simp only [Except.ok.injEq, Prod.mk.injEq] at h
      obtain ⟨hdb, hm⟩ := h
      obtain ⟨e3, -⟩ := updateTimes_ok h3
      obtain ⟨s3, s4⟩ := updateTimes_ok_times h3
      have e4 := updateRoom_ok h4
      obtain ⟨-, t2, t3, t4, -, t6⟩ := updateText_frame meeting0 req
      have hm4 : meeting4 = { updateText meeting0 req with
          StartTime := req.StartTime.getD meeting0.StartTime
          EndTime := req.EndTime.getD meeting0.EndTime
          RoomID := req.RoomID.getD meeting0.RoomID } := by
        rw [e4, e3, s3, s4, t2, t3, t4]
      have horg : (updateFlags meeting4 req).OrganizerID = meeting0.OrganizerID := by
        rw [(updateFlags_frame meeting4 req).2.2.2.2, hm4]
        exact t6
      have hroom : (updateFlags meeting4 req).RoomID = req.RoomID.getD meeting0.RoomID := by
        rw [(updateFlags_frame meeting4 req).2.1, hm4]
      have hsave := saveReferences_preload db meeting0 (updateFlags meeting4 req) horg
      rw [hroom, updateFlags_RoomID] at hsave
      refine ⟨?_, ?_⟩
      · rw [← hm, hsave, hm4]
      · rw [← hdb, ← hm]

/-- What a successful `UpdateMeeting` stores, field by field: title,
description, start, end, status, is_recurring and recurrence_pattern have the
requested value when the field is present and the previous value when it is
absent; id and organizer are never changed; the room key is the previous one
whenever the room the meeting was loaded with exists, whatever room the request
supplies; a request with every field absent leaves the meeting as it was. -/
theorem UpdateMeeting_patch_fields (db : DB) (now : Time) (id userID : Nat)
    (req : UpdateMeetingRequest) (db' : DB) (m old : Meeting)
    (hget : meetingGetByID db id = some old)
    (h : UpdateMeeting db now id userID req = .ok (db', m)) :
    meetingGetByID db' id = some m ∧
    m.Title = req.Title.getD old.Title ∧
    m.Description = req.Description.getD old.Description ∧
    m.StartTime = req.StartTime.getD old.StartTime ∧
    m.EndTime = req.EndTime.getD old.EndTime ∧
    m.RoomID = (match roomGetByID db old.RoomID with
      | some _ => old.RoomID
      | none => req.RoomID.getD old.RoomID) ∧
    m.Status = req.Status.getD old.Status ∧
    m.IsRecurring = req.IsRecurring.getD old.IsRecurring ∧
    m.RecurrencePattern = req.RecurrencePattern.getD old.RecurrencePattern ∧
    m.OrganizerID = old.OrganizerID ∧
    m.ID = old.ID ∧
    (req = emptyUpdate → m = old) := by
  obtain ⟨hm, hdb⟩ := UpdateMeeting_ok_eq hget h
  have hfields : m.Title = req.Title.getD old.Title ∧
      m.Description = req.Description.getD old.Description ∧
      m.StartTime = req.StartTime.getD old.StartTime ∧
      m.EndTime = req.EndTime.getD old.EndTime ∧
      m.RoomID = (match roomGetByID db old.RoomID with
        | some _ => old.RoomID
        | none => req.RoomID.getD old.RoomID) ∧
      m.Status = req.Status.getD old.Status ∧
      m.IsRecurring = req.IsRecurring.getD old.IsRecurring ∧
      m.RecurrencePattern = req.RecurrencePattern.getD old.RecurrencePattern ∧
      m.OrganizerID = old.OrganizerID ∧
      m.ID = old.ID := by
    rw [hm]
    unfold updateFlags updateText
    cases req.Title <;> cases req.Description <;> cases req.Status <;>
      cases req.IsRecurring <;> cases req.RecurrencePattern <;> simp
  have hid : m.ID = id := by
    rw [hfields.2.2.2.2.2.2.2.2.2]
    exact meetingGetByID_ID hget
  refine ⟨?_, hfields.1, hfields.2.1, hfields.2.2.1, hfields.2.2.2.1, hfields.2.2.2.2.1,
    hfields.2.2.2.2.2.1, hfields.2.2.2.2.2.2.1, hfields.2.2.2.2.2.2.2.1,
    hfields.2.2.2.2.2.2.2.2.1, hfields.2.2.2.2.2.2.2.2.2, ?_⟩
  · have hrb := saveMeetingRow_readback hget hid
    rw [hdb]
    cases req.AttendeeIDs with
    | none => exact hrb
    | some ids =>
      simp only
      unfold meetingGetByID at hrb ⊢
      rw [reconcileAttendees_meetings]
      exact hrb
  · intro hreq
    subst hreq
    rw [hm]
    cases roomGetByID db old.RoomID <;> rfl

/-- C17 (failing input): in `rebookDB` the organizer of meeting A (room 1) sends
an update that supplies only room 2, an existing active room with no meeting.
The call succeeds, and the meeting it returns and stores is still in room 1:
the store is the one before the call. -/
theorem UpdateMeeting_room_not_persisted :
    (meetingGetByID rebookDB 1).map (fun m => m.RoomID) = some 1 ∧
      (roomGetByID rebookDB 2).map (fun r => r.IsActive) = some true ∧
      (∃ m, UpdateMeeting rebookDB 480 1 1 (roomOnlyUpdate 2) = .ok (rebookDB, m) ∧
        m.RoomID = 1 ∧ m.RoomID ≠ (roomOnlyUpdate 2).RoomID.getD 1) :=
  ⟨rfl, rfl, _, rfl, rfl, by decide⟩

/-! ### Attendee sets -/

theorem mem_eraseDups_loop (as bs : List Nat) (x : Nat) :
    x ∈ List.eraseDups.loop as bs ↔ x ∈ as ∨ x ∈ bs := by
  induction as generalizing bs with
  | nil => simp [List.eraseDups.loop]
  | cons a t ih =>
    unfold List.eraseDups.loop
    cases hb : bs.elem a with
    | true =>
      simp only
      rw [ih]
      have ha : a ∈ bs := by simpa using hb
      constructor
      · rintro (h | h)
        · exact Or.inl (List.mem_cons_of_mem _ h)
        · exact Or.inr h
      · rintro (h | h)
        · rcases List.mem_cons.mp h with rfl | h
          · exact Or.inr ha
          · exact Or.inl h
        · exact Or.inr h
    | false =>
      simp only
      rw [ih]
      simp only [List.mem_cons]
      tauto

theorem mem_eraseDups (l : List Nat) (x : Nat) : x ∈ l.eraseDups ↔ x ∈ l := by
  unfold List.eraseDups
  rw [mem_eraseDups_loop]
  simp

theorem mem_attendeeIDs (db : DB) (mid a : Nat) :
    a ∈ attendeeIDs db mid ↔ (∃ u ∈ db.users, u.ID = a) ∧ (mid, a) ∈ db.attendees := by
  have hc : ∀ p : Nat × Nat, db.attendees.contains p = true ↔ p ∈ db.attendees := by
    intro p; simp
  unfold attendeeIDs GetMeetingAttendees
  simp only [List.mem_map, List.mem_filter, hc]
  constructor
  · rintro ⟨u, ⟨hu, hm⟩, rfl⟩
    exact ⟨⟨u, hu, rfl⟩, hm⟩
  · rintro ⟨⟨u, hu, rfl⟩, hm⟩
    exact ⟨u, ⟨hu, hm⟩, rfl⟩

theorem ResolvesActive_user {db : DB} {a : Nat} (h : ResolvesActive db a) :
    ∃ u ∈ db.users, u.ID = a := by
  obtain ⟨u, hu, -⟩ := h
  exact ⟨u, List.mem_of_find?_eq_some hu, by simpa using List.find?_some hu⟩

theorem ResolvesActive_congr {db db' : DB} (h : db'.users = db.users) (a : Nat) :
    ResolvesActive db' a ↔ ResolvesActive db a := by
  unfold ResolvesActive userGetByID
  rw [h]

/-- A loop whose every turn removes the join row `(mid, a)` when `drop a` holds
removes exactly those rows. -/
theorem foldl_removes (mid : Nat) (drop : Nat → Bool) (f : DB → Nat → DB)
    (hf : ∀ d a, (f d a).users = d.users ∧
      ∀ p, p ∈ (f d a).attendees ↔ p ∈ d.attendees ∧ ¬ (p = (mid, a) ∧ drop a = true))
    (l : List Nat) (db : DB) :
    (l.foldl f db).users = db.users ∧
      ∀ p, p ∈ (l.foldl f db).attendees ↔
        p ∈ db.attendees ∧ ¬ (p.1 = mid ∧ p.2 ∈ l ∧ drop p.2 = true) := by
  induction l generalizing db with
  | nil => simp
  | cons a t ih =>
    obtain ⟨hu, hp⟩ := hf db a
    obtain ⟨iu, ip⟩ := ih (f db a)
    rw [List.foldl_cons]
    refine ⟨iu.trans hu, fun p => ?_⟩
    rw [ip, hp]
    obtain ⟨p1, p2⟩ := p
    simp only [Prod.mk.injEq, List.mem_cons]
    constructor
    · rintro ⟨⟨h1, h2⟩, h3⟩
      refine ⟨h1, ?_⟩
      rintro ⟨e1, e2 | e2, e3⟩
      · exact h2 ⟨⟨e1, e2⟩, e2 ▸ e3⟩
      · exact h3 ⟨e1, e2, e3⟩
    · rintro ⟨h1, h2⟩
      refine ⟨⟨h1, ?_⟩, ?_⟩
      · rintro ⟨⟨e1, e2⟩, e3⟩
        exact h2 ⟨e1, Or.inl e2, e2 ▸ e3⟩
      · rintro ⟨e1, e2, e3⟩
        exact h2 ⟨e1, Or.inr e2, e3⟩

/-- A loop whose every turn adds the join row `(mid, a)` when `take a` holds and
`a` resolves to an active user adds exactly those rows. -/
theorem foldl_adds (mid : Nat) (take : Nat → Bool) (f : DB → Nat → DB)
    (hf : ∀ d a, (f d a).users = d.users ∧
      ∀ p, p ∈ (f d a).attendees ↔
        p ∈ d.attendees ∨ (p = (mid, a) ∧ take a = true ∧ ResolvesActive d a))
    (l : List Nat) (db : DB) :
    (l.foldl f db).users = db.users ∧
      ∀ p, p ∈ (l.foldl f db).attendees ↔
        p ∈ db.attendees ∨ (p.1 = mid ∧ p.2 ∈ l ∧ take p.2 = true ∧ ResolvesActive db p.2) := by
  induction l generalizing db with
  | nil => simp
  | cons a t ih =>
    obtain ⟨hu, hp⟩ := hf db a
    obtain ⟨iu, ip⟩ := ih (f db a)
    rw [List.foldl_cons]
    refine ⟨iu.trans hu, fun p => ?_⟩
    rw [ip, hp]
    obtain ⟨p1, p2⟩ := p
    simp only [Prod.mk.injEq, List.mem_cons, ResolvesActive_congr hu]
    constructor
    · rintro ((h | ⟨⟨e1, e2⟩, e3, e4⟩) | ⟨e1, e2, e3, e4⟩)
      · exact Or.inl h
      · exact Or.inr ⟨e1, Or.inl e2, e2 ▸ e3, e2 ▸ e4⟩
      · exact Or.inr ⟨e1, Or.inr e2, e3, e4⟩
    · rintro (h | ⟨e1, e2 | e2, e3, e4⟩)
      · exact Or.inl (Or.inl h)
      · exact Or.inl (Or.inr ⟨⟨e1, e2⟩, e2 ▸ e3, e2 ▸ e4⟩)
      · exact Or.inr ⟨e1, e2, e3, e4⟩

theorem mem_RemoveAttendee (db : DB) (mid a : Nat) (p : Nat × Nat) :
    p ∈ (RemoveAttendee db mid a).attendees ↔ p ∈ db.attendees ∧ p ≠ (mid, a) := by
  simp [RemoveAttendee, List.mem_filter]

theorem mem_AddAttendee (db : DB) (mid a : Nat) (p : Nat × Nat) :
    p ∈ (AddAttendee db mid a).attendees ↔ p ∈ db.attendees ∨ p = (mid, a) := by
  unfold AddAttendee
  split
  · rename_i h
    have h' : (mid, a) ∈ db.attendees := by simpa using h
    constructor
    · exact Or.inl
    · rintro (h1 | rfl)
      · exact h1
      · exact h'
  · simp

theorem AddAttendee_users (db : DB) (mid a : Nat) : (AddAttendee db mid a).users = db.users := by
  unfold AddAttendee
  split <;> rfl

/-- Attendee reconciliation: the users are untouched, the rows of other
meetings are untouched, and the attendee set of the meeting becomes the listed
ids other than the organizer that were attendees already or resolve to an
active user. -/
theorem reconcileAttendees_spec (db : DB) (meeting : Meeting) (ids : List Nat) :
    (reconcileAttendees db meeting ids).users = db.users ∧
    (∀ p : Nat × Nat, p.1 ≠ meeting.ID →
      (p ∈ (reconcileAttendees db meeting ids).attendees ↔ p ∈ db.attendees)) ∧
    (∀ a, a ∈ attendeeIDs (reconcileAttendees db meeting ids) meeting.ID ↔
      a ∈ ids ∧ a ≠ meeting.OrganizerID ∧
        (a ∈ attendeeIDs db meeting.ID ∨ ResolvesActive db a)) := by
  have hnew : ∀ a, a ∈ (ids.filter (fun a => a != meeting.OrganizerID)).eraseDups ↔
      a ∈ ids ∧ a ≠ meeting.OrganizerID := by
    intro a
    rw [mem_eraseDups]
    simp [List.mem_filter]
  have hcontains : ∀ (l : List Nat) (a : Nat), l.contains a = true ↔ a ∈ l := by
    intro l a; simp
  obtain ⟨u1, p1⟩ := foldl_removes meeting.ID
    (fun a => !((ids.filter (fun a => a != meeting.OrganizerID)).eraseDups).contains a)
    (fun d attendeeID =>
      if !((ids.filter (fun a => a != meeting.OrganizerID)).eraseDups).contains attendeeID then
        RemoveAttendee d meeting.ID attendeeID else d)
    (by
      intro d a
      by_cases hc : (!((ids.filter (fun a => a != meeting.OrganizerID)).eraseDups).contains a)
          = true
      · simp only [hc, if_true]
        refine ⟨rfl, fun p => ?_⟩
        rw [mem_RemoveAttendee]
        simp
      · simp only [hc, if_false]
        refine ⟨rfl, fun p => ?_⟩
        simp)
    ((GetMeetingAttendees db meeting.ID).map (fun u => u.ID)).eraseDups db
  obtain ⟨u2, p2⟩ := foldl_adds meeting.ID
    (fun a => !((GetMeetingAttendees db meeting.ID).map (fun u => u.ID)).contains a)
    (fun d attendeeID =>
      if !((GetMeetingAttendees db meeting.ID).map (fun u => u.ID)).contains attendeeID then
        match userGetByID d attendeeID with
        | some attendee => if attendee.IsActive then AddAttendee d meeting.ID attendeeID else d
        | none => d
      else d)
    (by
      intro d a
      by_cases hc : (!((GetMeetingAttendees db meeting.ID).map (fun u => u.ID)).contains a) = true
      · simp only [hc, if_true]
        cases hu : userGetByID d a with
        | none =>
          refine ⟨rfl, fun p => ?_⟩
          simp [ResolvesActive, hu]
        | some u =>
          simp only
          cases hact : u.IsActive with
          | false =>
            simp only [Bool.false_eq_true, if_false]
            refine ⟨trivial, fun p => ?_⟩
            simp [ResolvesActive, hu, hact]
          | true =>
            simp only [if_true]
            refine ⟨AddAttendee_users _ _ _, fun p => ?_⟩
            rw [mem_AddAttendee]
            simp [ResolvesActive, hu, hact]
      · simp only [hc, if_false]
        refine ⟨rfl, fun p => ?_⟩
        simp [hc])
    (ids.filter (fun a => a != meeting.OrganizerID)).eraseDups
    (((GetMeetingAttendees db meeting.ID).map (fun u => u.ID)).eraseDups.foldl
      (fun d attendeeID =>
        if !((ids.filter (fun a => a != meeting.OrganizerID)).eraseDups).contains attendeeID then
          RemoveAttendee d meeting.ID attendeeID else d) db)
  have hdef : reconcileAttendees db meeting ids =
      (ids.filter (fun a => a != meeting.OrganizerID)).eraseDups.foldl
        (fun d attendeeID =>
          if !((GetMeetingAttendees db meeting.ID).map (fun u => u.ID)).contains attendeeID then
            match userGetByID d attendeeID with
            | some attendee =>
              if attendee.IsActive then AddAttendee d meeting.ID attendeeID else d
            | none => d
          else d)
        (((GetMeetingAttendees db meeting.ID).map (fun u => u.ID)).eraseDups.foldl
          (fun d attendeeID =>
            if !((ids.filter (fun a => a != meeting.OrganizerID)).eraseDups).contains attendeeID
            then RemoveAttendee d meeting.ID attendeeID else d) db) := rfl
  rw [hdef]
  refine ⟨u2.trans u1, ?_, ?_⟩
  · intro p hp
    rw [p2, p1]
    constructor
    · rintro (⟨h, -⟩ | ⟨h, -⟩)
      · exact h
      · exact absurd h hp
    · intro h
      exact Or.inl ⟨h, fun hh => hp hh.1⟩
  · intro a
    have hcur : a ∈ (GetMeetingAttendees db meeting.ID).map (fun u => u.ID) ↔
        a ∈ attendeeIDs db meeting.ID := Iff.rfl
    rw [mem_attendeeIDs, u2.trans u1, p2, p1, ResolvesActive_congr u1]
    simp only [mem_eraseDups, Bool.not_eq_true', hnew, hcur]
    have hc1 : (((ids.filter (fun a => a != meeting.OrganizerID)).eraseDups).contains a = false)
        ↔ ¬ (a ∈ ids ∧ a ≠ meeting.OrganizerID) := by
      rw [← hnew, ← hcontains]; simp
    have hc2 : (((GetMeetingAttendees db meeting.ID).map (fun u => u.ID)).contains a = false)
        ↔ ¬ a ∈ attendeeIDs db meeting.ID := by
      rw [← hcur, ← hcontains]; simp
    simp only [Bool.not_eq_true', hc1, hc2]
    have hmem := mem_attendeeIDs db meeting.ID a
    constructor
    · rintro ⟨hu, (⟨hin, hkeep⟩ | ⟨-, hl, -, hra⟩)⟩
      · have hcura : a ∈ attendeeIDs db meeting.ID := hmem.mpr ⟨hu, hin⟩
        have hl : a ∈ ids ∧ a ≠ meeting.OrganizerID := by
          by_contra hn
          exact hkeep ⟨trivial, hcura, hn⟩
        exact ⟨hl.1, hl.2, Or.inl hcura⟩
      · exact ⟨hl.1, hl.2, Or.inr hra⟩
    · rintro ⟨h1, h2, h3⟩
      by_cases hcura : a ∈ attendeeIDs db meeting.ID
      · obtain ⟨hu, hin⟩ := hmem.mp hcura
        exact ⟨hu, Or.inl ⟨hin, fun hh => hh.2.2 ⟨h1, h2⟩⟩⟩
      · rcases h3 with h3 | h3
        · exact absurd h3 hcura
        · exact ⟨ResolvesActive_user h3, Or.inr ⟨trivial, ⟨h1, h2⟩, hcura, h3⟩⟩

theorem UpdateMeeting_ok_keys {db : DB} {now : Time} {id userID : Nat}
    {req : UpdateMeetingRequest} {db' : DB} {m meeting0 : Meeting}
    (hget : meetingGetByID db id = some meeting0)
    (h : UpdateMeeting db now id userID req = .ok (db', m)) :
    m.ID = id ∧ m.OrganizerID = meeting0.OrganizerID := by
  obtain ⟨hm, -⟩ := UpdateMeeting_ok_eq hget h
  obtain ⟨t1, -, -, -, -, t6⟩ := updateText_frame meeting0 req
  rw [hm]
  refine ⟨?_, ?_⟩
  · rw [(updateFlags_frame _ req).1]
    simp only
    rw [t1]
    exact meetingGetByID_ID hget
  · rw [(updateFlags_frame _ req).2.2.2.2]
    simp only
    rw [t6]

theorem attendeeIDs_eq_of_mem_iff {db1 db2 : DB} {id : Nat} (hu : db2.users = db1.users)
    (h : ∀ a, a ∈ attendeeIDs db2 id ↔ a ∈ attendeeIDs db1 id) :
    attendeeIDs db2 id = attendeeIDs db1 id := by
  unfold attendeeIDs GetMeetingAttendees
  rw [hu]
  congr 1
  apply List.filter_congr
  intro u hmem
  have h1 := mem_attendeeIDs db1 id u.ID
  have h2 := mem_attendeeIDs db2 id u.ID
  have hex1 : ∃ v ∈ db1.users, v.ID = u.ID := ⟨u, hmem, rfl⟩
  have hex2 : ∃ v ∈ db2.users, v.ID = u.ID := ⟨u, hu ▸ hmem, rfl⟩
  have key : (id, u.ID) ∈ db2.attendees ↔ (id, u.ID) ∈ db1.attendees := by
    constructor
    · intro hin
      exact (h1.mp ((h u.ID).mp (h2.mpr ⟨hex2, hin⟩))).2
    · intro hin
      exact (h2.mp ((h u.ID).mpr (h1.mpr ⟨hex1, hin⟩))).2
  cases hc1 : db1.attendees.contains (id, u.ID) with
  | true =>
    have : (id, u.ID) ∈ db1.attendees := by simpa using hc1
    simpa using key.mpr this
  | false =>
    have hn : ¬ (id, u.ID) ∈ db1.attendees := by simpa using hc1
    have hn2 : ¬ (id, u.ID) ∈ db2.attendees := fun hh => hn (key.mp hh)
    simpa using hn2

/-- C15: after a successful `UpdateMeeting`, the meeting's attendee set is what
it was when the request omits the attendee list; when the list is supplied, it
is exactly the set of listed ids that differ from the organizer and that were
attendees already or resolve to an existing active user; a supplied empty list
leaves no attendee. -/
theorem UpdateMeeting_attendees (db : DB) (now : Time) (id userID : Nat)
    (req : UpdateMeetingRequest) (db' : DB) (m meeting : Meeting)
    (hget : meetingGetByID db id = some meeting)
    (h : UpdateMeeting db now id userID req = .ok (db', m)) :
    (req.AttendeeIDs = none → attendeeIDs db' id = attendeeIDs db id) ∧
    (∀ L, req.AttendeeIDs = some L → ∀ a, a ∈ attendeeIDs db' id ↔
      a ∈ L ∧ a ≠ meeting.OrganizerID ∧ (a ∈ attendeeIDs db id ∨ ResolvesActive db a)) ∧
    (req.AttendeeIDs = some [] → attendeeIDs db' id = []) := by
  obtain ⟨-, hdb⟩ := UpdateMeeting_ok_eq hget h
  obtain ⟨hid, horg⟩ := UpdateMeeting_ok_keys hget h
  have hsome : ∀ L, req.AttendeeIDs = some L → ∀ a, a ∈ attendeeIDs db' id ↔
      a ∈ L ∧ a ≠ meeting.OrganizerID ∧ (a ∈ attendeeIDs db id ∨ ResolvesActive db a) := by
    intro L hL a
    rw [hL] at hdb
    simp only at hdb
    have hs := (reconcileAttendees_spec (saveMeetingRow db m).1 m L).2.2 a
    rw [hid, horg] at hs
    rw [hdb]
    exact hs
  refine ⟨?_, hsome, ?_⟩
  · intro hnone
    rw [hnone] at hdb
    rw [hdb]
    rfl
  · intro hnil
    have := hsome [] hnil
    apply List.eq_nil_iff_forall_not_mem.mpr
    intro a ha
    have := (this a).mp ha
    simp at this

theorem UpdateMeeting_attendees_witness :
    ∃ db' m, UpdateMeeting inProgressDB 630 1 1 (attendeesUpdate none none none none [3, 4, 1, 3, 9])
        = .ok (db', m) ∧
      attendeeIDs inProgressDB 1 = [2] ∧ attendeeIDs db' 1 = [3] ∧
      (3 ∈ attendeeIDs db' 1 ↔ 3 ∈ [3, 4, 1, 3, 9] ∧ 3 ≠ 1 ∧
        (3 ∈ attendeeIDs inProgressDB 1 ∨ ResolvesActive inProgressDB 3)) :=
  ⟨_, _, rfl, by decide, by decide,
    (UpdateMeeting_attendees inProgressDB 630 1 1
      (attendeesUpdate none none none none [3, 4, 1, 3, 9]) _ _ _ rfl rfl).2.1 _ rfl 3⟩

/-- The value of `UpdateMeeting` for a request without start, end and room,
once the authorization and the state check have passed. -/
theorem UpdateMeeting_plain {db : DB} {id userID : Nat} {meeting0 : Meeting} (now : Time)
    (req : UpdateMeetingRequest)
    (hget : meetingGetByID db id = some meeting0)
    (hauth : organizerOrManager db meeting0 userID = true)
    (hst : (meeting0.Status == StatusCompleted || meeting0.Status == StatusCancelled) = false)
    (hs : req.StartTime = none) (he : req.EndTime = none) (hr : req.RoomID = none) :
    UpdateMeeting db now id userID req =
      .ok (match req.AttendeeIDs with
           | some ids =>
             reconcileAttendees (saveMeetingRow db (updateFlags (updateText meeting0 req) req)).1
               (updateFlags (updateText meeting0 req) req) ids
           | none => (saveMeetingRow db (updateFlags (updateText meeting0 req) req)).1,
           updateFlags (updateText meeting0 req) req) := by
  rw [UpdateMeeting_eq now req hget hauth hst]
  have h3 : updateTimes db now (updateText meeting0 req) req = .ok (updateText meeting0 req) := by
    unfold updateTimes
    simp [hs, he]
  have h4 : updateRoom db (updateText meeting0 req) req = .ok (updateText meeting0 req) := by
    unfold updateRoom
    simp [hr]
  have hsame : saveReferences (meetingPreload db meeting0)
      (updateFlags (updateText meeting0 req) req) = updateFlags (updateText meeting0 req) req :=
    saveReferences_same db meeting0 _
      (by rw [(updateFlags_frame _ req).2.2.2.2]; exact (updateText_frame meeting0 req).2.2.2.2.2)
      (by rw [(updateFlags_frame _ req).2.1]; exact (updateText_frame meeting0 req).2.1)
  rw [h3]
  simp only
  rw [h4]
  simp only
  rw [hsame]

theorem organizerOrManager_congr {db db' : DB} {m m' : Meeting} (hu : db'.users = db.users)
    (ho : m'.OrganizerID = m.OrganizerID) (userID : Nat) :
    organizerOrManager db' m' userID = organizerOrManager db m userID := by
  unfold organizerOrManager userGetByID
  rw [hu, ho]

/-- C16: attendee reconciliation is idempotent. For a meeting in a non-terminal
state, an authorised caller and an attendee id list `L`, two calls of
`UpdateMeeting` in a row with `attendee_ids = L` (and possibly title,
description and recurrence fields, but no time, room or status) both succeed,
and the attendee set after the second call is the attendee set after the
first. The user directory is the same throughout. -/
theorem UpdateMeeting_attendees_idempotent (db : DB) (now1 now2 : Time) (id userID : Nat)
    (title description : Option String) (isRecurring : Option Bool) (pattern : Option String)
    (L : List Nat) (meeting : Meeting)
    (hget : meetingGetByID db id = some meeting)
    (hauth : MayUpdate db meeting userID)
    (hstate : meeting.Status ≠ StatusCompleted ∧ meeting.Status ≠ StatusCancelled) :
    ∃ db1 m1 db2 m2,
      UpdateMeeting db now1 id userID (attendeesUpdate title description isRecurring pattern L)
        = .ok (db1, m1) ∧
      UpdateMeeting db1 now2 id userID (attendeesUpdate title description isRecurring pattern L)
        = .ok (db2, m2) ∧
      db1.users = db.users ∧ db2.users = db.users ∧
      attendeeIDs db2 id = attendeeIDs db1 id := by
  have hauth0 := (organizerOrManager_iff db meeting userID).mpr hauth
  have hst0 := not_terminal_of hstate
  have h1 := UpdateMeeting_plain now1
    (attendeesUpdate title description isRecurring pattern L) hget hauth0 hst0 rfl rfl rfl
  generalize hm1 : updateFlags (updateText meeting
    (attendeesUpdate title description isRecurring pattern L))
    (attendeesUpdate title description isRecurring pattern L) = m1 at h1
  have hid1 : m1.ID = id := by
    rw [← hm1, (updateFlags_frame _ _).1, (updateText_frame _ _).1]
    exact meetingGetByID_ID hget
  have horg1 : m1.OrganizerID = meeting.OrganizerID := by
    rw [← hm1, (updateFlags_frame _ _).2.2.2.2, (updateText_frame _ _).2.2.2.2.2]
  have hstat1 : m1.Status = meeting.Status := by
    rw [← hm1]
    unfold updateFlags attendeesUpdate
    cases isRecurring <;> cases pattern <;> simp only <;>
      exact (updateText_frame _ _).2.2.2.2.1
  simp only [attendeesUpdate] at h1
  obtain ⟨ru1, -, ra1⟩ := reconcileAttendees_spec (saveMeetingRow db m1).1 m1 L
  generalize hdb1 : reconcileAttendees (saveMeetingRow db m1).1 m1 L = db1 at h1 ru1 ra1
  have husers1 : db1.users = db.users := ru1
  have hget1 : meetingGetByID db1 id = some m1 := by
    have hrb := saveMeetingRow_readback hget hid1
    unfold meetingGetByID at hrb ⊢
    rw [← hdb1, reconcileAttendees_meetings]
    exact hrb
  have hauth1 : organizerOrManager db1 m1 userID = true := by
    rw [organizerOrManager_congr husers1 horg1]
    exact hauth0
  have hst1 : (m1.Status == StatusCompleted || m1.Status == StatusCancelled) = false := by
    rw [hstat1]
    exact hst0
  have h2 := UpdateMeeting_plain now2
    (attendeesUpdate title description isRecurring pattern L) hget1 hauth1 hst1 rfl rfl rfl
  generalize hm2 : updateFlags (updateText m1
    (attendeesUpdate title description isRecurring pattern L))
    (attendeesUpdate title description isRecurring pattern L) = m2 at h2
  have hid2 : m2.ID = id := by
    rw [← hm2, (updateFlags_frame _ _).1, (updateText_frame _ _).1]
    exact hid1
  have horg2 : m2.OrganizerID = meeting.OrganizerID := by
    rw [← hm2, (updateFlags_frame _ _).2.2.2.2, (updateText_frame _ _).2.2.2.2.2]
    exact horg1
  simp only [attendeesUpdate] at h2
  obtain ⟨ru2, -, ra2⟩ := reconcileAttendees_spec (saveMeetingRow db1 m2).1 m2 L
  generalize hdb2 : reconcileAttendees (saveMeetingRow db1 m2).1 m2 L = db2 at h2 ru2 ra2
  have husers2 : db2.users = db1.users := ru2
  refine ⟨db1, m1, db2, m2, h1, h2, husers1, husers2.trans husers1, ?_⟩
  apply attendeeIDs_eq_of_mem_iff husers2
  intro a
  rw [hid1, horg1] at ra1
  rw [hid2, horg2] at ra2
  have e1 : attendeeIDs (saveMeetingRow db m1).1 id = attendeeIDs db id := rfl
  have e2 : attendeeIDs (saveMeetingRow db1 m2).1 id = attendeeIDs db1 id := rfl
  have r1 : ResolvesActive (saveMeetingRow db m1).1 a ↔ ResolvesActive db a := Iff.rfl
  have r2 : ResolvesActive (saveMeetingRow db1 m2).1 a ↔ ResolvesActive db a :=
    ResolvesActive_congr husers1 a
  rw [ra2, e2, r2, ra1, e1, r1]
  tauto

theorem UpdateMeeting_attendees_idempotent_witness :
    ∃ db1 m1 db2 m2,
      UpdateMeeting inProgressDB 630 1 3 (attendeesUpdate none none none none [3, 4, 1, 3, 9])
        = .ok (db1, m1) ∧
      UpdateMeeting db1 640 1 3 (attendeesUpdate none none none none [3, 4, 1, 3, 9])
        = .ok (db2, m2) ∧
      db1.users = inProgressDB.users ∧ db2.users = inProgressDB.users ∧
      attendeeIDs db2 1 = attendeeIDs db1 1 :=
  UpdateMeeting_attendees_idempotent inProgressDB 630 640 1 3 none none none none
    [3, 4, 1, 3, 9] _ rfl (Or.inr ⟨_, rfl, Or.inl rfl⟩) ⟨by decide, by decide⟩

/-! ### CreateMeeting: what is persisted -/

theorem createAttendeeStep_spec (org mid : Nat) (d : DB) (a : Nat) :
    (createAttendeeStep org mid d a).users = d.users ∧
      ∀ p, p ∈ (createAttendeeStep org mid d a).attendees ↔
        p ∈ d.attendees ∨ (p = (mid, a) ∧ (a != org) = true ∧ ResolvesActive d a) := by
  unfold createAttendeeStep
  by_cases ho : a = org
  · simp [ho]
  · have ho' : (a == org) = false := by simpa using ho
    simp only [ho', Bool.false_eq_true, if_false]
    cases hu : userGetByID d a with
    | none =>
      refine ⟨rfl, fun p => ?_⟩
      simp [ResolvesActive, hu]
    | some u =>
      simp only
      cases hact : u.IsActive with
      | false =>
        simp only [Bool.not_false, if_true]
        refine ⟨trivial, fun p => ?_⟩
        simp [ResolvesActive, hu, hact]
      | true =>
        simp only [Bool.not_true, Bool.false_eq_true, if_false]
        refine ⟨AddAttendee_users _ _ _, fun p => ?_⟩
        rw [mem_AddAttendee]
        simp [ResolvesActive, hu, hact, ho]

/-- Inversion of a successful `CreateMeeting` on a store whose meeting ids are
all different from the next auto-increment value: the returned meeting is the
inserted row and the new store is the store after the insert and the attendee
loop. -/
theorem CreateMeeting_ok_eq {db : DB} {now : Time} {org : Nat} {req : CreateMeetingRequest}
    {db' : DB} {m : Meeting} (hfresh : ∀ x ∈ db.meetings, x.ID ≠ db.nextMeetingID)
    (h : CreateMeeting db now org req = .ok (db', m)) :
    m = { ID := db.nextMeetingID, Title := req.Title, Description := req.Description,
          StartTime := req.StartTime, EndTime := req.EndTime, Status := StatusScheduled,
          IsRecurring := req.IsRecurring, RecurrencePattern := req.RecurrencePattern,
          OrganizerID := org, RoomID := req.RoomID } ∧
    db' = req.AttendeeIDs.foldl (createAttendeeStep org db.nextMeetingID)
      { db with meetings := db.meetings ++ [m], nextMeetingID := db.nextMeetingID + 1 } := by
  have hfind : ∀ row : Meeting, row.ID = db.nextMeetingID →
      List.find? (fun x => x.ID == db.nextMeetingID) (db.meetings ++ [row]) = some row := by
    intro row hrow
    rw [List.find?_append]
    have hnone : List.find? (fun x => x.ID == db.nextMeetingID) db.meetings = none := by
      rw [List.find?_eq_none]
      intro x hx
      simpa using hfresh x hx
    rw [hnone]
    simp [List.find?, hrow]
  unfold CreateMeeting at h
  by_cases hv : (ValidateStruct req).length > 0
  · rw [if_pos hv] at h; cases h
  rw [if_neg hv] at h
  by_cases he : req.EndTime < req.StartTime
  · rw [if_pos he] at h; cases h
  rw [if_neg he] at h
  by_cases hn : req.StartTime < now
  · rw [if_pos hn] at h; cases h
  rw [if_neg hn] at h
  cases hroom : roomGetByID db req.RoomID with
  | none => rw [hroom] at h; cases h
  | some room =>
    rw [hroom] at h
    simp only at h
    cases hact : room.IsActive with
    | false => simp [hact] at h
    | true =>
      cases hav : IsRoomAvailable db req.RoomID req.StartTime req.EndTime none with
      | false => simp [hact, hav] at h
      | true =>
        cases hu : userGetByID db org with
        | none => simp [hact, hav, hu] at h
        | some u =>
          cases hua : u.IsActive with
          | false => simp [hact, hav, hu, hua] at h
          | true =>
            simp only [hact, hav, hu, hua, Bool.not_true, Bool.false_eq_true, if_false,
              meetingCreate, meetingGetByID] at h
            rw [hfind _ rfl] at h
            simp only at h
            rw [(foldl_createAttendeeStep_frame _ _ _ _).1] at h
            simp only at h
            rw [hfind _ rfl] at h
            simp only [Except.ok.injEq, Prod.mk.injEq] at h
            obtain ⟨hdb, hm⟩ := h
            refine ⟨hm.symm, ?_⟩
            rw [← hdb, ← hm]

/-- C20: on a store that respects its keys, a successful `CreateMeeting`
persists exactly one new meeting: it is scheduled, organized by the caller,
and carries the title, description, times, room and recurrence fields of the
request; its attendee set is exactly the requested ids that differ from the
organizer and resolve to an existing active user; and the call succeeds
whatever attendee ids the request lists. -/
theorem CreateMeeting_persists (db : DB) (now : Time) (organizerID : Nat)
    (req : CreateMeetingRequest) (db' : DB) (m : Meeting) (hkeys : FreshKeys db)
    (h : CreateMeeting db now organizerID req = .ok (db', m)) :
    db'.meetings = db.meetings ++ [m] ∧ m ∉ db.meetings ∧
    meetingGetByID db' m.ID = some m ∧
    m.Status = StatusScheduled ∧ m.OrganizerID = organizerID ∧
    m.Title = req.Title ∧ m.Description = req.Description ∧
    m.StartTime = req.StartTime ∧ m.EndTime = req.EndTime ∧ m.RoomID = req.RoomID ∧
    m.IsRecurring = req.IsRecurring ∧ m.RecurrencePattern = req.RecurrencePattern ∧
    (∀ a, a ∈ attendeeIDs db' m.ID ↔
      a ∈ req.AttendeeIDs ∧ a ≠ organizerID ∧ ResolvesActive db a) ∧
    (∀ ids, ∃ db'' m'',
      CreateMeeting db now organizerID { req with AttendeeIDs := ids } = .ok (db'', m'')) := by
  have hfresh : ∀ x ∈ db.meetings, x.ID ≠ db.nextMeetingID :=
    fun x hx => Nat.ne_of_lt (hkeys.1 x hx)
  obtain ⟨hm, hdb⟩ := CreateMeeting_ok_eq hfresh h
  obtain ⟨hv, he, hn, hroom, hav, hu, -⟩ := CreateMeeting_ok_inv h
  have hid : m.ID = db.nextMeetingID := by rw [hm]
  have hmeet : db'.meetings = db.meetings ++ [m] := by
    rw [hdb, (foldl_createAttendeeStep_frame _ _ _ _).1]
  obtain ⟨fu, fp⟩ := foldl_adds db.nextMeetingID (fun a => a != organizerID)
    (createAttendeeStep organizerID db.nextMeetingID)
    (createAttendeeStep_spec organizerID db.nextMeetingID) req.AttendeeIDs
    { db with meetings := db.meetings ++ [m], nextMeetingID := db.nextMeetingID + 1 }
  rw [← hdb] at fu fp
  have husers : db'.users = db.users := fu
  refine ⟨hmeet, ?_, ?_, by rw [hm], by rw [hm], by rw [hm], by rw [hm], by rw [hm],
    by rw [hm], by rw [hm], by rw [hm], by rw [hm], ?_, ?_⟩
  · intro hin
    exact hfresh m hin hid
  · unfold meetingGetByID
    rw [hmeet, List.find?_append]
    have hnone : List.find? (fun x => x.ID == m.ID) db.meetings = none := by
      rw [List.find?_eq_none]
      intro x hx
      rw [hid]
      simpa using hfresh x hx
    rw [hnone]
    simp [List.find?]
  · intro a
    rw [mem_attendeeIDs, husers, fp, hid]
    have hold : ¬ (db.nextMeetingID, a) ∈ db.attendees := by
      intro hin
      exact Nat.lt_irrefl _ (hkeys.2 _ hin)
    have hra : ResolvesActive
        { db with meetings := db.meetings ++ [m], nextMeetingID := db.nextMeetingID + 1 } a
        ↔ ResolvesActive db a := Iff.rfl
    simp only [hra, bne_iff_ne, ne_eq, true_and]
    constructor
    · rintro ⟨-, (h1 | ⟨h1, h2, h3⟩)⟩
      · exact absurd h1 hold
      · exact ⟨h1, h2, h3⟩
    · rintro ⟨h1, h2, h3⟩
      exact ⟨ResolvesActive_user h3, Or.inr ⟨h1, h2, h3⟩⟩
  · intro ids
    exact CreateMeeting_ok_of db now organizerID { req with AttendeeIDs := ids } hv he hn
      hroom hav hu

theorem CreateMeeting_persists_witness :
    ∃ db' m, CreateMeeting scenarioDB 480 2
        { scenarioRequest 660 720 with AttendeeIDs := [1, 2, 9, 1] } = .ok (db', m) ∧
      attendeeIDs db' m.ID = [1] ∧ m.Status = StatusScheduled ∧
      db'.meetings = scenarioDB.meetings ++ [m] :=
  ⟨_, _, rfl, by decide,
    (CreateMeeting_persists scenarioDB 480 2
      { scenarioRequest 660 720 with AttendeeIDs := [1, 2, 9, 1] } _ _ (by decide) rfl).2.2.2.1,
    (CreateMeeting_persists scenarioDB 480 2
      { scenarioRequest 660 720 with AttendeeIDs := [1, 2, 9, 1] } _ _ (by decide) rfl).1⟩

/-! ### Room catalog -/

theorem busyRoomIDs_contains (db : DB) (s e : Time) (rid : Nat) :
    (busyRoomIDs db s e).contains rid = true ↔ HasConflict db rid s e := by
  have hc : (busyRoomIDs db s e).contains rid = true ↔ rid ∈ busyRoomIDs db s e := by simp
  rw [hc]
  unfold busyRoomIDs HasConflict
  simp only [List.mem_map, List.mem_filter, Bool.and_eq_true, Bool.or_eq_true, beq_iff_eq,
    decide_eq_true_eq]
  constructor
  · rintro ⟨m, ⟨hm, ⟨h1, h2⟩, h3⟩, rfl⟩
    exact ⟨m, hm, rfl, h3, h1, h2⟩
  · rintro ⟨m, hm, hr, h3, h1, h2⟩
    exact ⟨m, ⟨hm, ⟨h1, h2⟩, h3⟩, hr⟩

theorem mem_GetAvailableRooms (db : DB) (s e : Time) (c : Option Int) (r : Room) :
    r ∈ GetAvailableRooms db s e c ↔
      r ∈ db.rooms ∧ r.IsActive = true ∧
        (match c with
         | some cap => r.Capacity ≥ cap
         | none => True) ∧
        ¬ HasConflict db r.ID s e := by
  unfold GetAvailableRooms
  rw [List.mem_filter, ← busyRoomIDs_contains]
  cases c with
  | none =>
    simp only [Bool.and_eq_true, beq_iff_eq, Bool.not_eq_true', Bool.and_true, true_and]
    constructor
    · rintro ⟨h1, h2, h3⟩
      exact ⟨h1, h2, by rw [h3]; exact Bool.false_ne_true⟩
    · rintro ⟨h1, h2, h3⟩
      refine ⟨h1, h2, ?_⟩
      cases hb : (busyRoomIDs db s e).contains r.ID with
      | false => rfl
      | true => exact absurd hb h3
  | some cap =>
    simp only [Bool.and_eq_true, beq_iff_eq, Bool.not_eq_true', decide_eq_true_eq]
    constructor
    · rintro ⟨h1, ⟨h2, h4⟩, h3⟩
      exact ⟨h1, h2, h4, by rw [h3]; exact Bool.false_ne_true⟩
    · rintro ⟨h1, h2, h4, h3⟩
      refine ⟨h1, ⟨h2, h4⟩, ?_⟩
      cases hb : (busyRoomIDs db s e).contains r.ID with
      | false => rfl
      | true => exact absurd hb h3

/-- C21: `GetAvailableRooms(s, e, c)` returns exactly the stored rooms that are
active, have capacity at least `c` when `c` is given, and have no scheduled or
in-progress meeting with start before `e` and end after `s`; an inactive room
is never returned; the service returns this list whenever it does not reject
the query. -/
theorem GetAvailableRooms_iff (db : DB) (s e : Time) (c : Option Int) (r : Room)
    (q : RoomAvailabilityQuery) :
    (r ∈ GetAvailableRooms db s e c ↔
      r ∈ db.rooms ∧ r.IsActive = true ∧
        (match c with
         | some cap => r.Capacity ≥ cap
         | none => True) ∧
        ¬ ∃ m ∈ db.meetings, m.RoomID = r.ID ∧
          (m.Status = StatusScheduled ∨ m.Status = StatusInProgress) ∧
          m.StartTime < e ∧ m.EndTime > s) ∧
    (r.IsActive = false → r ∉ GetAvailableRooms db s e c) ∧
    (∀ rooms, RoomService.GetAvailableRooms db q = .ok rooms →
      rooms = GetAvailableRooms db q.StartTime q.EndTime q.Capacity) := by
  refine ⟨mem_GetAvailableRooms db s e c r, ?_, ?_⟩
  · intro hina hmem
    have := ((mem_GetAvailableRooms db s e c r).mp hmem).2.1
    rw [hina] at this
    cases this
  · intro rooms h
    unfold RoomService.GetAvailableRooms at h
    split at h
    · cases h
    split at h
    · cases h
    simp only [Except.ok.injEq] at h
    exact h.symm

theorem GetAvailableRooms_iff_witness :
    (GetAvailableRooms catalogDB 840 900 (some 4)).map (fun r => r.ID) = [1, 5] ∧
    RoomService.GetAvailableRooms catalogDB { StartTime := 840, EndTime := 900, Capacity := some 4 }
      = .ok (GetAvailableRooms catalogDB 840 900 (some 4)) ∧
    (∀ r ∈ catalogDB.rooms, r.ID = 4 → r ∉ GetAvailableRooms catalogDB 840 900 (some 4)) :=
  ⟨by decide, rfl, fun r _ hr =>
    (GetAvailableRooms_iff catalogDB 840 900 (some 4) r
      { StartTime := 840, EndTime := 900, Capacity := some 4 }).2.1
      (by
        have hall : ∀ x ∈ catalogDB.rooms, x.ID = 4 → x.IsActive = false := by decide
        exact hall r ‹_› hr)⟩

/-- C30: `GetAvailableRooms` and `IsRoomAvailable` agree: a room is in the result
of `GetAvailableRooms(s, e, no capacity bound)` exactly when it is a stored
active room for which `IsRoomAvailable(room.ID, s, e, no exclusion)` answers
true. -/
theorem GetAvailableRooms_agrees_IsRoomAvailable (db : DB) (s e : Time) (r : Room) :
    r ∈ GetAvailableRooms db s e none ↔
      r ∈ db.rooms ∧ r.IsActive = true ∧ IsRoomAvailable db r.ID s e none = true := by
  rw [mem_GetAvailableRooms, IsRoomAvailable_none_iff]
  simp

theorem find?_map_replace_key {α : Type} (key : α → Nat) (l : List α) (id : Nat) (f : α → α)
    (hf : ∀ x, key x = id → key (f x) = id) :
    (l.map (fun x => if key x == id then f x else x)).find? (fun x => key x == id)
      = (l.find? (fun x => key x == id)).map f := by
  induction l with
  | nil => rfl
  | cons a t ih =>
    rw [List.map_cons, List.find?_cons, List.find?_cons, ih]
    by_cases h : key a = id
    · have h4 : (key a == id) = true := by simpa using h
      have h3 : (key (f a) == id) = true := by simpa using hf a h
      simp only [h4, if_true, h3, Option.map_some']
    · have h1 : (key a == id) = false := by simpa using h
      simp only [h1, Bool.false_eq_true, if_false]

theorem saveFeatures_of_present (stored features : List RoomFeature)
    (h : ∀ f ∈ features, stored.any (fun g => g.ID == f.ID) = true) :
    saveFeatures stored features = stored := by
  unfold saveFeatures
  induction features with
  | nil => rfl
  | cons f t ih =>
    rw [List.foldl_cons, if_pos (h f (List.mem_cons_self f t))]
    exact ih (fun g hg => h g (List.mem_cons_of_mem f hg))

/-- Saving a room with the features it was loaded with adds no join row. -/
theorem saveFeatures_self (stored : List RoomFeature) : saveFeatures stored stored = stored := by
  apply saveFeatures_of_present
  intro f hf
  rw [List.any_eq_true]
  exact ⟨f, hf, by simp⟩

/-- `Save` never removes a feature the room is associated with. -/
theorem mem_saveFeatures_of_stored (stored features : List RoomFeature) (f : RoomFeature)
    (hf : f ∈ stored) : f ∈ saveFeatures stored features := by
  unfold saveFeatures
  induction features generalizing stored with
  | nil => exact hf
  | cons g t ih =>
    rw [List.foldl_cons]
    apply ih
    split
    · exact hf
    · exact List.mem_append_left _ hf

theorem roomUpdate_readback {db : DB} {id : Nat} {room0 room : Room}
    (hget : roomGetByID db id = some room0) (hid : room.ID = id) :
    roomUpdate db room = ((roomUpdate db room).1,
        some { room with Features := saveFeatures room0.Features room.Features }) ∧
      roomGetByID (roomUpdate db room).1 id
        = some { room with Features := saveFeatures room0.Features room.Features } := by
  subst hid
  have hfind : roomGetByID (roomUpdate db room).1 room.ID
      = some { room with Features := saveFeatures room0.Features room.Features } := by
    unfold roomGetByID at hget ⊢
    simp only [roomUpdate]
    have hr := find?_map_replace_key (fun r : Room => r.ID) db.rooms room.ID
      (fun r => { room with Features := saveFeatures r.Features room.Features })
      (fun _ _ => rfl)
    exact hr.trans (by rw [hget]; rfl)
  refine ⟨?_, hfind⟩
  have h2 : (roomUpdate db room).2 = roomGetByID (roomUpdate db room).1 room.ID := rfl
  rw [hfind] at h2
  exact Prod.ext rfl h2

theorem updateRoomCapacity_ok {room : Room} {req : UpdateRoomRequest}
    (hv : ∀ c, req.Capacity = some c → 1 ≤ c) :
    updateRoomCapacity room req = .ok { room with Capacity := req.Capacity.getD room.Capacity } := by
  unfold updateRoomCapacity
  cases hc : req.Capacity with
  | none => rfl
  | some c =>
    have h1 := hv c hc
    have hval : req.ValidateStruct = [] := by
      simp [UpdateRoomRequest.ValidateStruct, hc, not_lt.mpr h1]
    simp [hval]

theorem updateRoomCapacity_error {room : Room} {req : UpdateRoomRequest} {c : Int}
    (hc : req.Capacity = some c) (hlt : c < 1) :
    updateRoomCapacity room req = .error "validation failed" := by
  unfold updateRoomCapacity
  have hval : req.ValidateStruct = ["capacity"] := by
    simp [UpdateRoomRequest.ValidateStruct, hc, hlt]
  simp [hc, hval]

/-- The value of `UpdateRoom` for an existing room when the capacity, if
supplied, is at least 1: `r0` is the struct handed to `Save`, `r'` the room read
back. -/
theorem UpdateRoom_eq {db : DB} {id : Nat} {room0 : Room} (req : UpdateRoomRequest)
    (hget : roomGetByID db id = some room0)
    (hv : ∀ c, req.Capacity = some c → 1 ≤ c) :
    ∃ r0 r', UpdateRoom db id req = ((roomUpdate db r0).1, .ok r') ∧
      roomGetByID (roomUpdate db r0).1 id = some r' ∧
      r'.ID = id ∧
      r'.Name = req.Name.getD room0.Name ∧
      r'.Description = req.Description.getD room0.Description ∧
      r'.Capacity = req.Capacity.getD room0.Capacity ∧
      r'.Location = req.Location.getD room0.Location ∧
      r'.IsActive = req.IsActive.getD room0.IsActive ∧
      r'.Features = saveFeatures room0.Features
        (match req.FeatureIDs with
         | some ids => resolveFeatures db ids
         | none => room0.Features) := by
  have hid0 := roomGetByID_ID hget
  have hsteps : ∃ r0, updateRoomRest db
        { updateRoomText room0 req with
          Capacity := req.Capacity.getD (updateRoomText room0 req).Capacity } req = r0 ∧
      r0.ID = id ∧
      r0.Name = req.Name.getD room0.Name ∧
      r0.Description = req.Description.getD room0.Description ∧
      r0.Capacity = req.Capacity.getD room0.Capacity ∧
      r0.Location = req.Location.getD room0.Location ∧
      r0.IsActive = req.IsActive.getD room0.IsActive ∧
      r0.Features = (match req.FeatureIDs with
                     | some ids => resolveFeatures db ids
                     | none => room0.Features) := by
    refine ⟨_, rfl, ?_⟩
    unfold updateRoomRest updateRoomText
    cases req.Name <;> cases req.Description <;> cases req.Capacity <;> cases req.Location <;>
      cases req.FeatureIDs <;> cases req.IsActive <;> simp [hid0]
  obtain ⟨r0, hr0, hid, hname, hdesc, hcap, hloc, hact, hfeat⟩ := hsteps
  refine ⟨r0, { r0 with Features := saveFeatures room0.Features r0.Features }, ?_,
    (roomUpdate_readback hget hid).2, hid, hname, hdesc, hcap, hloc, hact, ?_⟩
  · unfold UpdateRoom
    rw [hget]
    simp only
    rw [updateRoomCapacity_ok hv]
    simp only
    rw [hr0, (roomUpdate_readback hget hid).1]
  · simp only
    rw [hfeat]

/-- C23: for an existing room, `UpdateRoom` fails with "validation failed" and
leaves the store as it was whenever the request carries a capacity below 1;
and after a successful call that carried a capacity, that capacity is at least
1 and is the stored one. -/
theorem UpdateRoom_capacity (db : DB) (id : Nat) (req : UpdateRoomRequest) (room : Room)
    (hget : roomGetByID db id = some room) :
    (∀ c, req.Capacity = some c → c < 1 →
      UpdateRoom db id req = (db, .error "validation failed")) ∧
    (∀ db' r' c, UpdateRoom db id req = (db', .ok r') → req.Capacity = some c →
      1 ≤ c ∧ r'.Capacity = c ∧ roomGetByID db' id = some r') := by
  constructor
  · intro c hc hlt
    unfold UpdateRoom
    rw [hget]
    simp only
    rw [updateRoomCapacity_error hc hlt]
  · intro db' r' c h hc
    by_cases hlt : c < 1
    · exfalso
      unfold UpdateRoom at h
      rw [hget] at h
      simp only at h
      rw [updateRoomCapacity_error hc hlt] at h
      simp at h
    · have hv : ∀ c', req.Capacity = some c' → 1 ≤ c' := by
        intro c' hc'
        rw [hc] at hc'
        cases hc'
        exact not_lt.mp hlt
      obtain ⟨r0, r1, heq, hrb, -, -, -, hcap, -⟩ := UpdateRoom_eq req hget hv
      rw [heq] at h
      simp only [Prod.mk.injEq, Except.ok.injEq] at h
      obtain ⟨hdb, hr⟩ := h
      subst hr
      subst hdb
      refine ⟨not_lt.mp hlt, ?_, hrb⟩
      rw [hcap, hc]
      rfl

theorem UpdateRoom_capacity_witness :
    UpdateRoom catalogDB 1 { emptyRoomUpdate with Capacity := some 0 }
        = (catalogDB, .error "validation failed") ∧
      UpdateRoom catalogDB 1 { emptyRoomUpdate with Capacity := some (-3) }
        = (catalogDB, .error "validation failed") :=
  ⟨(UpdateRoom_capacity catalogDB 1 { emptyRoomUpdate with Capacity := some 0 } _ rfl).1 0 rfl
      (by decide),
    (UpdateRoom_capacity catalogDB 1 { emptyRoomUpdate with Capacity := some (-3) } _ rfl).1 (-3)
      rfl (by decide)⟩

theorem UpdateRoom_ok_valid {db : DB} {id : Nat} {req : UpdateRoomRequest} {db' : DB}
    {r' room : Room} (hget : roomGetByID db id = some room)
    (h : UpdateRoom db id req = (db', .ok r')) :
    ∀ c, req.Capacity = some c → 1 ≤ c := by
  intro c hc
  by_contra hlt
  unfold UpdateRoom at h
  rw [hget] at h
  simp only at h
  rw [updateRoomCapacity_error hc (not_le.mp hlt)] at h
  simp at h

/-- What a successful `UpdateRoom` does to the features of the room: the room
read back has every feature it had before the call, and the result is the
stored features followed by the join rows `Save` has added for the struct's
list; the call succeeds whatever ids the list contains. -/
theorem UpdateRoom_keeps_features (db : DB) (id : Nat) (req : UpdateRoomRequest) (db' : DB)
    (r' room : Room) (hget : roomGetByID db id = some room)
    (h : UpdateRoom db id req = (db', .ok r')) :
    roomGetByID db' id = some r' ∧
    (∀ f ∈ room.Features, f ∈ r'.Features) ∧
    (∀ ids, req.FeatureIDs = some ids →
      r'.Features = saveFeatures room.Features (resolveFeatures db ids)) ∧
    (req.FeatureIDs = none → r'.Features = room.Features) ∧
    (∀ ids, ∃ db'' r'',
      UpdateRoom db id { req with FeatureIDs := some ids } = (db'', .ok r'')) := by
  have hv := UpdateRoom_ok_valid hget h
  obtain ⟨r0, r1, heq, hrb, -, -, -, -, -, -, hfeat⟩ := UpdateRoom_eq req hget hv
  rw [heq] at h
  simp only [Prod.mk.injEq, Except.ok.injEq] at h
  obtain ⟨hdb, hr⟩ := h
  subst hr
  subst hdb
  refine ⟨hrb, ?_, ?_, ?_, ?_⟩
  · intro f hf
    rw [hfeat]
    exact mem_saveFeatures_of_stored _ _ f hf
  · intro ids hids
    rw [hfeat, hids]
  · intro hnone
    rw [hfeat, hnone]
    exact saveFeatures_self _
  · intro ids
    obtain ⟨r2, r3, heq1, -⟩ := UpdateRoom_eq { req with FeatureIDs := some ids } hget hv
    exact ⟨_, r3, heq1⟩

/-- C24 (failing input): room 1 of `catalogDB` has the feature "projector" (id
1). A request that supplies the feature ids 2 and 9 succeeds; id 9 does not
resolve and is dropped, id 2 resolves to "whiteboard". The room read back has
both "projector" and "whiteboard": the feature that is not in the list has been
kept. -/
theorem UpdateRoom_features_not_replaced :
    (roomGetByID catalogDB 1).map (fun r => r.Features) = some [{ ID := 1, Name := "projector" }] ∧
      resolveFeatures catalogDB [2, 9] = [{ ID := 2, Name := "whiteboard" }] ∧
      (∃ db' r', UpdateRoom catalogDB 1 { emptyRoomUpdate with FeatureIDs := some [2, 9] }
          = (db', .ok r') ∧
        roomGetByID db' 1 = some r' ∧
        r'.Features = [{ ID := 1, Name := "projector" }, { ID := 2, Name := "whiteboard" }] ∧
        r'.Features ≠ resolveFeatures catalogDB [2, 9]) :=
  ⟨rfl, rfl, _, _, rfl, rfl, rfl, by decide⟩

/-- C25: `DeleteRoom` is a soft deactivation: on an existing active room it
succeeds and `GetRoomByID` still returns the room, with `IsActive = false` and
every other field unchanged; on an existing inactive room it fails with "room
is already inactive" and the store is the one it was before the call. -/
theorem DeleteRoom_soft (db : DB) (id : Nat) (room : Room)
    (hget : roomGetByID db id = some room) :
    (room.IsActive = true →
      (DeleteRoom db id).2 = .ok () ∧
        roomGetByID (DeleteRoom db id).1 id = some { room with IsActive := false }) ∧
    (room.IsActive = false →
      DeleteRoom db id = (db, .error "room is already inactive")) := by
  constructor
  · intro hact
    have hid0 : room.ID = id := roomGetByID_ID hget
    have hid : ({ room with IsActive := false } : Room).ID = id := hid0
    obtain ⟨h1, h2⟩ := roomUpdate_readback hget hid
    have hfeat : ({ room with IsActive := false } : Room).Features = room.Features := rfl
    rw [hfeat, saveFeatures_self] at h1 h2
    unfold DeleteRoom
    rw [hget]
    simp only [hact, Bool.not_true, Bool.false_eq_true, if_false]
    rw [h1]
    exact ⟨rfl, h2⟩
  · intro hina
    unfold DeleteRoom
    rw [hget]
    simp [hina]

theorem DeleteRoom_soft_witness :
    (DeleteRoom catalogDB 1).2 = .ok () ∧
      roomGetByID (DeleteRoom catalogDB 1).1 1 =
        some { ID := 1, Name := "R", Capacity := 10, IsActive := false,
               Features := [{ ID := 1, Name := "projector" }] } ∧
      DeleteRoom catalogDB 4 = (catalogDB, .error "room is already inactive") :=
  ⟨((DeleteRoom_soft catalogDB 1 _ rfl).1 rfl).1, ((DeleteRoom_soft catalogDB 1 _ rfl).1 rfl).2,
    (DeleteRoom_soft catalogDB 4 _ rfl).2 rfl⟩

/-! ### Pagination -/

/-- C26 (as stated, refuted): a limit above 100 is not clamped to 100 and a
limit below 1 is not clamped to 1; both are replaced by 10. -/
theorem GetPaginationParams_limit_not_clamped :
    (GetPaginationParams (queryContext [("limit", "500")])).Limit = 10 ∧
      (GetPaginationParams (queryContext [("limit", "500")])).Limit ≠ 100 ∧
      (GetPaginationParams (queryContext [("limit", "0")])).Limit = 10 ∧
      (GetPaginationParams (queryContext [("limit", "0")])).Limit ≠ 1 := by
  decide

/-- C26 (amended): `GetPaginationParams` never rejects: for every request it
returns a page of at least 1 and a limit within 1 and 100, an absent limit
giving 10; a page value below 1 becomes 1 and any other page value is kept; a
limit value below 1 or above 100 becomes the default 10 and any other limit
value is kept. -/
theorem GetPaginationParams_range (c : Context) :
    1 ≤ (GetPaginationParams c).Page ∧
    1 ≤ (GetPaginationParams c).Limit ∧ (GetPaginationParams c).Limit ≤ 100 ∧
    (c.query.lookup "limit" = none → (GetPaginationParams c).Limit = 10) ∧
    (GetPaginationParams c).Page = max 1 (Atoi (c.DefaultQuery "page" "1")) ∧
    (GetPaginationParams c).Limit =
      (if 1 ≤ Atoi (c.DefaultQuery "limit" "10") ∧ Atoi (c.DefaultQuery "limit" "10") ≤ 100
       then Atoi (c.DefaultQuery "limit" "10") else 10) := by
  have hp : (GetPaginationParams c).Page =
      if Atoi (c.DefaultQuery "page" "1") < 1 then 1 else Atoi (c.DefaultQuery "page" "1") := rfl
  have hl : (GetPaginationParams c).Limit =
      if (decide (Atoi (c.DefaultQuery "limit" "10") < 1)
          || decide (Atoi (c.DefaultQuery "limit" "10") > 100)) = true then 10
      else Atoi (c.DefaultQuery "limit" "10") := rfl
  generalize Atoi (c.DefaultQuery "page" "1") = pg at hp
  have hl2 : (GetPaginationParams c).Limit =
      (if 1 ≤ Atoi (c.DefaultQuery "limit" "10") ∧ Atoi (c.DefaultQuery "limit" "10") ≤ 100
       then Atoi (c.DefaultQuery "limit" "10") else 10) := by
    rw [hl]
    generalize Atoi (c.DefaultQuery "limit" "10") = lm
    by_cases h1 : lm < 1
    · have : ¬ (1 ≤ lm ∧ lm ≤ 100) := by omega
      simp [h1, this]
    · by_cases h2 : lm > 100
      · have : ¬ (1 ≤ lm ∧ lm ≤ 100) := by omega
        simp [h2, this]
      · have : 1 ≤ lm ∧ lm ≤ 100 := by omega
        simp [h1, h2, this]
  refine ⟨?_, ?_, ?_, ?_, ?_, hl2⟩
  · rw [hp]; split <;> omega
  · rw [hl2]; split <;> omega
  · rw [hl2]; split <;> omega
  · intro hnone
    rw [hl2]
    have : c.DefaultQuery "limit" "10" = "10" := by
      unfold Context.DefaultQuery
      rw [hnone]
      rfl
    rw [this]
    decide
  · rw [hp]
    split
    · omega
    · omega

theorem GetPaginationParams_range_witness :
    GetPaginationParams (queryContext [("page", "-2"), ("limit", "25")])
        = { Page := 1, Limit := 25 } ∧
      (GetPaginationParams (queryContext [("page", "3")])).Limit = 10 :=
  ⟨by decide,
    (GetPaginationParams_range (queryContext [("page", "3")])).2.2.2.1 rfl⟩

/-! ### UpdateUser handler -/

/-- C22: a user's role is changed only by an admin. For a request on an
existing route id whose body carries the role field, sent by a caller whose
role is not admin, the `UpdateUser` handler answers Forbidden and the store,
hence the target user's record, is unchanged, whether or not the caller is the
target user. -/
theorem UserHandler_UpdateUser_role (db : DB) (c : Context) (currentUserID : Nat)
    (currentUserRole : String) (req : UpdateUserRequest) (targetID : Nat)
    (hid : ParseUint32 (c.Param "id") = some targetID)
    (hrole : currentUserRole ≠ "admin") (hreq : req.Role ≠ none) :
    (UserHandler.UpdateUser db c currentUserID currentUserRole (some req)).1 = db ∧
    (∃ msg, (UserHandler.UpdateUser db c currentUserID currentUserRole (some req)).2
      = .forbidden msg) ∧
    userGetByID (UserHandler.UpdateUser db c currentUserID currentUserRole (some req)).1 targetID
      = userGetByID db targetID := by
  have hsome : req.Role.isSome = true := by
    cases hr : req.Role with
    | none => exact absurd hr hreq
    | some _ => rfl
  have hne : (currentUserRole != "admin") = true := by simpa using hrole
  have key : (UserHandler.UpdateUser db c currentUserID currentUserRole (some req)).1 = db ∧
      ∃ msg, (UserHandler.UpdateUser db c currentUserID currentUserRole (some req)).2
        = .forbidden msg := by
    unfold UserHandler.UpdateUser
    rw [hid]
    simp only
    by_cases h1 : (targetID != currentUserID && currentUserRole != "admin"
        && currentUserRole != "manager") = true
    · rw [if_pos h1]
      exact ⟨rfl, _, rfl⟩
    · rw [if_neg h1]
      have h2 : (req.Role.isSome && currentUserRole != "admin") = true := by
        rw [hsome, hne]; rfl
      rw [if_pos h2]
      exact ⟨rfl, _, rfl⟩
  exact ⟨key.1, key.2, by rw [key.1]⟩

theorem UserHandler_UpdateUser_role_witness :
    UserHandler.UpdateUser exampleDB (userRouteContext 2 RoleEmployee "2") 2 RoleEmployee
        (some (roleOnlyUpdate RoleAdmin))
      = (exampleDB, .forbidden "Only administrators can update user roles") ∧
    (UserHandler.UpdateUser exampleDB (userRouteContext 3 RoleManager "1") 3 RoleManager
        (some (roleOnlyUpdate RoleAdmin))).1 = exampleDB :=
  ⟨rfl, (UserHandler_UpdateUser_role exampleDB (userRouteContext 3 RoleManager "1") 3 RoleManager
    (roleOnlyUpdate RoleAdmin) 1 (by decide) (by decide) (by decide)).1⟩

/-! ### UpdateMeeting: failures leave the store untouched -/

/-- The two embeddings of `UpdateMeeting` agree: the service result is the
traced result, with the new store attached on success. -/
theorem UpdateMeeting_eq_traced (db : DB) (now : Time) (id userID : Nat)
    (req : UpdateMeetingRequest) :
    UpdateMeeting db now id userID req =
      match UpdateMeetingTraced db now id userID req with
      | (db', .ok m) => .ok (db', m)
      | (_, .error e) => .error e := by
  unfold UpdateMeeting UpdateMeetingTraced
  cases meetingGetByID db id with
  | none => rfl
  | some meeting0 =>
    simp only
    split
    · rfl
    split
    · rfl
    cases updateTimes db now (updateText meeting0 req) req with
    | error e => rfl
    | ok meeting3 =>
      simp only
      cases updateRoom db meeting3 req with
      | error e => rfl
      | ok meeting4 =>
        simp only
        generalize meetingUpdate db (meetingPreload db meeting0) (updateFlags meeting4 req) = r
        obtain ⟨db1, o⟩ := r
        cases o with
        | none => rfl
        | some updated =>
          simp only
          split <;> rfl

/-- The value of the traced `UpdateMeeting` for an existing meeting once the
authorization and the state check have passed: an error of the time or room
block comes with the input store. -/
theorem UpdateMeetingTraced_eq {db : DB} {id userID : Nat} {meeting0 : Meeting} (now : Time)
    (req : UpdateMeetingRequest)
    (hget : meetingGetByID db id = some meeting0)
    (hauth : organizerOrManager db meeting0 userID = true)
    (hst : (meeting0.Status == StatusCompleted || meeting0.Status == StatusCancelled) = false) :
    UpdateMeetingTraced db now id userID req =
      match updateTimes db now (updateText meeting0 req) req with
      | .error e => (db, .error e)
      | .ok meeting3 =>
        match updateRoom db meeting3 req with
        | .error e => (db, .error e)
        | .ok meeting4 =>
          ((match req.AttendeeIDs with
            | some ids =>
              reconcileAttendees
                (saveMeetingRow db
                  (saveReferences (meetingPreload db meeting0) (updateFlags meeting4 req))).1
                (saveReferences (meetingPreload db meeting0) (updateFlags meeting4 req)) ids
            | none =>
              (saveMeetingRow db
                (saveReferences (meetingPreload db meeting0) (updateFlags meeting4 req))).1),
           .ok (saveReferences (meetingPreload db meeting0) (updateFlags meeting4 req))) := by
  unfold UpdateMeetingTraced
  simp only [hget, hauth, hst, Bool.not_true, Bool.false_eq_true, if_false]
  cases h3 : updateTimes db now (updateText meeting0 req) req with
  | error e => rfl
  | ok meeting3 =>
    simp only
    cases h4 : updateRoom db meeting3 req with
    | error e => rfl
    | ok meeting4 =>
      simp only [meetingUpdate]
      have hid : (saveReferences (meetingPreload db meeting0) (updateFlags meeting4 req)).ID
          = id := by
        rw [(saveReferences_frame _ _).1, (updateFlags_frame meeting4 req).1, updateRoom_ok h4,
          (updateTimes_ok h3).1]
        simp only
        rw [(updateText_frame meeting0 req).1]
        exact meetingGetByID_ID hget
      generalize saveReferences (meetingPreload db meeting0) (updateFlags meeting4 req)
        = final at hid ⊢
      have hrb := saveMeetingRow_readback hget hid
      have h2 : (saveMeetingRow db final).2 = some final := by
        have : (saveMeetingRow db final).2
            = meetingGetByID (saveMeetingRow db final).1 final.ID := rfl
        rw [this, hid]
        exact hrb
      generalize hmu : saveMeetingRow db final = r at h2 hrb ⊢
      obtain ⟨db1, o⟩ := r
      simp only at h2 hrb
      subst h2
      simp only
      have hfin : meetingGetByID (match req.AttendeeIDs with
          | some ids => reconcileAttendees db1 final ids
          | none => db1) final.ID = some final := by
        rw [hid]
        cases req.AttendeeIDs with
        | none => exact hrb
        | some ids =>
          simp only
          unfold meetingGetByID at hrb ⊢
          rw [reconcileAttendees_meetings]
          exact hrb
      rw [hfin]

theorem UpdateMeetingTraced_error_store (db : DB) (now : Time) (id userID : Nat)
    (req : UpdateMeetingRequest) (e : String)
    (h : (UpdateMeetingTraced db now id userID req).2 = .error e) :
    (UpdateMeetingTraced db now id userID req).1 = db := by
  cases hget : meetingGetByID db id with
  | none => unfold UpdateMeetingTraced; rw [hget]
  | some meeting0 =>
    cases hauth : organizerOrManager db meeting0 userID with
    | false => unfold UpdateMeetingTraced; simp [hget, hauth]
    | true =>
      cases hst : (meeting0.Status == StatusCompleted || meeting0.Status == StatusCancelled) with
      | true =>
        unfold UpdateMeetingTraced
        simp only [hget, hauth, hst, Bool.not_true, Bool.false_eq_true, if_false, if_true]
      | false =>
        rw [UpdateMeetingTraced_eq now req hget hauth hst] at h ⊢
        cases h3 : updateTimes db now (updateText meeting0 req) req with
        | error e3 => rfl
        | ok meeting3 =>
          rw [h3] at h
          simp only at h ⊢
          cases h4 : updateRoom db meeting3 req with
          | error e4 => rfl
          | ok meeting4 =>
            rw [h4] at h
            simp only at h
            cases h

/-- C29: `UpdateMeeting` is atomic on failure: whenever it returns an error, the
run that keeps track of the store returns that error with the store it was
given, so every stored meeting and every attendee set is as before the call,
whatever changes the request carried. Every error it can return is one of
those raised before the write. -/
theorem UpdateMeeting_atomic (db : DB) (now : Time) (id userID : Nat)
    (req : UpdateMeetingRequest) (e : String)
    (h : UpdateMeeting db now id userID req = .error e) :
    UpdateMeetingTraced db now id userID req = (db, .error e) ∧
    meetingGetByID (UpdateMeetingTraced db now id userID req).1 id = meetingGetByID db id ∧
    attendeeIDs (UpdateMeetingTraced db now id userID req).1 id = attendeeIDs db id ∧
    e ∈ ["meeting not found", "only organizer or manager can update meeting",
         "cannot update completed or cancelled meeting",
         "meeting start time cannot be in the past", "end time must be after start time",
         "room is not available for the selected time", "room not found",
         "room is not active"] := by
  have hlink := UpdateMeeting_eq_traced db now id userID req
  rw [h] at hlink
  have h2 : (UpdateMeetingTraced db now id userID req).2 = .error e := by
    generalize UpdateMeetingTraced db now id userID req = r at hlink
    obtain ⟨db', res⟩ := r
    cases res with
    | error e' =>
      simp only [Except.error.injEq] at hlink
      rw [hlink]
    | ok m => cases hlink
  have h1 := UpdateMeetingTraced_error_store db now id userID req e h2
  refine ⟨Prod.ext h1 h2, by rw [h1], by rw [h1], ?_⟩
  cases hget : meetingGetByID db id with
  | none =>
    unfold UpdateMeeting at h
    rw [hget] at h
    simp only [Except.error.injEq] at h
    simp [← h]
  | some meeting0 =>
    cases hauth : organizerOrManager db meeting0 userID with
    | false =>
      unfold UpdateMeeting at h
      simp only [hget, hauth, Bool.not_false, if_true, Except.error.injEq] at h
      simp [← h]
    | true =>
      have := UpdateMeeting_error_of_authorized hget hauth h
      have hnot : e ≠ "record not found" := by
        intro he
        subst he
        cases hst : (meeting0.Status == StatusCompleted || meeting0.Status == StatusCancelled)
          with
        | true =>
          unfold UpdateMeeting at h
          simp only [hget, hauth, hst, Bool.not_true, Bool.false_eq_true, if_false, if_true,
            Except.error.injEq] at h
          exact absurd h (by decide)
        | false =>
          rw [UpdateMeeting_eq now req hget hauth hst] at h
          cases h3 : updateTimes db now (updateText meeting0 req) req with
          | error e3 =>
            rw [h3] at h
            simp only [Except.error.injEq] at h
            rcases updateTimes_error h3 with h' | h' | h' <;> rw [h'] at h <;>
              exact absurd h (by decide)
          | ok meeting3 =>
            rw [h3] at h
            simp only at h
            cases h4 : updateRoom db meeting3 req with
            | error e4 =>
              rw [h4] at h
              simp only [Except.error.injEq] at h
              rcases updateRoom_error h4 with h' | h' <;> rw [h'] at h <;>
                exact absurd h (by decide)
            | ok meeting4 =>
              rw [h4] at h
              cases h
      simp only [List.mem_cons, List.mem_singleton, List.not_mem_nil, or_false] at this ⊢
      rcases this with h' | h' | h' | h' | h' | h' | h'
      · exact Or.inr (Or.inr (Or.inl h'))
      · exact Or.inr (Or.inr (Or.inr (Or.inl h')))
      · exact Or.inr (Or.inr (Or.inr (Or.inr (Or.inl h'))))
      · exact Or.inr (Or.inr (Or.inr (Or.inr (Or.inr (Or.inl h')))))
      · exact Or.inr (Or.inr (Or.inr (Or.inr (Or.inr (Or.inr (Or.inl h'))))))
      · exact Or.inr (Or.inr (Or.inr (Or.inr (Or.inr (Or.inr (Or.inr h'))))))
      · exact absurd h' hnot

theorem UpdateMeeting_atomic_witness :
    UpdateMeetingTraced inProgressDB 630 1 1
        { timesUpdate 600 690 with Title := some "renamed", AttendeeIDs := some [3] }
      = (inProgressDB, .error "meeting start time cannot be in the past") :=
  (UpdateMeeting_atomic inProgressDB 630 1 1
    { timesUpdate 600 690 with Title := some "renamed", AttendeeIDs := some [3] }
    "meeting start time cannot be in the past" rfl).1

/-! ### Reporting aggregator -/

theorem GetRoomUtilization_UserID (db : DB) (filter : DashboardFilter) (u : Option Nat) :
    GetRoomUtilization db { filter with UserID := u } = GetRoomUtilization db filter := rfl

theorem GetTopActiveUsers_UserID (db : DB) (filter : DashboardFilter) (u : Option Nat)
    (limit : Int) :
    GetTopActiveUsers db { filter with UserID := u } limit = GetTopActiveUsers db filter limit :=
  rfl

/-- C27 (failing input): on `reportDB` with the filter "user 2", one meeting of
room 1 with status scheduled or completed matches the filter (the completed
meeting organized by user 2), yet `GetRoomUtilization` reports two bookings for
room 1: the completed meeting of user 1 is counted as well. Without a user in
the filter the count is the one of the matching meetings. -/
theorem GetRoomUtilization_counts_other_users :
    (filteredBookings reportDB (userFilter 2) 1).map (fun m => m.ID) = [2] ∧
      (GetRoomUtilization reportDB (userFilter 2)).map (fun d => (d.RoomID, d.TotalBookings))
        = [(1, 2), (2, 0)] ∧
      (filteredBookings reportDB noFilter 1).map (fun m => m.ID) = [1, 2] ∧
      (GetRoomUtilization reportDB noFilter).map (fun d => (d.RoomID, d.TotalBookings))
        = [(1, 2), (2, 0)] := by
  refine ⟨by decide, ?_, by decide, ?_⟩
  · rw [show userFilter 2 = { noFilter with UserID := some 2 } from rfl,
      GetRoomUtilization_UserID]
    decide
  · decide

/-- With a date bound in the filter, a room without a counted meeting in range
is not reported at all: the bound is a condition of the `WHERE` clause on the
joined meeting columns, which are NULL for such a room. Room 2 of `reportDB`
has no meeting; it is reported with zero bookings under `noFilter` and is
missing under a start bound that every meeting meets. -/
theorem GetRoomUtilization_date_bound_drops_rooms :
    (GetRoomUtilization reportDB noFilter).map (fun d => d.RoomID) = [1, 2] ∧
      (GetRoomUtilization reportDB { noFilter with StartDate := some 0 }).map
        (fun d => d.RoomID) = [1] := by
  constructor <;> decide

/-- C28 (failing input): on `reportDB` the filters "user 1" and "user 2" differ
only in `UserID`. They select different meetings in `GetMeetingsByStatus`, yet
`GetRoomUtilization` and `GetTopActiveUsers` return the same rows for both:
neither reads `UserID`. -/
theorem dashboard_UserID_not_shared :
    userFilter 1 = { userFilter 2 with UserID := some 1 } ∧
    GetMeetingsByStatus reportDB (userFilter 1) ≠ GetMeetingsByStatus reportDB (userFilter 2) ∧
    GetRoomUtilization reportDB (userFilter 1) = GetRoomUtilization reportDB (userFilter 2) ∧
    GetTopActiveUsers reportDB (userFilter 1) 10 = GetTopActiveUsers reportDB (userFilter 2) 10 :=
  ⟨rfl, by decide,
    GetRoomUtilization_UserID reportDB (userFilter 2) (some 1),
    GetTopActiveUsers_UserID reportDB (userFilter 2) (some 1) 10⟩

end MeetingSalt
